import Mathlib

/-!
# Chat server: room worker, lobby dispatcher and registry

A shallow embedding of `server.c`.

* C `int`s are `Int`; C strings are the list of their bytes before the
  terminating NUL (`utf8` gives the bytes of a literal of the source);
  fixed-size arrays are lists read with `getD` and written with `List.set`.
* Every `send` and `close` the server performs is recorded as an `Action`, in
  the order of the source.
* `chatroom_recv` is the body of the processing loop of `chatroom_thread` for
  one ready member, `refresh_names` its first locked section, `lobby_recv` the
  body of the command loop of `main_loop` for one ready connection (the
  blocking sub-dialogs included), `accept_client` its registration branch.
* `step` makes these the events of a transition system; each event is one
  locked section of the source, taken as atomic. `Reachable` are the states
  between events, from the state left by `default_rooms`.
* The calls of `pthread_mutex_lock` and `pthread_mutex_unlock` on a code path
  are given apart, as a list of `LockOp` (`join_pass_locks`,
  `chatroom_pass_locks`).
-/

namespace ChatServer

/-! ## Constants -/

def MAX_CLIENTS : Int := 20
def MAX_CHATROOMS : Int := 50
def MAX_ROOM_USERS : Int := 10
def SMALL_BUFF_SIZE : Nat := 64
def MEDIUM_BUFF_SIZE : Nat := 128
def MEDIUM_LARGE_BUFF_SIZE : Nat := 512
def LARGE_BUFF_SIZE : Nat := 1024
def CHAT_MODE : Int := 0
def GAME_MODE : Int := 1
def POLL_MODE : Int := 2
def MAX_POLL : Int := 10
def INT_MIN : Int := -2147483648
def INT_MAX : Int := 2147483647
def LONG_MIN : Int := -9223372036854775808
def LONG_MAX : Int := 9223372036854775807

/-! ## C strings -/

/-- The bytes of a C string, terminator excluded (so no byte of it is 0). -/
abbrev CStr := List Nat

/-- The bytes of a string literal of the source file (UTF-8). -/
def utf8 (s : String) : CStr := s.toUTF8.data.toList.map UInt8.toNat

def strlen (s : CStr) : Nat := s.length

/-- The byte `s[i]`; at `i = strlen s` this reads the terminator. -/
def charAt (s : CStr) (i : Nat) : Nat := s.getD i 0

def isdigit (c : Nat) : Bool := decide (48 ≤ c) && decide (c ≤ 57)

/-- The `isspace` of the C locale: space, and `\t \n \v \f \r`. -/
def isspace (c : Nat) : Bool := decide (c = 32) || (decide (9 ≤ c) && decide (c ≤ 13))

/-- Whether `strchr s c` is non-NULL; the terminator is part of the string, so
`c = 0` is always found. -/
def strchr (s : CStr) (c : Nat) : Bool := decide (c = 0) || s.contains c

/-- The string left in `buf` by `snprintf(buf, size, ...)` when the formatted
text is `full`: at most `size - 1` bytes are kept. -/
def snprintf (size : Nat) (full : CStr) : CStr := full.take (size - 1)

/-- The text of `%d`. -/
def fmt_d (n : Int) : CStr :=
  if n < 0 then 45 :: (Nat.toDigits 10 n.natAbs).map Char.toNat
  else (Nat.toDigits 10 n.toNat).map Char.toNat

/-- The text of `%s` for a possibly NULL pointer (glibc prints `(null)`). -/
def fmt_s (p : Option CStr) : CStr := p.getD (utf8 "(null)")

/-- The function `trim`: leading and trailing white space removed. -/
def trim (str : CStr) : CStr :=
  ((str.dropWhile isspace).reverse.dropWhile isspace).reverse

/-- The bytes `recv` put in the zeroed `buffer[MEDIUM_BUFF_SIZE]`, read as a C
string and cut by `buffer[strcspn(buffer, "\r\n")] = 0`. -/
def cut_line (recvd : List Nat) : CStr :=
  recvd.takeWhile (fun c => !(decide (c = 0) || decide (c = 13) || decide (c = 10)))

def tolower (c : Nat) : Nat := if 65 ≤ c ∧ c ≤ 90 then c + 32 else c

def strcasecmp_eq (a b : CStr) : Bool := decide (a.map tolower = b.map tolower)

/-- Value of a run of decimal digits. -/
def digits_value (ds : List Nat) : Nat := ds.foldl (fun acc d => acc * 10 + (d - 48)) 0

/-- The library call `strtol(input, &endptr, 10)` on an LP64 platform: the
value and the rest of the string at `endptr`. White space is skipped, one sign
is optional, the longest run of digits is converted and clamped to the range
of `long`; with no digit at all the value is 0 and `endptr` is `input`. -/
def strtol (input : CStr) : Int × CStr :=
  let s1 := input.dropWhile isspace
  let neg := decide (s1.head? = some 45)
  let s2 := if s1.head? = some 45 ∨ s1.head? = some 43 then s1.tail else s1
  let ds := s2.takeWhile isdigit
  if ds = [] then (0, input)
  else
    let v : Int := (digits_value ds : Nat)
    (if neg then max (-v) LONG_MIN else min v LONG_MAX, s2.dropWhile isdigit)

/-- The function `parse_valid_int`; `none` is the `false` return. -/
def parse_valid_int (input : CStr) : Option Int :=
  let val := (strtol input).1
  let endptr := (strtol input).2
  if endptr ≠ [] then none
  else if val < INT_MIN ∨ val > INT_MAX then none
  else some val

/-- Conversion of a `long` to `int` (two's complement wrap). -/
def wrap32 (v : Int) : Int := (v + 2147483648) % 4294967296 - 2147483648

/-- The library call `atoi`, which is `(int) strtol(s, NULL, 10)`. -/
def atoi (s : CStr) : Int := wrap32 (strtol s).1

/-! ## Number baseball -/

def is_valid_number (num : CStr) : Bool :=
  if strlen num ≠ 3 then false
  else if !isdigit (charAt num 0) || !isdigit (charAt num 1) || !isdigit (charAt num 2) then false
  else decide (charAt num 0 ≠ charAt num 1) && decide (charAt num 1 ≠ charAt num 2)
    && decide (charAt num 0 ≠ charAt num 2)

/-- One round of the loop of `evaluate_guess` on `(strikes, balls)`. -/
def evaluate_step (guess answer : CStr) (sb : Int × Int) (i : Nat) : Int × Int :=
  if charAt guess i = charAt answer i then (sb.1 + 1, sb.2)
  else if strchr answer (charAt guess i) then (sb.1, sb.2 + 1)
  else sb

/-- The function `evaluate_guess`: the pair `(strikes, balls)`. -/
def evaluate_guess (guess answer : CStr) : Int × Int :=
  (List.range 3).foldl (evaluate_step guess answer) (0, 0)

/-! ## Data model -/

inductive ClientState
  | STATE_LOBBY
  | STATE_IN_CHATROOM
deriving DecidableEq, Repr, Inhabited

structure ClientInfo where
  fd : Int
  user_name : CStr
  state : ClientState
  room_id : Int
deriving DecidableEq, Repr

/-- A zero-initialised slot of the global `clients` array. -/
instance : Inhabited ClientInfo := ⟨⟨0, [], ClientState.STATE_LOBBY, 0⟩⟩

/-- The values a `char *` of `user_names` takes: NULL (zero-initialised),
the `user_name` buffer of a slot of `clients`, or the literal `"Unknown"`. -/
inductive NamePtr
  | null
  | client (idx : Nat)
  | unknown
deriving DecidableEq, Repr, Inhabited

structure ChatRoom where
  id : Int
  title : CStr
  user_fds : List Int
  user_names : List NamePtr
  user_count : Int
  mode : Int
  game_host_fd : Int
  game_host_name : CStr
  game_answer : CStr
  poll_mode_stage : Int
  poll_count : Int
  poll_index : Int
  poll_list : List (Option CStr)
  poll_votes : List Int
  vote_received : List Int
deriving DecidableEq, Repr

/-- The global `clients` array with `client_count`. -/
structure Registry where
  clients : List ClientInfo
  client_count : Int
deriving DecidableEq, Repr

/-- What the server does to a connection: `send(fd, msg, strlen(msg), 0)` or
`close(fd)`. -/
inductive Action
  | send (fd : Int) (msg : CStr)
  | close (fd : Int)
deriving DecidableEq, Repr

/-- The outcome of one `recv(fd, buffer, sizeof(buffer) - 1, 0)`: a negative
return, or the bytes the peer has sent (none at all when it has closed). -/
inductive RecvResult
  | error
  | data (bytes : List Nat)
deriving DecidableEq, Repr

/-- The bytes stored in `buffer`: at most `sizeof(buffer) - 1`. -/
def RecvResult.buffer : RecvResult → List Nat
  | .error => []
  | .data bytes => bytes.take (MEDIUM_BUFF_SIZE - 1)

/-- The return value `n` of `recv`. -/
def RecvResult.n : RecvResult → Int
  | .error => -1
  | .data bytes => ((bytes.take (MEDIUM_BUFF_SIZE - 1)).length : Nat)

/-- The loop `for (i = 0; i < n; i++) a[i] = v`. -/
def fill_upto {α : Type} : Nat → α → List α → List α
  | 0, _, l => l
  | n + 1, v, l => (fill_upto n v l).set n v

/-- The string a `user_names` pointer points at. -/
def NamePtr.deref (reg : Registry) : NamePtr → CStr
  | .null => utf8 "(null)"
  | .client idx => (reg.clients.getD idx default).user_name
  | .unknown => utf8 "Unknown"

/-! ## Registry and room helpers -/

/-- The function `find_client_index`; `none` is the return value -1. -/
def find_client_index (reg : Registry) (fd : Int) : Option Nat :=
  (List.range reg.client_count.toNat).find? (fun i => decide ((reg.clients.getD i default).fd = fd))

/-- The function `get_user_index`; `none` is the return value -1. -/
def get_user_index (room : ChatRoom) (fd : Int) : Option Nat :=
  (List.range room.user_count.toNat).find? (fun i => decide (room.user_fds.getD i 0 = fd))

/-- The function `remove_client`. -/
def remove_client (reg : Registry) (index : Nat) : Registry × List Action :=
  ({ clients := reg.clients.set index (reg.clients.getD (reg.client_count - 1).toNat default),
     client_count := reg.client_count - 1 },
   [Action.close (reg.clients.getD index default).fd])

/-- The function `broadcast_to_room`. -/
def broadcast_to_room (room : ChatRoom) (msg : CStr) (except_fd : Int) : List Action :=
  ((List.range room.user_count.toNat).filter
      (fun i => decide (room.user_fds.getD i 0 ≠ except_fd))).map
    (fun i => Action.send (room.user_fds.getD i 0) msg)

/-- The function `start_poll`. -/
def start_poll (room : ChatRoom) (host_fd : Int) (host_name : CStr) : ChatRoom :=
  { room with
    mode := POLL_MODE
    game_host_fd := host_fd
    game_host_name := host_name.take (SMALL_BUFF_SIZE - 1)
    poll_mode_stage := 0
    poll_count := 0
    poll_index := 0
    poll_list := fill_upto MAX_POLL.toNat none room.poll_list
    poll_votes := fill_upto MAX_POLL.toNat 0 room.poll_votes
    vote_received := fill_upto MAX_ROOM_USERS.toNat (-1) room.vote_received }

/-- The function `reset_poll_state`. -/
def reset_poll_state (room : ChatRoom) : ChatRoom :=
  { room with
    poll_list := fill_upto MAX_POLL.toNat none room.poll_list
    poll_count := 0
    poll_index := 0
    poll_mode_stage := 0
    game_host_fd := -1
    game_host_name := []
    poll_votes := fill_upto MAX_ROOM_USERS.toNat 0 room.poll_votes
    vote_received := fill_upto MAX_ROOM_USERS.toNat (-1) room.vote_received }

/-- The function `remove_user`. -/
def remove_user (reg : Registry) (room : ChatRoom) (index : Nat) :
    Registry × ChatRoom × List Action :=
  let fd := room.user_fds.getD index 0
  let game_end : Bool := decide (room.mode = GAME_MODE ∧ fd = room.game_host_fd)
  let room1 : ChatRoom :=
    if game_end then { room with mode := CHAT_MODE, game_host_fd := -1, game_answer := [] }
    else room
  let acts : List Action :=
    if game_end then
      broadcast_to_room room1 (utf8 "[GAME] 호스트가 나가 게임이 종료되었습니다.\n") (-1)
    else []
  let room2 : ChatRoom :=
    if room1.mode = POLL_MODE ∧ room1.poll_mode_stage ≠ 2 ∧ fd = room1.game_host_fd then
      reset_poll_state { room1 with mode := CHAT_MODE }
    else room1
  let reg1 : Registry :=
    match find_client_index reg fd with
    | some idx =>
      let c : ClientInfo := reg.clients.getD idx default
      { reg with
        clients := reg.clients.set idx { c with state := ClientState.STATE_LOBBY, room_id := -1 } }
    | none => reg
  let cnt : Int := room2.user_count - 1
  (reg1,
   { room2 with
     user_count := cnt
     user_fds := room2.user_fds.set index (room2.user_fds.getD cnt.toNat 0)
     user_names := room2.user_names.set index (room2.user_names.getD cnt.toNat NamePtr.null) },
   acts)

/-- The text built by `send_chatroom_info` in `info[LARGE_BUFF_SIZE]`. -/
def chatroom_info_text (room : ChatRoom) : CStr :=
  let status : CStr :=
    if room.mode = CHAT_MODE then utf8 "Chat"
    else if room.mode = GAME_MODE then utf8 "Game"
    else if room.mode = POLL_MODE then utf8 "Poll"
    else utf8 "????"
  let info0 := snprintf LARGE_BUFF_SIZE (utf8 "<<<<< " ++ room.title ++ utf8 " >>>>>\n")
  let line1 := snprintf MEDIUM_BUFF_SIZE (utf8 "참여인원: " ++ fmt_d room.user_count ++ utf8 "\n")
  let info1 := if strlen info0 + strlen line1 < LARGE_BUFF_SIZE then info0 ++ line1 else info0
  let line2 := snprintf MEDIUM_BUFF_SIZE (utf8 "모드: " ++ status ++ utf8 "\n")
  if strlen info1 + strlen line2 < LARGE_BUFF_SIZE then info1 ++ line2 else info1

/-- The function `send_chatroom_info`. -/
def send_chatroom_info (room : ChatRoom) (idx : Nat) : List Action :=
  [Action.send (room.user_fds.getD idx 0) (chatroom_info_text room)]

/-- The loop that appends one line per poll item to `list[LARGE_BUFF_SIZE]`,
a line being dropped when it does not fit. -/
def append_lines (list : CStr) : List CStr → CStr
  | [] => list
  | line :: rest =>
    if strlen list + strlen line < LARGE_BUFF_SIZE then append_lines (list ++ line) rest
    else append_lines list rest

/-- The item list broadcast when voting starts. -/
def poll_list_text (room : ChatRoom) : CStr :=
  append_lines (utf8 "===== [POLL_LIST] =====\n")
    ((List.range room.poll_count.toNat).map (fun (i : Nat) =>
      snprintf MEDIUM_BUFF_SIZE
        (fmt_d ((i : Int) + 1) ++ utf8 ". " ++ fmt_s (room.poll_list.getD i none) ++ utf8 "\n")))

/-- The text of `"%s : %d 표\n"` for item `i`, before it is cut to the size of
`line`. -/
def poll_result_format (room : ChatRoom) (i : Nat) : CStr :=
  fmt_s (room.poll_list.getD i none) ++ utf8 " : " ++ fmt_d (room.poll_votes.getD i 0)
    ++ utf8 " 표\n"

/-- One line of the poll result, as formatted into `line[MEDIUM_BUFF_SIZE]`. -/
def poll_result_line (room : ChatRoom) (i : Nat) : CStr :=
  snprintf MEDIUM_BUFF_SIZE (poll_result_format room i)

/-- The tally broadcast when every member has voted. -/
def poll_result_text (room : ChatRoom) : CStr :=
  append_lines (utf8 "====== [POLL_RESULT] ======\n")
    ((List.range room.poll_count.toNat).map (poll_result_line room))

def menu_text : CStr :=
  utf8 "\n=== MENU ===\n1: 사용자 이름 설정\n2: 채팅방 입장\n3: 채팅방 개설\n4: 접속 종료\n0: 메뉴 재표시\n"

/-- The function `send_menu`. -/
def send_menu (client_fd : Int) : List Action := [Action.send client_fd menu_text]

/-! ## Room worker (`chatroom_thread`) -/

/-- The first locked section of one pass of `chatroom_thread`: every member's
cached name pointer is refreshed from the registry. -/
def refresh_names (reg : Registry) (room : ChatRoom) : ChatRoom :=
  { room with
    user_names := (List.range room.user_count.toNat).foldl
      (fun names i =>
        names.set i
          (match find_client_index reg (room.user_fds.getD i 0) with
           | some client_idx => NamePtr.client client_idx
           | none => NamePtr.unknown))
      room.user_names }

/-- The notice loop of the disconnect and `quit` branches: `msg` goes to every
member whose descriptor differs from `user_fd`. -/
def notify_others (room : ChatRoom) (user_fd : Int) (msg : CStr) : List Action :=
  ((List.range room.user_count.toNat).filter
      (fun j => decide (room.user_fds.getD j 0 ≠ user_fd))).map
    (fun j => Action.send (room.user_fds.getD j 0) msg)

/-- The branch `room->mode == GAME_MODE` for the line `buffer` of member `i`. -/
def game_line (reg : Registry) (room : ChatRoom) (i : Nat) (buffer : CStr) :
    ChatRoom × List Action :=
  let user_fd := room.user_fds.getD i 0
  let name := (room.user_names.getD i NamePtr.null).deref reg
  if user_fd = room.game_host_fd ∧ strlen room.game_answer = 0 then
    if is_valid_number buffer then
      let room1 := { room with game_answer := buffer.take 3 }
      (room1,
       broadcast_to_room room1
         (snprintf MEDIUM_LARGE_BUFF_SIZE
           (utf8 "====== 숫자 야구 게임이 시작되었습니다! ======\n===== HOST : "
             ++ room.game_host_name ++ utf8 " =====\n")) (-1))
    else
      (room, [Action.send user_fd (utf8 "[GAME] 유효하지 않은 숫자입니다. 다시 입력하세요.\n")])
  else if user_fd ≠ room.game_host_fd ∧ strlen room.game_answer = 3 then
    if !is_valid_number buffer then
      (room, [Action.send user_fd (utf8 "[GAME] 3자리 숫자를 입력하세요. (중복 없음)\n")])
    else
      let s := (evaluate_guess buffer room.game_answer).1
      let b := (evaluate_guess buffer room.game_answer).2
      let acts := broadcast_to_room room
        (snprintf MEDIUM_LARGE_BUFF_SIZE
          (utf8 "[" ++ name ++ utf8 "] " ++ buffer ++ utf8 "의 결과: " ++ fmt_d s
            ++ utf8 " 스트라이크, " ++ fmt_d b ++ utf8 " 볼\n")) (-1)
      if s = 3 then
        ({ room with mode := CHAT_MODE, game_answer := [] },
         acts ++ broadcast_to_room room
           (snprintf MEDIUM_LARGE_BUFF_SIZE
             (utf8 "[GAME] " ++ name ++ utf8 "님이 정답을 맞췄습니다! 게임 종료.\n")) (-1))
      else (room, acts)
  else (room, [])

/-- The two assignments that record an accepted vote:
`poll_votes[vote]++; vote_received[user_idx] = vote;`. -/
def record_vote (room : ChatRoom) (user_idx : Nat) (vote : Int) : ChatRoom :=
  { room with
    poll_votes := room.poll_votes.set vote.toNat (room.poll_votes.getD vote.toNat 0 + 1)
    vote_received := room.vote_received.set user_idx vote }

/-- The loop that sets `all_voted`. -/
def all_voted (room : ChatRoom) : Bool :=
  (List.range room.user_count.toNat).all (fun i => decide (room.vote_received.getD i 0 ≠ -1))

/-- The branch `room->mode == POLL_MODE` for the line `buffer` of member `i`;
`none` when no stage branch takes the line, which then falls through to the
plain chat branch. -/
def poll_line (room : ChatRoom) (i : Nat) (buffer : CStr) : Option (ChatRoom × List Action) :=
  let user_fd := room.user_fds.getD i 0
  if user_fd = room.game_host_fd ∧ room.poll_mode_stage = 0 then
    match parse_valid_int buffer with
    | some poll_count =>
      if poll_count > 0 ∧ poll_count ≤ MAX_POLL then
        some ({ room with poll_count := poll_count, poll_index := 0, poll_mode_stage := 1 },
              [Action.send user_fd (utf8 "[POLL] 항목 1을 입력하세요.\n")])
      else some (room, [Action.send user_fd (utf8 "[POLL] 유효한 숫자를 입력하세요 (1~10)\n")])
    | none => some (room, [Action.send user_fd (utf8 "[POLL] 유효한 숫자를 입력하세요 (1~10)\n")])
  else if user_fd = room.game_host_fd ∧ room.poll_mode_stage = 1 then
    let room1 : ChatRoom :=
      { room with
        poll_list := room.poll_list.set room.poll_index.toNat (some buffer)
        poll_votes := room.poll_votes.set room.poll_index.toNat 0
        poll_index := room.poll_index + 1 }
    if room1.poll_index < room1.poll_count then
      some (room1,
        [Action.send user_fd
          (snprintf SMALL_BUFF_SIZE
            (utf8 "[POLL] 항목 " ++ fmt_d (room1.poll_index + 1) ++ utf8 "을 입력하세요\n"))])
    else
      let room2 : ChatRoom := { room1 with poll_mode_stage := 2 }
      some ({ room2 with
              vote_received := fill_upto room2.user_count.toNat (-1) room2.vote_received },
            (List.range room2.user_count.toNat).map
              (fun j => Action.send (room2.user_fds.getD j 0) (poll_list_text room2)))
  else if room.poll_mode_stage = 2 then
    match get_user_index room user_fd with
    | none => some (room, [])
    | some user_idx =>
      if room.vote_received.getD user_idx 0 ≠ -1 then some (room, [])
      else
        let vote := wrap32 (atoi buffer - 1)
        if vote < 0 ∨ vote ≥ room.poll_count then
          some (room, [Action.send user_fd (utf8 "[POLL] 올바른 번호를 입력하세요\n")])
        else
          let room1 : ChatRoom := record_vote room user_idx vote
          let acts := [Action.send user_fd (utf8 "선택 완료!\n")]
          if all_voted room1 then
            some (reset_poll_state { room1 with mode := CHAT_MODE },
                  acts ++ broadcast_to_room room1 (poll_result_text room1) (-1))
          else some (room1, acts)
  else none

/-- The plain chat branch for the line `buffer` of member `i`. -/
def chat_line (reg : Registry) (room : ChatRoom) (i : Nat) (buffer : CStr) :
    ChatRoom × List Action :=
  let user_fd := room.user_fds.getD i 0
  let name := (room.user_names.getD i NamePtr.null).deref reg
  if room.user_count = 1 then
    (room, [Action.send user_fd (utf8 "[NOTICE] 현재 채팅방에 혼자 있습니다.\n")])
  else if room.user_count > 1 then
    (room,
     (List.range room.user_count.toNat).map (fun j =>
       let target_fd := room.user_fds.getD j 0
       if target_fd = user_fd then
         Action.send target_fd (snprintf LARGE_BUFF_SIZE (utf8 "[ME] " ++ buffer ++ utf8 "\n"))
       else
         Action.send target_fd
           (snprintf LARGE_BUFF_SIZE (utf8 "[" ++ name ++ utf8 "] " ++ buffer ++ utf8 "\n"))))
  else ({ room with user_count := 0 }, [])

/-- One round of the processing loop of `chatroom_thread`: member `i` is
ready and its `recv` gives `rr`. The result is the registry, the room and the
sends and closes made, in order. -/
def chatroom_recv (reg : Registry) (room : ChatRoom) (i : Nat) (rr : RecvResult) :
    Registry × ChatRoom × List Action :=
  if ¬ ((i : Int) < room.user_count) then (reg, room, [])
  else
    let user_fd := room.user_fds.getD i 0
    let name := (room.user_names.getD i NamePtr.null).deref reg
    if rr.n < 0 then (reg, room, [])
    else if rr.n = 0 then
      let notices := notify_others room user_fd
        (snprintf SMALL_BUFF_SIZE
          (utf8 "[NOTICE] 사용자 " ++ name ++ utf8 "님이 채팅방을 나갔습니다.\n"))
      let r := remove_user reg room i
      (r.1, r.2.1, notices ++ [Action.close user_fd] ++ r.2.2)
    else
      let buffer := cut_line rr.buffer
      if buffer = utf8 "quit" then
        let notices := notify_others room user_fd
          (snprintf SMALL_BUFF_SIZE
            (utf8 "[NOTICE] " ++ name ++ utf8 "님이 채팅방에서 나갔습니다.\n"))
        let r := remove_user reg room i
        (r.1, r.2.1, notices ++ r.2.2 ++ send_menu user_fd)
      else if buffer = utf8 "info" then (reg, room, send_chatroom_info room i)
      else if buffer = utf8 "game" ∧ room.mode = CHAT_MODE then
        (reg,
         { room with
           mode := GAME_MODE
           game_host_fd := user_fd
           game_host_name := name.take (SMALL_BUFF_SIZE - 1)
           game_answer := [] },
         [Action.send user_fd (utf8 "[GAME] 호스트는 3자리 숫자를 입력하세요 (중복 없음):\n")])
      else if room.mode = GAME_MODE then
        (reg, (game_line reg room i buffer).1, (game_line reg room i buffer).2)
      else if buffer = utf8 "poll" ∧ room.mode = CHAT_MODE then
        (reg, start_poll room user_fd name,
         [Action.send user_fd (utf8 "[POLL] 호스트는 항목개수를 입력하세요 (1 ~ 10)\n")])
      else
        match (if room.mode = POLL_MODE then poll_line room i buffer else none) with
        | some r => (reg, r.1, r.2)
        | none => (reg, (chat_line reg room i buffer).1, (chat_line reg room i buffer).2)

/-! ## Lobby dispatcher (`main_loop`) -/

/-- A zero-initialised slot of the global `chatrooms` array. -/
instance : Inhabited ChatRoom :=
  ⟨{ id := 0, title := [], user_fds := List.replicate 10 0,
     user_names := List.replicate 10 NamePtr.null, user_count := 0, mode := 0,
     game_host_fd := 0, game_host_name := [], game_answer := [], poll_mode_stage := 0,
     poll_count := 0, poll_index := 0, poll_list := List.replicate 10 none,
     poll_votes := List.replicate 10 0, vote_received := List.replicate 10 0 }⟩

/-- The global state of the server. `workers` lists the slots of `chatrooms`
for which `pthread_create` has started a `chatroom_thread`. -/
structure Server where
  reg : Registry
  chatrooms : List ChatRoom
  room_count : Int
  workers : List Nat
deriving DecidableEq, Repr

/-- The loop of `send_room_list`; it stops at the first line that does not fit. -/
def room_list_lines (buffer : CStr) : List CStr → CStr
  | [] => buffer
  | line :: rest =>
    if strlen buffer + strlen line < LARGE_BUFF_SIZE then room_list_lines (buffer ++ line) rest
    else buffer

/-- The function `send_room_list`. -/
def send_room_list (s : Server) (client_fd : Int) : List Action :=
  if s.room_count ≤ 0 then [Action.send client_fd (utf8 "개설된 채팅방이 없습니다.\n")]
  else
    [Action.send client_fd
      (room_list_lines
        (snprintf LARGE_BUFF_SIZE
          (utf8 "\n채팅방 번호 입력 (되돌아가기: b)\n\n=== ChatRoom info ===\n"))
        ((List.range s.room_count.toNat).map (fun (k : Nat) =>
          let room : ChatRoom := s.chatrooms.getD k default
          snprintf MEDIUM_BUFF_SIZE
            (fmt_d room.id ++ utf8 ": " ++ room.title ++ utf8 " (" ++ fmt_d room.user_count
              ++ utf8 "/" ++ fmt_d MAX_ROOM_USERS ++ utf8 ")\n"))))]

/-- How the handling of one ready lobby connection ends. `ok`: the dispatcher is
back in its readiness loop. `blocked`: it waits in `recv` inside a sub-dialog
and no further input comes. `runaway`: a sub-dialog saw `n <= 0`, ran
`remove_client(i); i--;` and its `continue` re-entered the `while (!done)` loop
with `done` still 0; the state and the index at that point are given.
`undefined`: an uninitialised `cname` is about to be read. -/
inductive Outcome
  | ok (s : Server) (acts : List Action)
  | blocked (s : Server) (acts : List Action)
  | runaway (s : Server) (i : Int) (acts : List Action)
  | undefined (s : Server) (acts : List Action)

/-- The same outcome with `acts` done first. -/
def Outcome.pre (acts : List Action) : Outcome → Outcome
  | .ok s a => .ok s (acts ++ a)
  | .blocked s a => .blocked s (acts ++ a)
  | .runaway s i a => .runaway s i (acts ++ a)
  | .undefined s a => .undefined s (acts ++ a)

/-- The state of a completed handling. -/
def Outcome.state? : Outcome → Option Server
  | .ok s _ => some s
  | _ => none

/-- The sends and closes of an outcome. -/
def Outcome.acts : Outcome → List Action
  | .ok _ a => a
  | .blocked _ a => a
  | .runaway _ _ a => a
  | .undefined _ a => a

/-- The sub-dialog of menu `1` for `clients[i]`; `inputs` are the results of the
successive `recv` calls on its connection. -/
def rename_dialog (s : Server) (i : Nat) (fd : Int) : List RecvResult → Outcome
  | [] => Outcome.blocked s [Action.send fd (utf8 "새로운 이름을 입력하세요.\n")]
  | rr :: rest =>
    if rr.n ≤ 0 then
      Outcome.runaway { s with reg := (remove_client s.reg i).1 } ((i : Int) - 1)
        ([Action.send fd (utf8 "새로운 이름을 입력하세요.\n")] ++ (remove_client s.reg i).2)
    else if strlen (trim (cut_line rr.buffer)) = 0 then
      (rename_dialog s i fd rest).pre
        [Action.send fd (utf8 "새로운 이름을 입력하세요.\n"),
         Action.send fd (utf8 "이름은 비워둘 수 없습니다. 다시 입력해주세요.\n")]
    else
      let c : ClientInfo := s.reg.clients.getD i default
      Outcome.ok
        { s with
          reg := { s.reg with
            clients := s.reg.clients.set i
              { c with
                user_name := snprintf SMALL_BUFF_SIZE ((trim (cut_line rr.buffer)).take 31) } } }
        ([Action.send fd (utf8 "새로운 이름을 입력하세요.\n"),
          Action.send fd (utf8 "이름이 성공적으로 변경되었습니다.")] ++ send_menu fd)

/-- The sub-dialog of menu `2` for `clients[i]`. -/
def join_dialog (s : Server) (i : Nat) (fd : Int) : List RecvResult → Outcome
  | [] => Outcome.blocked s (send_room_list s fd)
  | rr :: rest =>
    if rr.n ≤ 0 then
      Outcome.runaway { s with reg := (remove_client s.reg i).1 } ((i : Int) - 1)
        (send_room_list s fd ++ (remove_client s.reg i).2)
    else
      let rnum := trim (cut_line rr.buffer)
      if strlen rnum = 0 then
        (join_dialog s i fd rest).pre
          (send_room_list s fd ++ [Action.send fd (utf8 "입장할 채팅방 번호를 입력하세요.\n")])
      else if strcasecmp_eq rnum (utf8 "b") then
        Outcome.ok s (send_room_list s fd ++ send_menu fd)
      else
        match parse_valid_int rnum with
        | none =>
          (join_dialog s i fd rest).pre
            (send_room_list s fd ++ [Action.send fd (utf8 "유효한 숫자를 입력해주세요.\n")])
        | some room_id =>
          if room_id ≥ 0 ∧ room_id < s.room_count then
            let room : ChatRoom := s.chatrooms.getD room_id.toNat default
            if room.user_count < MAX_ROOM_USERS then
              let c : ClientInfo := s.reg.clients.getD i default
              Outcome.ok
                { s with
                  chatrooms := s.chatrooms.set room_id.toNat
                    { room with
                      user_fds := room.user_fds.set room.user_count.toNat fd
                      user_count := room.user_count + 1 }
                  reg := { s.reg with
                    clients := s.reg.clients.set i
                      { c with state := ClientState.STATE_IN_CHATROOM, room_id := room_id } } }
                (send_room_list s fd ++
                  [Action.send fd
                    (snprintf MEDIUM_LARGE_BUFF_SIZE
                      (utf8 "채팅방 " ++ room.title ++ utf8 " (" ++ fmt_d room_id
                        ++ utf8 ")에 입장했습니다.\n"))])
            else
              (join_dialog s i fd rest).pre
                (send_room_list s fd ++
                  [Action.send fd (utf8 "해당 채팅방은 인원이 가득 찼습니다.\n")])
          else
            (join_dialog s i fd rest).pre
              (send_room_list s fd ++ [Action.send fd (utf8 "존재하지 않는 채팅방입니다.\n")])

/-- The loop `for (j = 0; j < MAX_CHATROOMS; j++)` of menu `3` over the slots
`js`; `spawn j` tells whether `pthread_create` succeeds for slot `j`. -/
def create_room_loop (cname : CStr) (spawn : Nat → Bool) (fd : Int) :
    List Nat → Server → Server × List Action
  | [], s => (s, [])
  | j :: rest, s =>
    let room : ChatRoom := s.chatrooms.getD j default
    if room.title = [] then
      let room1 : ChatRoom :=
        { room with
          id := (j : Int)
          title := snprintf MEDIUM_BUFF_SIZE (cname.take 31)
          user_count := 0
          mode := CHAT_MODE
          game_host_fd := -1
          game_answer := [] }
      if spawn j then
        ({ s with
           chatrooms := s.chatrooms.set j room1
           room_count := s.room_count + 1
           workers := j :: s.workers },
         [Action.send fd
           (snprintf MEDIUM_BUFF_SIZE
             (utf8 "채팅방 " ++ cname.take 31 ++ utf8 "이 개설되었습니다."))])
      else
        create_room_loop cname spawn fd rest
          { s with
            chatrooms := s.chatrooms.set j
              { room1 with title := [], user_count := 0, mode := CHAT_MODE, game_host_fd := -1 } }
    else create_room_loop cname spawn fd rest s

/-- The code of menu `3` after its `while (!done)` loop. -/
def create_finish (s : Server) (cname : CStr) (spawn : Nat → Bool) (fd : Int)
    (acts : List Action) : Outcome :=
  Outcome.ok (create_room_loop cname spawn fd (List.range MAX_CHATROOMS.toNat) s).1
    (acts ++ (create_room_loop cname spawn fd (List.range MAX_CHATROOMS.toNat) s).2
      ++ send_menu fd)

/-- What each round of the `while (!done)` loop of menu `3` sends before its
`recv`: with a full room table the refusal and the menu come first. -/
def create_prompt (s : Server) (fd : Int) : List Action :=
  (if s.room_count ≥ MAX_CHATROOMS then
    [Action.send fd (utf8 "더 이상 채팅방을 개설할 수 없습니다.\n")] ++ send_menu fd
   else []) ++ [Action.send fd (utf8 "개설할 채팅방 이름을 입력하세요.\n")]

/-- The sub-dialog of menu `3` for `clients[i]`. With a full room table `done`
is already 1 when the title is read, so the loop body runs once. -/
def create_dialog (s : Server) (i : Nat) (fd : Int) (spawn : Nat → Bool) :
    List RecvResult → Outcome
  | [] => Outcome.blocked s (create_prompt s fd)
  | rr :: rest =>
    if rr.n ≤ 0 then
      let s1 : Server := { s with reg := (remove_client s.reg i).1 }
      let acts1 := create_prompt s fd ++ (remove_client s.reg i).2
      if s.room_count ≥ MAX_CHATROOMS then
        if (List.range MAX_CHATROOMS.toNat).any
            (fun j => decide ((s1.chatrooms.getD j default).title = [])) then
          Outcome.undefined s1 acts1
        else Outcome.ok s1 (acts1 ++ send_menu fd)
      else Outcome.runaway s1 ((i : Int) - 1) acts1
    else if strlen (trim (cut_line rr.buffer)) = 0 then
      if s.room_count ≥ MAX_CHATROOMS then
        create_finish s (trim (cut_line rr.buffer)) spawn fd
          (create_prompt s fd ++ [Action.send fd (utf8 "채팅방 이름은 비워둘 수 없습니다.\n")]
            ++ send_menu fd)
      else
        (create_dialog s i fd spawn rest).pre
          (create_prompt s fd ++ [Action.send fd (utf8 "채팅방 이름은 비워둘 수 없습니다.\n")]
            ++ send_menu fd)
    else create_finish s (trim (cut_line rr.buffer)) spawn fd (create_prompt s fd)

/-- The registration of a new connection in `main_loop`: `cli_fd` is the
result of `accept` and `rr` that of the first `recv` on it. -/
def accept_client (s : Server) (cli_fd : Int) (rr : RecvResult) : Server × List Action :=
  if cli_fd ≥ 0 then
    if rr.n < 0 then (s, [])
    else if rr.n = 0 then (s, [Action.close cli_fd])
    else
      let name := trim (cut_line rr.buffer)
      if s.reg.client_count < MAX_CLIENTS then
        let idx := s.reg.client_count
        let user_name : CStr :=
          if strlen name = 0 then snprintf SMALL_BUFF_SIZE (utf8 "User" ++ fmt_d (idx + 1))
          else snprintf SMALL_BUFF_SIZE name
        ({ s with
           reg := {
             clients := s.reg.clients.set idx.toNat
               { fd := cli_fd, user_name := user_name, state := ClientState.STATE_LOBBY,
                 room_id := -1 }
             client_count := s.reg.client_count + 1 } },
         send_menu cli_fd)
      else
        (s, [Action.send cli_fd (utf8 "서버에 인원이 가득 찼습니다.\n"), Action.close cli_fd])
  else (s, [])

/-- One round of the command loop of `main_loop`: the connection of
`clients[i]` is ready, its first `recv` gives `rr`, and the later `recv` calls
of a sub-dialog give `more`. -/
def lobby_recv (s : Server) (i : Nat) (rr : RecvResult) (more : List RecvResult)
    (spawn : Nat → Bool) : Outcome :=
  if ¬ ((i : Int) < s.reg.client_count) then Outcome.ok s []
  else
    let fd := (s.reg.clients.getD i default).fd
    if (s.reg.clients.getD i default).state ≠ ClientState.STATE_LOBBY then Outcome.ok s []
    else if rr.n < 0 then Outcome.ok s []
    else if rr.n = 0 then
      Outcome.ok { s with reg := (remove_client s.reg i).1 } (remove_client s.reg i).2
    else
      let menu := trim (cut_line rr.buffer)
      if strlen menu = 0 then
        Outcome.ok s ([Action.send fd (utf8 " 메뉴를 비워둘 수 없습니다.\n")] ++ send_menu fd)
      else if menu = utf8 "0" then Outcome.ok s (send_menu fd)
      else if menu = utf8 "1" then rename_dialog s i fd more
      else if menu = utf8 "2" then join_dialog s i fd more
      else if menu = utf8 "3" then create_dialog s i fd spawn more
      else if menu = utf8 "4" then
        Outcome.ok { s with reg := (remove_client s.reg i).1 } (remove_client s.reg i).2
      else Outcome.ok s [Action.send fd (utf8 "잘못된 명령입니다.\n")]

/-- The loop of `default_rooms` over the slots `js`. -/
def default_rooms_loop (spawn : Nat → Bool) : List Nat → Server → Server
  | [], s => s
  | i :: rest, s =>
    let room : ChatRoom := s.chatrooms.getD i default
    let room1 : ChatRoom :=
      { room with
        id := (i : Int)
        title := snprintf MEDIUM_BUFF_SIZE (utf8 "Chatroom-" ++ fmt_d (i : Int))
        user_count := 0
        mode := CHAT_MODE
        game_host_fd := -1
        game_answer := [] }
    if spawn i then
      default_rooms_loop spawn rest
        { s with
          chatrooms := s.chatrooms.set i room1
          room_count := s.room_count + 1
          workers := i :: s.workers }
    else
      default_rooms_loop spawn rest
        { s with
          chatrooms := s.chatrooms.set i
            { room1 with title := [], user_count := 0, mode := CHAT_MODE, game_host_fd := -1 } }

/-- The zero-initialised globals at program start. -/
def zero_server : Server :=
  { reg := { clients := List.replicate MAX_CLIENTS.toNat default, client_count := 0 }
    chatrooms := List.replicate MAX_CHATROOMS.toNat default
    room_count := 0
    workers := [] }

/-- The function `default_rooms`, run on the zero-initialised globals. -/
def default_rooms (spawn : Nat → Bool) : Server :=
  default_rooms_loop spawn (List.range 3) zero_server

/-! ## The server as a transition system -/

/-- What can happen to the server. Each event is one locked section of the
source, taken as atomic. -/
inductive Event
  | accept (cli_fd : Int) (rr : RecvResult)
  | lobby (i : Nat) (rr : RecvResult) (more : List RecvResult) (spawn : Nat → Bool)
  | refresh (room : Nat)
  | room (room : Nat) (i : Nat) (rr : RecvResult)

/-- The effect of an event. Room events only happen in slots with a worker. -/
def step (s : Server) : Event → Outcome
  | .accept cli_fd rr => Outcome.ok (accept_client s cli_fd rr).1 (accept_client s cli_fd rr).2
  | .lobby i rr more spawn => lobby_recv s i rr more spawn
  | .refresh k =>
    if k ∈ s.workers then
      Outcome.ok
        { s with chatrooms := s.chatrooms.set k (refresh_names s.reg (s.chatrooms.getD k default)) }
        []
    else Outcome.ok s []
  | .room k i rr =>
    if k ∈ s.workers then
      let r := chatroom_recv s.reg (s.chatrooms.getD k default) i rr
      Outcome.ok { s with reg := r.1, chatrooms := s.chatrooms.set k r.2.1 } r.2.2
    else Outcome.ok s []

/-- The state after a list of events, when each of them completes. -/
def run (s : Server) : List Event → Option Server
  | [] => some s
  | e :: rest =>
    match (step s e).state? with
    | some s1 => run s1 rest
    | none => none

/-- The states the server can be in between two events. -/
inductive Reachable : Server → Prop
  | init (spawn : Nat → Bool) : Reachable (default_rooms spawn)
  | step (s : Server) (e : Event) (s1 : Server) (acts : List Action) :
      Reachable s → step s e = Outcome.ok s1 acts → Reachable s1

/-! ## Vocabulary of the properties -/

/-- The number of positions `i < 3` at which `p i` holds. -/
def count_positions (p : Nat → Bool) : Int := (((List.range 3).filter p).length : Nat)

/-! ## Concrete inputs -/

/-- What `recv` gives when the peer has sent the line `s`. -/
def sent_line (s : String) : RecvResult := RecvResult.data (utf8 s ++ [10])

/-- A registry with three clients, all in room 0. -/
def example_registry : Registry :=
  { clients :=
      [{ fd := 4, user_name := utf8 "alice", state := ClientState.STATE_IN_CHATROOM, room_id := 0 },
       { fd := 5, user_name := utf8 "bob", state := ClientState.STATE_IN_CHATROOM, room_id := 0 },
       { fd := 6, user_name := utf8 "carol", state := ClientState.STATE_IN_CHATROOM, room_id := 0 }]
      ++ List.replicate 17 default
    client_count := 3 }

/-- Room 0 in Chat mode with the members 4, 5 and 6. -/
def example_room : ChatRoom :=
  { (default : ChatRoom) with
    title := utf8 "Chatroom-0"
    user_fds := [4, 5, 6, 0, 0, 0, 0, 0, 0, 0]
    user_names := [NamePtr.client 0, NamePtr.client 1, NamePtr.client 2] ++
      List.replicate 7 NamePtr.null
    user_count := 3
    game_host_fd := -1 }

/-- The example room after member 4 has started a game. -/
def example_game_room : ChatRoom :=
  { example_room with mode := GAME_MODE, game_host_fd := 4, game_host_name := utf8 "alice" }

/-- The example room after member 4 has typed `poll`. -/
def example_poll_room : ChatRoom := start_poll example_room 4 (utf8 "alice")

/-- Between `r` and `r1` the poll stage has not gone back within the same
mode, or the room has returned to Chat mode with the stage reset. -/
def StageForward (r r1 : ChatRoom) : Prop :=
  (r1.mode = r.mode ∧ r.poll_mode_stage ≤ r1.poll_mode_stage
      ∧ (r1.poll_mode_stage = 0 → r.poll_mode_stage = 0))
    ∨ (r1.mode = CHAT_MODE ∧ r1.poll_mode_stage = 0)

/-- The rounds `(i, rr)` of the processing loop of one room worker, in order. -/
def worker_run (reg : Registry) (room : ChatRoom) : List (Nat × RecvResult) → Registry × ChatRoom
  | [] => (reg, room)
  | (i, rr) :: rest =>
    worker_run (chatroom_recv reg room i rr).1 (chatroom_recv reg room i rr).2.1 rest

/-- A registry with the clients 4 and 5 in room 0 and client 6 in the lobby. -/
def pair_registry : Registry :=
  { clients :=
      [{ fd := 4, user_name := utf8 "alice", state := ClientState.STATE_IN_CHATROOM, room_id := 0 },
       { fd := 5, user_name := utf8 "bob", state := ClientState.STATE_IN_CHATROOM, room_id := 0 },
       { fd := 6, user_name := utf8 "carol", state := ClientState.STATE_LOBBY, room_id := -1 }]
      ++ List.replicate 17 default
    client_count := 3 }

/-- Room 0 in Chat mode with the members 4 and 5. -/
def pair_room : ChatRoom :=
  { (default : ChatRoom) with
    title := utf8 "Chatroom-0"
    user_fds := [4, 5, 0, 0, 0, 0, 0, 0, 0, 0]
    user_names := [NamePtr.client 0, NamePtr.client 1] ++ List.replicate 8 NamePtr.null
    user_count := 2
    game_host_fd := -1 }

/-- The pair room after host 4 has opened a poll on `Pizza` and `Burger` and
has voted 1. -/
def pizza_poll : Registry × ChatRoom :=
  worker_run pair_registry pair_room
    [(0, sent_line "poll"), (0, sent_line "2"), (0, sent_line "Pizza"),
     (0, sent_line "Burger"), (0, sent_line "1")]

/-- The pair room after host 4 has opened a poll on a single item whose label
is 127 bytes long, the most one `recv` can deliver. -/
def long_label_poll : Registry × ChatRoom :=
  worker_run pair_registry pair_room
    [(0, sent_line "poll"), (0, sent_line "1"), (0, RecvResult.data (List.replicate 127 97)),
     (0, sent_line "1")]

/-- Whether `p` occurs in `s` as a run of consecutive bytes. -/
def occurs_in (p s : CStr) : Bool := s.tails.any (fun t => p.isPrefixOf t)

/-- Every `pthread_create` succeeds. -/
def spawn_ok : Nat → Bool := fun _ => true

/-- The state after the events `evs`, from the state after `default_rooms`; the
zeroed globals stand in when an event does not complete. -/
def state_after (evs : List Event) : Server := (run (default_rooms spawn_ok) evs).getD zero_server

/-- Eleven clients connect on the descriptors 4 to 14 and the first ten of
them enter room 0. -/
def full_room_events : List Event :=
  (List.range 11).map (fun k => Event.accept ((k : Int) + 4) (sent_line "guest"))
    ++ (List.range 10).map (fun k => Event.lobby k (sent_line "2") [sent_line "0"] spawn_ok)

/-- Clients 4, 5 and 6 connect and enter room 0; 4 opens a poll on `Pizza`
and `Burger`, which brings the room to stage Voting. -/
def voting_events : List Event :=
  [Event.accept 4 (sent_line "alice"), Event.accept 5 (sent_line "bob"),
   Event.accept 6 (sent_line "carol"),
   Event.lobby 0 (sent_line "2") [sent_line "0"] spawn_ok,
   Event.lobby 1 (sent_line "2") [sent_line "0"] spawn_ok,
   Event.lobby 2 (sent_line "2") [sent_line "0"] spawn_ok,
   Event.refresh 0,
   Event.room 0 0 (sent_line "poll"), Event.room 0 0 (sent_line "2"),
   Event.room 0 0 (sent_line "Pizza"), Event.room 0 0 (sent_line "Burger")]

/-- From stage Voting: member 6 votes 1, member 4 leaves with `quit`, the
worker starts its next pass, and member 6 votes 1 again. -/
def double_vote_events : List Event :=
  [Event.room 0 2 (sent_line "1"), Event.room 0 0 (sent_line "quit"), Event.refresh 0,
   Event.room 0 0 (sent_line "1")]

/-- From stage Voting: members 4 and 5 vote, and member 6, who has not voted,
leaves with `quit`. -/
def leave_unvoted_events : List Event :=
  [Event.room 0 0 (sent_line "1"), Event.room 0 1 (sent_line "2"),
   Event.room 0 2 (sent_line "quit")]

/-- Room 0 of a server state. -/
def Server.room0 (s : Server) : ChatRoom := s.chatrooms.getD 0 default

/-- Whether the handling of the line `rr` of member `i` raises one of the
per-item vote counters of the room. -/
def raises_tally (reg : Registry) (room : ChatRoom) (i : Nat) (rr : RecvResult) : Bool :=
  (List.range MAX_POLL.toNat).any (fun k =>
    decide ((chatroom_recv reg room i rr).2.1.poll_votes.getD k 0 > room.poll_votes.getD k 0))

/-- The number of events of `evs`, run from `s`, in which a line read from the
connection `fd` in room `k` raises a vote counter of that room. -/
def tally_raises_by (k : Nat) (fd : Int) : Server → List Event → Nat
  | _, [] => 0
  | s, e :: rest =>
    (match e with
      | Event.room k1 i rr =>
        if k1 = k ∧ k ∈ s.workers ∧ (i : Int) < (s.chatrooms.getD k default).user_count
            ∧ (s.chatrooms.getD k default).user_fds.getD i 0 = fd
            ∧ raises_tally s.reg (s.chatrooms.getD k default) i rr = true then 1
        else 0
      | _ => 0)
    + (match (step s e).state? with
      | some s1 => tally_raises_by k fd s1 rest
      | none => 0)

/-- The modes and poll stages of room `k` before each event of `evs` and at the end. -/
def stages_along (k : Nat) : Server → List Event → List (Int × Int)
  | s, [] => [((s.chatrooms.getD k default).mode, (s.chatrooms.getD k default).poll_mode_stage)]
  | s, e :: rest =>
    ((s.chatrooms.getD k default).mode, (s.chatrooms.getD k default).poll_mode_stage) ::
      (match (step s e).state? with
        | some s1 => stages_along k s1 rest
        | none => [])

/-- The mode of a room with its game and poll sub-state: mode, host handle,
host name, answer, stage, declared count, item index, item list, tallies and
vote markers. -/
def sub_state (room : ChatRoom) :
    Int × Int × CStr × CStr × Int × Int × Int × List (Option CStr) × List Int × List Int :=
  (room.mode, room.game_host_fd, room.game_host_name, room.game_answer, room.poll_mode_stage,
   room.poll_count, room.poll_index, room.poll_list, room.poll_votes, room.vote_received)

/-- The example room during a poll at stage Voting, opened by member 4. -/
def example_voting_room : ChatRoom :=
  (worker_run example_registry example_room
    [(0, sent_line "poll"), (0, sent_line "1"), (0, sent_line "Pizza")]).2

/-- Whether the action is a `send` of the text `msg`. -/
def is_send_of (msg : CStr) : Action → Bool
  | Action.send _ m => decide (m = msg)
  | Action.close _ => false

/-- The leave notice of the disconnect branch for member `i`, as formatted
into `msg[SMALL_BUFF_SIZE]`. -/
def leave_notice (reg : Registry) (room : ChatRoom) (i : Nat) : CStr :=
  snprintf SMALL_BUFF_SIZE
    (utf8 "[NOTICE] 사용자 " ++ (room.user_names.getD i NamePtr.null).deref reg
      ++ utf8 "님이 채팅방을 나갔습니다.\n")

/-- Client 4 connects as `alice`, enters room 0, and the worker of room 0
starts a pass. -/
def enter_room_events : List Event :=
  [Event.accept 4 (sent_line "alice"), Event.lobby 0 (sent_line "2") [sent_line "0"] spawn_ok,
   Event.refresh 0]

/-- The descriptors still open after `acts`, when `fds` were open before. -/
def after_closes (fds : List Int) (acts : List Action) : List Int :=
  acts.foldl
    (fun open_fds a =>
      match a with
      | Action.close fd => open_fds.erase fd
      | Action.send _ _ => open_fds)
    fds

/-- Runs `evs` from `s` keeping the list of open descriptors: `accept` opens
the descriptor it returns and every `close` closes one. `none` when an event
does not complete, or when an `accept` is given a descriptor that is open,
which the system call never returns. -/
def run_fresh : Server → List Int → List Event → Option (Server × List Int)
  | s, fds, [] => some (s, fds)
  | s, fds, e :: rest =>
    match e with
    | Event.accept cli_fd rr =>
      if cli_fd ∈ fds then none
      else
        match step s (Event.accept cli_fd rr) with
        | Outcome.ok s1 acts => run_fresh s1 (after_closes (cli_fd :: fds) acts) rest
        | _ => none
    | e1 =>
      match step s e1 with
      | Outcome.ok s1 acts => run_fresh s1 (after_closes fds acts) rest
      | _ => none

/-- The handles of the live records of the registry. -/
def live_handles (reg : Registry) : List Int :=
  (reg.clients.take reg.client_count.toNat).map (fun c => c.fd)

/-- Twenty clients connect on the descriptors 4 to 23. -/
def full_registry_events : List Event :=
  (List.range 20).map (fun k => Event.accept ((k : Int) + 4) (sent_line "guest"))

/-- The predicate `P` on rooms is kept by the two updates the lobby makes to a
room (a join into a room with a free slot, the initialisation of a slot at
creation) and by the two sections of the room worker. -/
structure RoomInvariant (P : ChatRoom → Prop) : Prop where
  zero : P default
  join : ∀ (room : ChatRoom) (fd : Int), P room → room.user_count < MAX_ROOM_USERS →
    P { room with
        user_fds := room.user_fds.set room.user_count.toNat fd
        user_count := room.user_count + 1 }
  create : ∀ (room : ChatRoom) (j : Int) (title : CStr), P room →
    P { room with
        id := j, title := title, user_count := 0, mode := CHAT_MODE, game_host_fd := -1,
        game_answer := [] }
  refresh : ∀ (reg : Registry) (room : ChatRoom), P room → P (refresh_names reg room)
  recv : ∀ (reg : Registry) (room : ChatRoom) (i : Nat) (rr : RecvResult), P room →
    P (chatroom_recv reg room i rr).2.1

/-- The stored answer is empty, or it is a valid number and a game is on. -/
def AnswerOk (room : ChatRoom) : Prop :=
  room.game_answer = [] ∨ (is_valid_number room.game_answer = true ∧ room.mode = GAME_MODE)

/-- Clients 4 and 5 enter room 0; 4 starts a game and submits the answer 482. -/
def game_events : List Event :=
  [Event.accept 4 (sent_line "alice"), Event.accept 5 (sent_line "bob"),
   Event.lobby 0 (sent_line "2") [sent_line "0"] spawn_ok,
   Event.lobby 1 (sent_line "2") [sent_line "0"] spawn_ok,
   Event.refresh 0, Event.room 0 0 (sent_line "game"), Event.room 0 0 (sent_line "482")]

/-- The poll sub-state is cleared: the host handle is -1, the host name is
empty, the stage is CollectingCount, the declared count and the item index
are 0, every item pointer is NULL, every tally is 0 and every vote marker is
the unvoted marker -1. -/
def PollCleared (room : ChatRoom) : Prop :=
  room.game_host_fd = -1 ∧ room.game_host_name = [] ∧ room.poll_mode_stage = 0
    ∧ room.poll_count = 0 ∧ room.poll_index = 0
    ∧ (∀ x ∈ room.poll_list.take 10, x = none)
    ∧ (∀ x ∈ room.poll_votes.take 10, x = 0)
    ∧ (∀ x ∈ room.vote_received.take 10, x = -1)

/-- The state and the index of a `runaway` outcome. -/
def Outcome.runaway? : Outcome → Option (Server × Int)
  | .runaway s i _ => some (s, i)
  | _ => none

/-- The `while (!done)` loop of menu `1` followed beyond a failed read: after
`n <= 0` the source runs `remove_client(i); i--; continue;` and the loop body
starts again, on the same descriptor `fd`, with the index one lower. The
rounds are followed as long as the index stays inside `clients`; the outcome
is `runaway` with index -1 when the next removal would be `remove_client(-1)`. -/
def rename_rounds (fd : Int) : Server → Nat → List RecvResult → Outcome
  | s, _, [] => Outcome.blocked s [Action.send fd (utf8 "새로운 이름을 입력하세요.\n")]
  | s, i, rr :: rest =>
    if rr.n ≤ 0 then
      match i with
      | 0 =>
        Outcome.runaway { s with reg := (remove_client s.reg 0).1 } (-1)
          ([Action.send fd (utf8 "새로운 이름을 입력하세요.\n")] ++ (remove_client s.reg 0).2)
      | j + 1 =>
        (rename_rounds fd { s with reg := (remove_client s.reg (j + 1)).1 } j rest).pre
          ([Action.send fd (utf8 "새로운 이름을 입력하세요.\n")] ++ (remove_client s.reg (j + 1)).2)
    else if strlen (trim (cut_line rr.buffer)) = 0 then
      (rename_rounds fd s i rest).pre
        [Action.send fd (utf8 "새로운 이름을 입력하세요.\n"),
         Action.send fd (utf8 "이름은 비워둘 수 없습니다. 다시 입력해주세요.\n")]
    else
      let c : ClientInfo := s.reg.clients.getD i default
      Outcome.ok
        { s with
          reg := { s.reg with
            clients := s.reg.clients.set i
              { c with
                user_name := snprintf SMALL_BUFF_SIZE ((trim (cut_line rr.buffer)).take 31) } } }
        ([Action.send fd (utf8 "새로운 이름을 입력하세요.\n"),
          Action.send fd (utf8 "이름이 성공적으로 변경되었습니다.")] ++ send_menu fd)

/-- Clients 4, 5 and 6 connect and stay in the lobby. -/
def three_lobby_events : List Event :=
  [Event.accept 4 (sent_line "alice"), Event.accept 5 (sent_line "bob"),
   Event.accept 6 (sent_line "carol")]

/-- The closes among the actions. -/
def closes_of (acts : List Action) : List Int :=
  acts.filterMap (fun a =>
    match a with
    | Action.close fd => some fd
    | Action.send _ _ => none)


/-! ## Tables, parsing, votes and titles -/

/-- The handles of the members of a room: the first `user_count` entries of
`user_fds`. -/
def member_handles (room : ChatRoom) : List Int :=
  room.user_fds.take room.user_count.toNat


/-- The strict reading of an integer: an optional sign, then one or more decimal
digits and nothing else, with a value in the range of `int`. -/
def strict_int (s : CStr) : Option Int :=
  let body := if s.head? = some 45 ∨ s.head? = some 43 then s.tail else s
  if body ≠ [] ∧ body.all isdigit = true then
    let v : Int := if s.head? = some 45 then -((digits_value body : Nat) : Int)
      else ((digits_value body : Nat) : Int)
    if INT_MIN ≤ v ∧ v ≤ INT_MAX then some v else none
  else none


/-- The sum of the per-item vote counters `poll_votes[0 .. MAX_POLL)`. -/
def tally_sum (room : ChatRoom) : Int := (room.poll_votes.take MAX_POLL.toNat).sum

/-- The number of slots of `vote_received[0 .. MAX_ROOM_USERS)` that hold a
recorded vote, which is any value but the unvoted marker -1. -/
def recorded_votes (room : ChatRoom) : Nat :=
  (room.vote_received.take MAX_ROOM_USERS.toNat).countP (fun m => decide (m ≠ -1))

/-- The bookkeeping of votes is sound: both arrays have their 10 slots, the
room holds at most 10 members, and in Poll mode either the stage is Voting,
the declared count is in 1..10, the counters sum to the number of recorded
markers and every recorded marker is below the declared count, or the stage is
an earlier one, every counter is 0 and every marker is -1. -/
def VotesOk (room : ChatRoom) : Prop :=
  room.poll_votes.length = 10 ∧ room.vote_received.length = 10
    ∧ room.user_count ≤ MAX_ROOM_USERS
    ∧ (room.mode = POLL_MODE →
        (room.poll_mode_stage = 2 →
          0 < room.poll_count ∧ room.poll_count ≤ MAX_POLL
            ∧ room.poll_votes.sum
                = ((room.vote_received.countP (fun m => decide (m ≠ -1)) : Nat) : Int)
            ∧ ∀ m ∈ room.vote_received, m = -1 ∨ (0 ≤ m ∧ m < room.poll_count))
        ∧ (room.poll_mode_stage ≠ 2 →
          (∀ x ∈ room.poll_votes, x = 0) ∧ (∀ m ∈ room.vote_received, m = -1)
            ∧ (room.poll_mode_stage = 1 → 0 < room.poll_count ∧ room.poll_count ≤ MAX_POLL)))


/-- The titles of the room table, slot by slot. -/
def titles (s : Server) : List CStr := s.chatrooms.map (fun room => room.title)

/-- The room table has its MAX_CHATROOMS slots, and the active-room count is
the number of slots with a non-empty title. -/
def TitlesCounted (s : Server) : Prop :=
  (titles s).length = MAX_CHATROOMS.toNat
    ∧ (((titles s).countP (fun t => decide (t ≠ [])) : Nat) : Int) = s.room_count

/-- Slot `j` as menu `3` leaves it when its worker has started, for the title
`cname` read from the connection. -/
def created_room (room : ChatRoom) (j : Nat) (cname : CStr) : ChatRoom :=
  { room with
    id := (j : Int)
    title := cname.take 31
    user_count := 0
    mode := CHAT_MODE
    game_host_fd := -1
    game_answer := [] }

/-- The state carried by an outcome. -/
def Outcome.server : Outcome → Server
  | .ok s _ => s
  | .blocked s _ => s
  | .runaway s _ _ => s
  | .undefined s _ => s

/-- Client 4 connects and opens 47 rooms titled `r`, which fills the room
table, three rooms being there from the start. -/
def full_table_events : List Event :=
  Event.accept 4 (sent_line "alice")
    :: List.replicate 47 (Event.lobby 0 (sent_line "3") [sent_line "r"] spawn_ok)


/-! ## Lock calls -/

/-- The mutexes of the server: the global `client_lock` and the `lock` of the
room in slot `k`. -/
inductive Mutex
  | client_lock
  | room_lock (k : Nat)
deriving DecidableEq, Repr

/-- A call of `pthread_mutex_lock` or of `pthread_mutex_unlock`. -/
inductive LockOp
  | lock (m : Mutex)
  | unlock (m : Mutex)
deriving DecidableEq, Repr

def Mutex.is_client : Mutex → Bool
  | .client_lock => true
  | .room_lock _ => false

def Mutex.is_room : Mutex → Bool
  | .client_lock => false
  | .room_lock _ => true

/-- The lock calls of `remove_user`, which its caller runs with the lock of the
room held. -/
def remove_user_locks : List LockOp :=
  [LockOp.lock Mutex.client_lock, LockOp.unlock Mutex.client_lock]

/-- The lock calls of one processing pass of the worker of room `k` in which
member `i` is ready and its `recv` gives `rr`: the pass holds the lock of the
room from its start to its end, and the disconnect branch and the `quit`
branch call `remove_user`. -/
def chatroom_pass_locks (k : Nat) (room : ChatRoom) (i : Nat) (rr : RecvResult) :
    List LockOp :=
  [LockOp.lock (Mutex.room_lock k)]
    ++ (if (i : Int) < room.user_count
          ∧ (rr.n = 0 ∨ (0 < rr.n ∧ cut_line rr.buffer = utf8 "quit")) then
        remove_user_locks
      else [])
    ++ [LockOp.unlock (Mutex.room_lock k)]

/-- The lock calls of the sub-dialog of menu `2`: the lock of the chosen room
is taken around the capacity check and the insertion. -/
def join_dialog_locks (s : Server) : List RecvResult → List LockOp
  | [] => []
  | rr :: rest =>
    if rr.n ≤ 0 then []
    else
      let rnum := trim (cut_line rr.buffer)
      if strlen rnum = 0 then join_dialog_locks s rest
      else if strcasecmp_eq rnum (utf8 "b") then []
      else
        match parse_valid_int rnum with
        | none => join_dialog_locks s rest
        | some room_id =>
          if room_id ≥ 0 ∧ room_id < s.room_count then
            [LockOp.lock (Mutex.room_lock room_id.toNat),
             LockOp.unlock (Mutex.room_lock room_id.toNat)]
              ++ (if (s.chatrooms.getD room_id.toNat default).user_count < MAX_ROOM_USERS then []
                  else join_dialog_locks s rest)
          else join_dialog_locks s rest

/-- The lock calls of a pass of the command loop of `main_loop` in which a
lobby client chooses menu `2` and the sub-dialog reads `inputs`: `client_lock`
is taken before the loop over the clients and released after it. -/
def join_pass_locks (s : Server) (i : Nat) (inputs : List RecvResult) : List LockOp :=
  [LockOp.lock Mutex.client_lock] ++ join_dialog_locks s inputs
    ++ (if (join_dialog s i (s.reg.clients.getD i default).fd inputs).state?.isSome then
          [LockOp.unlock Mutex.client_lock]
        else [])

/-- Whether somewhere in `ops` a mutex of the kind `acquired` is locked while a
mutex of the kind `held` is held; `holding` are the mutexes held at the start. -/
def locks_while_holding (held acquired : Mutex → Bool) : List Mutex → List LockOp → Bool
  | _, [] => false
  | holding, LockOp.lock m :: rest =>
    (acquired m && holding.any held) || locks_while_holding held acquired (m :: holding) rest
  | holding, LockOp.unlock m :: rest =>
    locks_while_holding held acquired (holding.erase m) rest

/-! # Properties -/

/-! ## Strings -/

theorem utf8_quit : utf8 "quit" = [113, 117, 105, 116] := by decide

theorem utf8_info : utf8 "info" = [105, 110, 102, 111] := by decide

theorem utf8_game : utf8 "game" = [103, 97, 109, 101] := by decide

theorem utf8_poll : utf8 "poll" = [112, 111, 108, 108] := by decide

theorem length_three {α : Type} (l : List α) (h : l.length = 3) :
    ∃ a b c, l = [a, b, c] := by
  match l, h with
  | [a, b, c], _ => exact ⟨a, b, c, rfl⟩

/-! ## Number baseball -/

/-- C3. `is_valid_number s` is true exactly when `s` has 3 characters, each a
decimal digit `'0'..'9'`, and the three are pairwise distinct. -/
theorem is_valid_number_iff (s : CStr) :
    is_valid_number s = true ↔
      s.length = 3 ∧ (∀ c ∈ s, 48 ≤ c ∧ c ≤ 57) ∧ s.Nodup := by
  constructor
  · intro h
    unfold is_valid_number at h
    by_cases hl : strlen s = 3
    · obtain ⟨a, b, c, rfl⟩ := length_three s hl
      simp [strlen, charAt, isdigit] at h
      simp
      omega
    · simp [hl] at h
  · rintro ⟨hl, hd, hn⟩
    obtain ⟨a, b, c, rfl⟩ := length_three s hl
    simp at hd hn
    simp [is_valid_number, strlen, charAt, isdigit]
    omega

/-- C1. For a 3-character guess and a 3-character answer, `evaluate_guess`
returns as strikes the number of positions where guess and answer agree, and as
balls the number of positions where they differ and the guessed character
occurs somewhere in the answer; answer `123` with guess `321` gives 1 strike
and 2 balls. -/
theorem evaluate_guess_counts (guess answer : CStr) (hg : guess.length = 3)
    (ha : answer.length = 3) (h0 : ∀ c ∈ guess, c ≠ 0) :
    evaluate_guess guess answer =
        (count_positions (fun i => decide (guess.getD i 0 = answer.getD i 0)),
         count_positions (fun i =>
           decide (guess.getD i 0 ≠ answer.getD i 0) && decide (guess.getD i 0 ∈ answer)))
      ∧ evaluate_guess (utf8 "321") (utf8 "123") = (1, 2) := by
  refine ⟨?_, by decide⟩
  obtain ⟨a, b, c, rfl⟩ := length_three guess hg
  obtain ⟨x, y, z, rfl⟩ := length_three answer ha
  simp at h0
  obtain ⟨ha0, hb0, hc0⟩ := h0
  have hr : List.range 3 = [0, 1, 2] := by decide
  simp only [evaluate_guess, count_positions, hr, List.foldl, evaluate_step, charAt, strchr]
  by_cases h1 : a = x <;> by_cases h2 : b = y <;> by_cases h3 : c = z <;>
    by_cases m1 : a ∈ [x, y, z] <;> by_cases m2 : b ∈ [x, y, z] <;>
    by_cases m3 : c ∈ [x, y, z] <;>
    simp_all [List.filter]

/-- Instance of C1 at guess `321` and answer `123`. -/
theorem evaluate_guess_counts_witness :
    evaluate_guess (utf8 "321") (utf8 "123") =
        (count_positions (fun i => decide ((utf8 "321").getD i 0 = (utf8 "123").getD i 0)),
         count_positions (fun i =>
           decide ((utf8 "321").getD i 0 ≠ (utf8 "123").getD i 0)
             && decide ((utf8 "321").getD i 0 ∈ utf8 "123")))
      ∧ evaluate_guess (utf8 "321") (utf8 "123") = (1, 2) :=
  evaluate_guess_counts (utf8 "321") (utf8 "123") (by decide) (by decide) (by decide)

theorem valid_number_length (s : CStr) (h : is_valid_number s = true) : s.length = 3 := by
  unfold is_valid_number at h
  by_cases hl : strlen s = 3
  · exact hl
  · simp [hl] at h

theorem valid_number_not_command (s : CStr) (h : is_valid_number s = true) :
    s ≠ utf8 "quit" ∧ s ≠ utf8 "info" ∧ s ≠ utf8 "game" ∧ s ≠ utf8 "poll" := by
  have hl := valid_number_length s h
  refine ⟨?_, ?_, ?_, ?_⟩ <;> intro he <;> rw [he] at hl <;> revert hl <;> decide

theorem evaluate_guess_self (s : CStr) (h : s.length = 3) : evaluate_guess s s = (3, 0) := by
  obtain ⟨a, b, c, rfl⟩ := length_three s h
  have hr : List.range 3 = [0, 1, 2] := by decide
  simp [evaluate_guess, hr, evaluate_step, charAt]

theorem n_pos_cases (rr : RecvResult) (h : 0 < rr.n) : ¬ rr.n < 0 ∧ ¬ rr.n = 0 := by
  constructor <;> omega

/-- C2. Round trip of the game: in a room in Game mode with an empty answer,
when the host submits a string `s` accepted by `is_valid_number` and a non-host
member then guesses `s`, the answer stored is `s`, the guess is evaluated as 3
strikes and 0 balls, that result and the win banner are broadcast, and the
room is left in Chat mode with an empty answer. -/
theorem game_round_trip (reg : Registry) (room : ChatRoom) (i j : Nat)
    (rr1 rr2 : RecvResult) (s : CStr)
    (hs : is_valid_number s = true)
    (hmode : room.mode = GAME_MODE) (hans : room.game_answer = [])
    (hi : (i : Int) < room.user_count) (hhost : room.user_fds.getD i 0 = room.game_host_fd)
    (hj : (j : Int) < room.user_count) (hguest : room.user_fds.getD j 0 ≠ room.game_host_fd)
    (h1 : 0 < rr1.n) (hl1 : cut_line rr1.buffer = s)
    (h2 : 0 < rr2.n) (hl2 : cut_line rr2.buffer = s) :
    (chatroom_recv reg room i rr1).1 = reg
      ∧ (chatroom_recv reg room i rr1).2.1 = { room with game_answer := s }
      ∧ evaluate_guess s (chatroom_recv reg room i rr1).2.1.game_answer = (3, 0)
      ∧ (chatroom_recv reg (chatroom_recv reg room i rr1).2.1 j rr2).2.1
          = { room with mode := CHAT_MODE, game_answer := [] }
      ∧ (chatroom_recv reg (chatroom_recv reg room i rr1).2.1 j rr2).2.2
          = broadcast_to_room room
              (snprintf MEDIUM_LARGE_BUFF_SIZE
                (utf8 "[" ++ (room.user_names.getD j NamePtr.null).deref reg ++ utf8 "] " ++ s
                  ++ utf8 "의 결과: " ++ fmt_d 3 ++ utf8 " 스트라이크, " ++ fmt_d 0
                  ++ utf8 " 볼\n")) (-1)
            ++ broadcast_to_room room
              (snprintf MEDIUM_LARGE_BUFF_SIZE
                (utf8 "[GAME] " ++ (room.user_names.getD j NamePtr.null).deref reg
                  ++ utf8 "님이 정답을 맞췄습니다! 게임 종료.\n")) (-1) := by
  obtain ⟨hq, hinf, hg, hp⟩ := valid_number_not_command s hs
  have hlen := valid_number_length s hs
  obtain ⟨hn1, hn1'⟩ := n_pos_cases rr1 h1
  obtain ⟨hn2, hn2'⟩ := n_pos_cases rr2 h2
  have hcg : GAME_MODE ≠ CHAT_MODE := by decide
  have htake : List.take 3 s = s := List.take_of_length_le (by omega)
  have hhost1 := hhost
  have hguest1 := hguest
  rw [List.getD_eq_getElem?_getD] at hhost1 hguest1
  have e1 : chatroom_recv reg room i rr1 = (reg, { room with game_answer := s },
      broadcast_to_room { room with game_answer := s }
        (snprintf MEDIUM_LARGE_BUFF_SIZE
          (utf8 "====== 숫자 야구 게임이 시작되었습니다! ======\n===== HOST : "
            ++ room.game_host_name ++ utf8 " =====\n")) (-1)) := by
    simp [chatroom_recv, hi, hn1, hn1', hl1, hq, hinf, hg, hmode, hcg, game_line, hhost1, hans,
      strlen, hs, htake]
  rw [e1]
  refine ⟨rfl, rfl, evaluate_guess_self s hlen, ?_⟩
  have hself := evaluate_guess_self s hlen
  have e2 : chatroom_recv reg { room with game_answer := s } j rr2 =
      (reg, { room with mode := CHAT_MODE, game_answer := [] },
       broadcast_to_room room
              (snprintf MEDIUM_LARGE_BUFF_SIZE
                (utf8 "[" ++ (room.user_names.getD j NamePtr.null).deref reg ++ utf8 "] " ++ s
                  ++ utf8 "의 결과: " ++ fmt_d 3 ++ utf8 " 스트라이크, " ++ fmt_d 0
                  ++ utf8 " 볼\n")) (-1)
            ++ broadcast_to_room room
              (snprintf MEDIUM_LARGE_BUFF_SIZE
                (utf8 "[GAME] " ++ (room.user_names.getD j NamePtr.null).deref reg
                  ++ utf8 "님이 정답을 맞췄습니다! 게임 종료.\n")) (-1)) := by
    simp [chatroom_recv, hj, hn2, hn2', hl2, hq, hinf, hg, hmode, hcg, game_line, hguest1,
      strlen, hs, hlen, hself, broadcast_to_room]
  rw [e2]
  exact ⟨rfl, rfl⟩

/-- Instance of C2 with `s = 482`: host 4 submits it, member 5 guesses it. -/
theorem game_round_trip_witness :
    (chatroom_recv example_registry
        (chatroom_recv example_registry example_game_room 0 (sent_line "482")).2.1 1
        (sent_line "482")).2.1
      = { example_game_room with mode := CHAT_MODE, game_answer := [] } :=
  (game_round_trip example_registry example_game_room 0 1 (sent_line "482") (sent_line "482")
    (utf8 "482") (by decide) (by decide) (by decide) (by decide) (by decide) (by decide)
    (by decide) (by decide) (by decide) (by decide) (by decide)).2.2.2.1

/-! ## Poll, stage 0 -/

/-- C4 as stated fails: in Poll mode at stage CollectingCount the host's line
`quit` is no integer, yet the room state changes (the host is removed and the
room is back in Chat mode) and no reprompt is sent. -/
theorem poll_count_quit_counterexample :
    example_poll_room.mode = POLL_MODE ∧ example_poll_room.poll_mode_stage = 0
      ∧ example_poll_room.user_fds.getD 0 0 = example_poll_room.game_host_fd
      ∧ parse_valid_int (cut_line (sent_line "quit").buffer) = none
      ∧ (chatroom_recv example_registry example_poll_room 0 (sent_line "quit")).2.1
          ≠ example_poll_room
      ∧ (chatroom_recv example_registry example_poll_room 0 (sent_line "quit")).2.1.mode
          = CHAT_MODE
      ∧ (chatroom_recv example_registry example_poll_room 0 (sent_line "quit")).2.1.user_count
          = 2
      ∧ Action.send 4 (utf8 "[POLL] 유효한 숫자를 입력하세요 (1~10)\n")
          ∉ (chatroom_recv example_registry example_poll_room 0 (sent_line "quit")).2.2 := by
  decide

/-- C4, amended. In Poll mode at stage CollectingCount, a line of the host
other than `quit` and `info` is accepted as the item count exactly when
`parse_valid_int` reads it as an integer `n` with `1 ≤ n ≤ 10`: then the
declared count becomes `n`, the item index 0 and the stage CollectingItems,
and the host is asked for item 1; otherwise the room and the registry are
unchanged and the host is reprompted. `1` and `10` are read as 1 and 10, `0`
and `11` as 0 and 11. -/
theorem poll_count_line (reg : Registry) (room : ChatRoom) (i : Nat) (rr : RecvResult)
    (hmode : room.mode = POLL_MODE) (hstage : room.poll_mode_stage = 0)
    (hi : (i : Int) < room.user_count) (hhost : room.user_fds.getD i 0 = room.game_host_fd)
    (hn : 0 < rr.n) (hq : cut_line rr.buffer ≠ utf8 "quit")
    (hinfo : cut_line rr.buffer ≠ utf8 "info") :
    (∀ n : Int, parse_valid_int (cut_line rr.buffer) = some n → 1 ≤ n → n ≤ 10 →
        chatroom_recv reg room i rr =
          (reg, { room with poll_count := n, poll_index := 0, poll_mode_stage := 1 },
           [Action.send (room.user_fds.getD i 0) (utf8 "[POLL] 항목 1을 입력하세요.\n")]))
      ∧ ((∀ n : Int, parse_valid_int (cut_line rr.buffer) = some n → ¬ (1 ≤ n ∧ n ≤ 10)) →
        chatroom_recv reg room i rr =
          (reg, room,
           [Action.send (room.user_fds.getD i 0)
             (utf8 "[POLL] 유효한 숫자를 입력하세요 (1~10)\n")]))
      ∧ parse_valid_int (utf8 "1") = some 1 ∧ parse_valid_int (utf8 "10") = some 10
      ∧ parse_valid_int (utf8 "0") = some 0 ∧ parse_valid_int (utf8 "11") = some 11 := by
  obtain ⟨hn1, hn2⟩ := n_pos_cases rr hn
  have hpc : POLL_MODE ≠ CHAT_MODE := by decide
  have hpg : POLL_MODE ≠ GAME_MODE := by decide
  have hhost1 := hhost
  rw [List.getD_eq_getElem?_getD] at hhost1
  refine ⟨?_, ?_, by decide, by decide, by decide, by decide⟩
  · intro n hp h1 h10
    have h0 : 0 < n := by omega
    simp [chatroom_recv, hi, hn1, hn2, hq, hinfo, hmode, hpc, hpg, poll_line, hhost1, hstage, hp,
      h0, h10, MAX_POLL]
  · intro hrej
    cases hp : parse_valid_int (cut_line rr.buffer) with
    | none =>
      simp [chatroom_recv, hi, hn1, hn2, hq, hinfo, hmode, hpc, hpg, poll_line, hhost1, hstage, hp]
    | some n =>
      have hr := hrej n hp
      have hr2 : ¬ (n > 0 ∧ n ≤ MAX_POLL) := by
        simp only [MAX_POLL]
        omega
      simp [chatroom_recv, hi, hn1, hn2, hq, hinfo, hmode, hpc, hpg, poll_line, hhost1, hstage,
        hp, hr2]

/-- Instance of C4, amended: the host declares 10 items. -/
theorem poll_count_line_witness :
    chatroom_recv example_registry example_poll_room 0 (sent_line "10") =
      (example_registry,
       { example_poll_room with poll_count := 10, poll_index := 0, poll_mode_stage := 1 },
       [Action.send (example_poll_room.user_fds.getD 0 0) (utf8 "[POLL] 항목 1을 입력하세요.\n")]) :=
  (poll_count_line example_registry example_poll_room 0 (sent_line "10") (by decide) (by decide)
    (by decide) (by decide) (by decide) (by decide) (by decide)).1 10 (by decide) (by decide)
    (by decide)

/-! ## The `info` command -/

theorem toDigits_length_le (m : Nat) (h : m < 10 ^ 10) : (Nat.toDigits 10 m).length ≤ 10 :=
  Nat.toDigitsCore_length 10 (by decide) (m + 1) m 10 h (by decide)

theorem fmt_d_length (n : Int) (h1 : INT_MIN ≤ n) (h2 : n ≤ INT_MAX) : (fmt_d n).length ≤ 11 := by
  unfold INT_MIN at h1
  unfold INT_MAX at h2
  unfold fmt_d
  split
  · have := toDigits_length_le n.natAbs (by omega)
    simp
    omega
  · have := toDigits_length_le n.toNat (by omega)
    simp
    omega

/-- C9. The line `info` from a member leaves the registry and the whole room
state unchanged; its only effect is one reply to that member, which is the
room title, the member count and the mode name (Chat, Game or Poll), each on a
line of its own; a second `info` gives the same reply and the same state. -/
theorem info_is_read_only (reg : Registry) (room : ChatRoom) (i : Nat) (rr rr2 : RecvResult)
    (hi : (i : Int) < room.user_count)
    (hn : 0 < rr.n) (hl : cut_line rr.buffer = utf8 "info")
    (hn2 : 0 < rr2.n) (hl2 : cut_line rr2.buffer = utf8 "info")
    (htitle : room.title.length ≤ MEDIUM_BUFF_SIZE - 1) (hcount : room.user_count ≤ INT_MAX)
    (hmode : room.mode = CHAT_MODE ∨ room.mode = GAME_MODE ∨ room.mode = POLL_MODE) :
    chatroom_recv reg room i rr =
        (reg, room, [Action.send (room.user_fds.getD i 0) (chatroom_info_text room)])
      ∧ chatroom_info_text room =
          utf8 "<<<<< " ++ room.title ++ utf8 " >>>>>\n"
            ++ (utf8 "참여인원: " ++ fmt_d room.user_count ++ utf8 "\n")
            ++ (utf8 "모드: "
              ++ (if room.mode = CHAT_MODE then utf8 "Chat"
                  else if room.mode = GAME_MODE then utf8 "Game" else utf8 "Poll")
              ++ utf8 "\n")
      ∧ chatroom_recv (chatroom_recv reg room i rr).1 (chatroom_recv reg room i rr).2.1 i rr2 =
          chatroom_recv reg room i rr := by
  obtain ⟨hn1, hn1'⟩ := n_pos_cases rr hn
  obtain ⟨hn3, hn3'⟩ := n_pos_cases rr2 hn2
  have hiq : utf8 "info" ≠ utf8 "quit" := by decide
  have e : ∀ r : RecvResult, ¬ r.n < 0 → ¬ r.n = 0 → cut_line r.buffer = utf8 "info" →
      chatroom_recv reg room i r =
        (reg, room, [Action.send (room.user_fds.getD i 0) (chatroom_info_text room)]) := by
    intro r h1 h2 h3
    simp [chatroom_recv, hi, h1, h2, h3, hiq, send_chatroom_info]
  refine ⟨e rr hn1 hn1' hl, ?_, ?_⟩
  · have hd := fmt_d_length room.user_count (by unfold INT_MIN; omega) hcount
    have l1 : (utf8 "<<<<< ").length = 6 := by decide
    have l2 : (utf8 " >>>>>\n").length = 7 := by decide
    have l3 : (utf8 "참여인원: ").length = 14 := by decide
    have l4 : (utf8 "\n").length = 1 := by decide
    have l5 : (utf8 "모드: ").length = 8 := by decide
    have l6 : (utf8 "Chat").length = 4 := by decide
    have l7 : (utf8 "Game").length = 4 := by decide
    have l8 : (utf8 "Poll").length = 4 := by decide
    have hGC : GAME_MODE ≠ CHAT_MODE := by decide
    have hPC : POLL_MODE ≠ CHAT_MODE := by decide
    have hPG : POLL_MODE ≠ GAME_MODE := by decide
    simp only [MEDIUM_BUFF_SIZE] at htitle
    have t0 : snprintf LARGE_BUFF_SIZE (utf8 "<<<<< " ++ room.title ++ utf8 " >>>>>\n")
        = utf8 "<<<<< " ++ room.title ++ utf8 " >>>>>\n" := by
      apply List.take_of_length_le
      simp only [List.length_append, l1, l2, LARGE_BUFF_SIZE]
      omega
    have t1 : snprintf MEDIUM_BUFF_SIZE (utf8 "참여인원: " ++ fmt_d room.user_count ++ utf8 "\n")
        = utf8 "참여인원: " ++ fmt_d room.user_count ++ utf8 "\n" := by
      apply List.take_of_length_le
      simp only [List.length_append, l3, l4, MEDIUM_BUFF_SIZE]
      omega
    have t2 : ∀ st : CStr, st.length = 4 →
        snprintf MEDIUM_BUFF_SIZE (utf8 "모드: " ++ st ++ utf8 "\n")
          = utf8 "모드: " ++ st ++ utf8 "\n" := by
      intro st hst
      apply List.take_of_length_le
      simp only [List.length_append, l5, l4, hst, MEDIUM_BUFF_SIZE]
      omega
    have c1 : 6 + room.title.length + 7 + (14 + (fmt_d room.user_count).length + 1) < 1024 := by
      omega
    unfold chatroom_info_text
    simp only [t0, t1]
    rcases hmode with hm | hm | hm
    · simp only [hm, if_true, t2 _ l6, strlen, List.length_append, l1, l2, l3, l4, l5, l6,
        LARGE_BUFF_SIZE, c1]
      rw [if_pos (by omega)]
    · simp only [hm, hGC, if_false, if_true, t2 _ l7, strlen, List.length_append, l1, l2, l3, l4,
        l5, l7, LARGE_BUFF_SIZE, c1]
      rw [if_pos (by omega)]
    · simp only [hm, hPC, hPG, if_false, if_true, t2 _ l8, strlen, List.length_append, l1, l2, l3,
        l4, l5, l8, LARGE_BUFF_SIZE, c1]
      rw [if_pos (by omega)]
  · rw [e rr hn1 hn1' hl]
    exact e rr2 hn3 hn3' hl2

/-- Instance of C9: member 5 of the example room in Poll mode asks twice. -/
theorem info_is_read_only_witness :
    chatroom_recv example_registry example_poll_room 1 (sent_line "info") =
      (example_registry, example_poll_room,
       [Action.send 5 (utf8 "<<<<< Chatroom-0 >>>>>\n참여인원: 3\n모드: Poll\n")]) := by
  have h := info_is_read_only example_registry example_poll_room 1 (sent_line "info")
    (sent_line "info") (by decide) (by decide) (by decide) (by decide) (by decide) (by decide)
    (by decide) (by decide)
  rw [h.1]
  decide

/-! ## The poll stage only moves forward -/

theorem stageForward_refl (r : ChatRoom) : StageForward r r :=
  Or.inl ⟨rfl, le_refl _, fun h => h⟩

theorem remove_user_stageForward (reg : Registry) (room : ChatRoom) (index : Nat)
    (hmode : room.mode = POLL_MODE) : StageForward room (remove_user reg room index).2.1 := by
  have hpg : POLL_MODE ≠ GAME_MODE := by decide
  unfold remove_user
  simp only [hmode, hpg, false_and, decide_False, Bool.false_eq_true, if_false]
  split
  · right
    simp [reset_poll_state]
  · left
    simp [hmode]

theorem poll_line_stageForward (room : ChatRoom) (i : Nat) (buffer : CStr)
    (r : ChatRoom × List Action) (h : poll_line room i buffer = some r) :
    StageForward room r.1 := by
  unfold poll_line at h
  simp only [] at h
  repeat' split at h
  all_goals
    first
    | (simp only [Option.some.injEq] at h
       subst h
       first
       | exact stageForward_refl _
       | (right; simp [reset_poll_state, record_vote]; done)
       | (left; refine ⟨rfl, ?_, ?_⟩ <;> simp_all [record_vote]))
    | simp at h

theorem chat_line_mode_stage (reg : Registry) (room : ChatRoom) (i : Nat) (buffer : CStr) :
    (chat_line reg room i buffer).1.mode = room.mode
      ∧ (chat_line reg room i buffer).1.poll_mode_stage = room.poll_mode_stage := by
  unfold chat_line
  split
  · exact ⟨rfl, rfl⟩
  · split <;> exact ⟨rfl, rfl⟩

theorem chatroom_recv_stageForward (reg : Registry) (room : ChatRoom) (i : Nat) (rr : RecvResult)
    (hmode : room.mode = POLL_MODE) : StageForward room (chatroom_recv reg room i rr).2.1 := by
  have hpc : POLL_MODE ≠ CHAT_MODE := by decide
  have hpg : POLL_MODE ≠ GAME_MODE := by decide
  unfold chatroom_recv
  split
  · exact stageForward_refl room
  · simp only []
    split
    · exact stageForward_refl room
    · split
      · exact remove_user_stageForward reg room i hmode
      · split
        · exact remove_user_stageForward reg room i hmode
        · split
          · exact stageForward_refl room
          · simp only [hmode, hpc, hpg, and_false, if_false, if_true]
            split
            · rename_i r hr
              exact poll_line_stageForward room i _ r hr
            · left
              have h := chat_line_mode_stage reg room i (cut_line rr.buffer)
              exact ⟨h.1, le_of_eq h.2.symm, fun h0 => by rw [← h.2]; exact h0⟩

/-- C8. The poll stage only advances: across one round of the room worker on a
room in Poll mode (a refresh of the names, or the handling of one member's
`recv`), if the room is still in Poll mode the stage has not decreased, and a
stage that was not CollectingCount is CollectingCount afterwards only when the
round has also put the room in Chat mode. -/
theorem poll_stage_only_advances (reg : Registry) (room : ChatRoom) (i : Nat) (rr : RecvResult)
    (hmode : room.mode = POLL_MODE) :
    ((chatroom_recv reg room i rr).2.1.mode = POLL_MODE →
        room.poll_mode_stage ≤ (chatroom_recv reg room i rr).2.1.poll_mode_stage)
      ∧ (room.poll_mode_stage ≠ 0 → (chatroom_recv reg room i rr).2.1.poll_mode_stage = 0 →
          (chatroom_recv reg room i rr).2.1.mode = CHAT_MODE)
      ∧ (refresh_names reg room).mode = POLL_MODE
      ∧ (refresh_names reg room).poll_mode_stage = room.poll_mode_stage := by
  have hpc : POLL_MODE ≠ CHAT_MODE := by decide
  refine ⟨?_, ?_, hmode, rfl⟩
  · intro h
    rcases chatroom_recv_stageForward reg room i rr hmode with h1 | h1
    · exact h1.2.1
    · rw [h1.1] at h
      exact absurd h.symm hpc
  · intro hne h0
    rcases chatroom_recv_stageForward reg room i rr hmode with h1 | h1
    · exact absurd (h1.2.2 h0) hne
    · exact h1.1

/-- Instance of C8: the host of the example poll declares 2 items. -/
theorem poll_stage_only_advances_witness :
    (chatroom_recv example_registry example_poll_room 0 (sent_line "2")).2.1.mode = POLL_MODE
      ∧ example_poll_room.poll_mode_stage
          ≤ (chatroom_recv example_registry example_poll_room 0 (sent_line "2")).2.1.poll_mode_stage
      ∧ (chatroom_recv example_registry example_poll_room 0 (sent_line "2")).2.1.poll_mode_stage
          = 1 :=
  ⟨by decide,
   (poll_stage_only_advances example_registry example_poll_room 0 (sent_line "2")
      (by decide)).1 (by decide),
   by decide⟩

/-! ## Completion of a poll -/

set_option maxRecDepth 100000 in
/-- C5 as stated fails: with a label of 127 bytes, the longest one line can
carry, the completed poll (stage Voting, both members voted) broadcasts a
result made of the header and the bare label; the tally ` : 2 표` does not
occur in what the members receive. -/
theorem poll_result_counterexample :
    long_label_poll.2.mode = POLL_MODE ∧ long_label_poll.2.poll_mode_stage = 2
      ∧ long_label_poll.2.poll_count = 1
      ∧ long_label_poll.2.poll_list.getD 0 none = some (List.replicate 127 97)
      ∧ (chatroom_recv long_label_poll.1 long_label_poll.2 1 (sent_line "1")).2.1.mode = CHAT_MODE
      ∧ (chatroom_recv long_label_poll.1 long_label_poll.2 1 (sent_line "1")).2.2 =
          [Action.send 5 (utf8 "선택 완료!\n"),
           Action.send 4 (utf8 "====== [POLL_RESULT] ======\n" ++ List.replicate 127 97),
           Action.send 5 (utf8 "====== [POLL_RESULT] ======\n" ++ List.replicate 127 97)]
      ∧ occurs_in (utf8 " : 2 표")
          (utf8 "====== [POLL_RESULT] ======\n" ++ List.replicate 127 97) = false := by
  decide

theorem append_lines_fits (lines : List CStr) :
    ∀ list : CStr, list.length + lines.flatten.length < LARGE_BUFF_SIZE →
      append_lines list lines = list ++ lines.flatten := by
  induction lines with
  | nil => intro list _; simp [append_lines]
  | cons line rest ih =>
    intro list h
    simp only [List.flatten_cons, List.length_append] at h
    have h1 : strlen list + strlen line < LARGE_BUFF_SIZE := by
      simp only [strlen]
      omega
    simp only [append_lines, h1, if_true, List.flatten_cons]
    rw [ih (list ++ line) (by simp only [List.length_append]; omega)]
    simp

theorem fill_upto_length {α : Type} (n : Nat) (v : α) (l : List α) :
    (fill_upto n v l).length = l.length := by
  induction n with
  | zero => rfl
  | succ n ih => simp [fill_upto, ih]

theorem fill_upto_getD {α : Type} (n : Nat) (v d : α) (l : List α) (k : Nat) :
    (fill_upto n v l).getD k d = if k < n ∧ k < l.length then v else l.getD k d := by
  induction n with
  | zero => simp [fill_upto]
  | succ n ih =>
    simp only [fill_upto, List.getD_eq_getElem?_getD] at ih ⊢
    rw [List.getElem?_set]
    by_cases hk : n = k
    · subst hk
      simp only [if_true, fill_upto_length]
      by_cases hl : n < l.length
      · simp [hl]
      · simp [hl]
        rw [List.getElem?_eq_none (by omega)]
        rfl
    · simp only [hk, if_false, ih]
      by_cases h1 : k < n
      · have h2 : k < n + 1 := by omega
        simp [h1, h2]
      · have h2 : ¬ k < n + 1 := by omega
        simp [h1, h2]

theorem broadcast_mem (room : ChatRoom) (msg : CStr) (j : Nat)
    (hj : (j : Int) < room.user_count) (hfd : room.user_fds.getD j 0 ≠ -1) :
    Action.send (room.user_fds.getD j 0) msg ∈ broadcast_to_room room msg (-1) := by
  unfold broadcast_to_room
  rw [List.mem_map]
  refine ⟨j, ?_, rfl⟩
  rw [List.mem_filter, List.mem_range]
  exact ⟨by omega, by simpa using hfd⟩

/-- C5, amended. In Poll mode at stage Voting, when the vote `v + 1` of a
member who has not voted is valid and leaves every current member with a
recorded vote, the voter is acknowledged and the result text is sent to every
member in member order; the text is the header followed, in item order, by the
lines `<label_k> : <tally_k> 표`, each cut to 127 bytes and left out when it no
longer fits under 1024 bytes, so that it lists every item whole whenever the
lines are shorter than 128 bytes and the text is shorter than 1024 bytes;
afterwards the mode is Chat, every item pointer is NULL, the declared count,
the item index and the stage are 0. -/
theorem poll_completion (reg : Registry) (room : ChatRoom) (i u : Nat) (rr : RecvResult)
    (v : Int)
    (hmode : room.mode = POLL_MODE) (hstage : room.poll_mode_stage = 2)
    (hi : (i : Int) < room.user_count) (hn : 0 < rr.n)
    (hu : get_user_index room (room.user_fds.getD i 0) = some u)
    (hunvoted : room.vote_received.getD u 0 = -1)
    (hv : wrap32 (atoi (cut_line rr.buffer) - 1) = v) (hv0 : 0 ≤ v) (hv1 : v < room.poll_count)
    (hall : all_voted (record_vote room u v) = true) :
    (chatroom_recv reg room i rr).1 = reg
      ∧ (chatroom_recv reg room i rr).2.2 =
          [Action.send (room.user_fds.getD i 0) (utf8 "선택 완료!\n")]
            ++ broadcast_to_room (record_vote room u v)
                (poll_result_text (record_vote room u v)) (-1)
      ∧ (∀ j : Nat, (j : Int) < room.user_count → room.user_fds.getD j 0 ≠ -1 →
          Action.send (room.user_fds.getD j 0) (poll_result_text (record_vote room u v))
            ∈ (chatroom_recv reg room i rr).2.2)
      ∧ poll_result_text (record_vote room u v) =
          append_lines (utf8 "====== [POLL_RESULT] ======\n")
            ((List.range room.poll_count.toNat).map
              (fun k => (poll_result_format (record_vote room u v) k).take 127))
      ∧ ((∀ k : Nat, k < room.poll_count.toNat →
            (poll_result_format (record_vote room u v) k).length < MEDIUM_BUFF_SIZE) →
          (utf8 "====== [POLL_RESULT] ======\n").length
            + ((List.range room.poll_count.toNat).map
                (poll_result_format (record_vote room u v))).flatten.length < LARGE_BUFF_SIZE →
          poll_result_text (record_vote room u v) =
            utf8 "====== [POLL_RESULT] ======\n"
              ++ ((List.range room.poll_count.toNat).map
                    (poll_result_format (record_vote room u v))).flatten)
      ∧ (chatroom_recv reg room i rr).2.1.mode = CHAT_MODE
      ∧ (∀ k : Nat, k < 10 → (chatroom_recv reg room i rr).2.1.poll_list.getD k none = none)
      ∧ (chatroom_recv reg room i rr).2.1.poll_count = 0
      ∧ (chatroom_recv reg room i rr).2.1.poll_index = 0
      ∧ (chatroom_recv reg room i rr).2.1.poll_mode_stage = 0 := by
  obtain ⟨hn1, hn2⟩ := n_pos_cases rr hn
  have hpc : POLL_MODE ≠ CHAT_MODE := by decide
  have hpg : POLL_MODE ≠ GAME_MODE := by decide
  have h21 : ¬ ((2 : Int) = 0) := by decide
  have h22 : ¬ ((2 : Int) = 1) := by decide
  have hrange : ¬ (v < 0 ∨ v ≥ room.poll_count) := by omega
  have hq : cut_line rr.buffer ≠ utf8 "quit" := by
    intro hc
    have hm : wrap32 (atoi (utf8 "quit") - 1) = -1 := by decide
    rw [hc, hm] at hv
    omega
  have hinfo : cut_line rr.buffer ≠ utf8 "info" := by
    intro hc
    have hm : wrap32 (atoi (utf8 "info") - 1) = -1 := by decide
    rw [hc, hm] at hv
    omega
  have hpl : poll_line room i (cut_line rr.buffer) =
      some (reset_poll_state { record_vote room u v with mode := CHAT_MODE },
        [Action.send (room.user_fds.getD i 0) (utf8 "선택 완료!\n")]
          ++ broadcast_to_room (record_vote room u v)
              (poll_result_text (record_vote room u v)) (-1)) := by
    unfold poll_line
    simp only [hstage, h21, h22, and_false, if_false, if_true, hu, hunvoted, ne_eq,
      not_true_eq_false, hv, hrange, hall]
  have e : chatroom_recv reg room i rr =
      (reg, reset_poll_state { record_vote room u v with mode := CHAT_MODE },
        [Action.send (room.user_fds.getD i 0) (utf8 "선택 완료!\n")]
          ++ broadcast_to_room (record_vote room u v)
              (poll_result_text (record_vote room u v)) (-1)) := by
    unfold chatroom_recv
    simp only [hi, not_true_eq_false, if_false, hn1, hn2, hq, hinfo, hmode, hpc, hpg, and_false,
      if_true, hpl]
  have hcount : (record_vote room u v).poll_count = room.poll_count := rfl
  rw [e]
  refine ⟨rfl, rfl, ?_, ?_, ?_, rfl, ?_, rfl, rfl, rfl⟩
  · intro j hj hfd
    apply List.mem_append_right
    exact broadcast_mem (record_vote room u v) _ j hj hfd
  · simp only [poll_result_text, hcount]
    rfl
  · intro hshort htotal
    have hmap : (List.range room.poll_count.toNat).map (poll_result_line (record_vote room u v))
        = (List.range room.poll_count.toNat).map (poll_result_format (record_vote room u v)) := by
      apply List.map_congr_left
      intro k hk
      rw [List.mem_range] at hk
      have := hshort k hk
      unfold poll_result_line snprintf
      apply List.take_of_length_le
      omega
    simp only [poll_result_text, hcount, hmap]
    exact append_lines_fits _ _ htotal
  · intro k hk
    simp only [reset_poll_state, MAX_POLL]
    rw [fill_upto_getD]
    split
    · rfl
    · rename_i hcond
      have hlen : ¬ k < (record_vote room u v).poll_list.length := by
        intro hl
        exact hcond ⟨by simpa using hk, hl⟩
      rw [List.getD_eq_getElem?_getD, List.getElem?_eq_none (by omega)]
      rfl

set_option maxRecDepth 100000 in
/-- Instance of C5, amended: items `Pizza` and `Burger`, member 4 has voted 1
and member 5 votes 2; both receive `Pizza : 1 표` and `Burger : 1 표`. -/
theorem poll_completion_witness :
    (chatroom_recv pizza_poll.1 pizza_poll.2 1 (sent_line "2")).2.2 =
        [Action.send 5 (utf8 "선택 완료!\n"),
         Action.send 4 (utf8 "====== [POLL_RESULT] ======\nPizza : 1 표\nBurger : 1 표\n"),
         Action.send 5 (utf8 "====== [POLL_RESULT] ======\nPizza : 1 표\nBurger : 1 표\n")]
      ∧ (chatroom_recv pizza_poll.1 pizza_poll.2 1 (sent_line "2")).2.1.mode = CHAT_MODE := by
  have h := poll_completion pizza_poll.1 pizza_poll.2 1 1 (sent_line "2") 1 (by decide)
    (by decide) (by decide) (by decide) (by decide) (by decide) (by decide) (by decide)
    (by decide) (by decide)
  refine ⟨?_, h.2.2.2.2.2.1⟩
  rw [h.2.1]
  decide

/-! ## Room capacity -/

theorem pre_ok_iff (acts : List Action) (o : Outcome) (s1 : Server) (a1 : List Action) :
    o.pre acts = Outcome.ok s1 a1 ↔ ∃ a0, o = Outcome.ok s1 a0 ∧ a1 = acts ++ a0 := by
  cases o <;> simp [Outcome.pre]
  constructor
  · rintro ⟨h1, h2⟩
    exact ⟨_, ⟨h1, rfl⟩, h2.symm⟩
  · rintro ⟨a0, ⟨h1, h2⟩, h3⟩
    exact ⟨h1, by rw [h3, h2]⟩

theorem rename_dialog_chatrooms (s : Server) (i : Nat) (fd : Int) (inputs : List RecvResult) :
    ∀ (s1 : Server) (a1 : List Action), rename_dialog s i fd inputs = Outcome.ok s1 a1 →
      s1.chatrooms = s.chatrooms := by
  induction inputs with
  | nil => intro s1 a1 h; simp [rename_dialog] at h
  | cons rr rest ih =>
    intro s1 a1 h
    unfold rename_dialog at h
    split at h
    · simp at h
    · split at h
      · rw [pre_ok_iff] at h
        obtain ⟨a0, h0, _⟩ := h
        exact ih s1 a0 h0
      · simp only [Outcome.ok.injEq] at h
        rw [← h.1]

theorem set_within {l : List ChatRoom} {k : Nat} {r : ChatRoom}
    (hl : ∀ room ∈ l, room.user_count ≤ MAX_ROOM_USERS) (hr : r.user_count ≤ MAX_ROOM_USERS) :
    ∀ room ∈ l.set k r, room.user_count ≤ MAX_ROOM_USERS := by
  intro room hm
  rcases List.mem_or_eq_of_mem_set hm with h | h
  · exact hl room h
  · rw [h]; exact hr

theorem join_dialog_within (s : Server) (i : Nat) (fd : Int) (inputs : List RecvResult)
    (hs : ∀ room ∈ s.chatrooms, room.user_count ≤ MAX_ROOM_USERS) :
    ∀ (s1 : Server) (a1 : List Action), join_dialog s i fd inputs = Outcome.ok s1 a1 →
      ∀ room ∈ s1.chatrooms, room.user_count ≤ MAX_ROOM_USERS := by
  induction inputs with
  | nil => intro s1 a1 h; simp [join_dialog] at h
  | cons rr rest ih =>
    intro s1 a1 h
    unfold join_dialog at h
    simp only [] at h
    repeat' split at h
    all_goals
      first
      | (simp only [pre_ok_iff] at h
         obtain ⟨a0, h0, _⟩ := h
         exact ih s1 a0 h0)
      | (simp only [Outcome.ok.injEq] at h
         rw [← h.1]
         first
         | exact hs
         | (apply set_within hs
            simp only [MAX_ROOM_USERS] at *
            omega))
      | simp at h

theorem create_room_loop_within (cname : CStr) (spawn : Nat → Bool) (fd : Int) (js : List Nat) :
    ∀ s : Server, (∀ room ∈ s.chatrooms, room.user_count ≤ MAX_ROOM_USERS) →
      ∀ room ∈ (create_room_loop cname spawn fd js s).1.chatrooms,
        room.user_count ≤ MAX_ROOM_USERS := by
  induction js with
  | nil => intro s hs; exact hs
  | cons j rest ih =>
    intro s hs
    unfold create_room_loop
    simp only []
    split
    · split
      · exact set_within hs (by show (0 : Int) ≤ MAX_ROOM_USERS; decide)
      · exact ih _ (set_within hs (by show (0 : Int) ≤ MAX_ROOM_USERS; decide))
    · exact ih s hs

theorem create_dialog_within (s : Server) (i : Nat) (fd : Int) (spawn : Nat → Bool)
    (inputs : List RecvResult)
    (hs : ∀ room ∈ s.chatrooms, room.user_count ≤ MAX_ROOM_USERS) :
    ∀ (s1 : Server) (a1 : List Action), create_dialog s i fd spawn inputs = Outcome.ok s1 a1 →
      ∀ room ∈ s1.chatrooms, room.user_count ≤ MAX_ROOM_USERS := by
  induction inputs with
  | nil => intro s1 a1 h; simp [create_dialog] at h
  | cons rr rest ih =>
    intro s1 a1 h
    unfold create_dialog at h
    simp only [create_finish] at h
    repeat' split at h
    all_goals
      first
      | (simp only [pre_ok_iff] at h
         obtain ⟨a0, h0, _⟩ := h
         exact ih s1 a0 h0)
      | (simp only [Outcome.ok.injEq] at h
         rw [← h.1]
         first
         | exact hs
         | exact create_room_loop_within _ _ _ _ s hs)
      | simp at h

theorem lobby_recv_within (s : Server) (i : Nat) (rr : RecvResult) (more : List RecvResult)
    (spawn : Nat → Bool) (hs : ∀ room ∈ s.chatrooms, room.user_count ≤ MAX_ROOM_USERS)
    (s1 : Server) (a1 : List Action) (h : lobby_recv s i rr more spawn = Outcome.ok s1 a1) :
    ∀ room ∈ s1.chatrooms, room.user_count ≤ MAX_ROOM_USERS := by
  have hok : ∀ a : List Action, Outcome.ok s a = Outcome.ok s1 a1 →
      ∀ room ∈ s1.chatrooms, room.user_count ≤ MAX_ROOM_USERS := by
    intro a ha
    simp only [Outcome.ok.injEq] at ha
    rw [← ha.1]
    exact hs
  have hrm : ∀ a : List Action,
      Outcome.ok { s with reg := (remove_client s.reg i).1 } a = Outcome.ok s1 a1 →
      ∀ room ∈ s1.chatrooms, room.user_count ≤ MAX_ROOM_USERS := by
    intro a ha
    simp only [Outcome.ok.injEq] at ha
    rw [← ha.1]
    exact hs
  unfold lobby_recv at h
  simp only [] at h
  by_cases c1 : (i : Int) < s.reg.client_count
  swap
  · simp only [c1, not_false_eq_true, if_true] at h
    exact hok _ h
  by_cases c2 : (s.reg.clients.getD i default).state ≠ ClientState.STATE_LOBBY
  · simp only [c1, c2, ne_eq, not_true_eq_false, not_false_eq_true, if_true, if_false] at h
    exact hok _ h
  by_cases c3 : rr.n < 0
  · simp only [c1, c2, c3, ne_eq, not_true_eq_false, not_false_eq_true, if_true, if_false] at h
    exact hok _ h
  by_cases c4 : rr.n = 0
  · simp only [c1, c2, c3, c4, ne_eq, not_true_eq_false, not_false_eq_true, if_true, if_false] at h
    exact hrm _ h
  by_cases c5 : strlen (trim (cut_line rr.buffer)) = 0
  · simp only [c1, c2, c3, c4, c5, ne_eq, not_true_eq_false, not_false_eq_true, if_true, if_false] at h
    exact hok _ h
  by_cases m0 : trim (cut_line rr.buffer) = utf8 "0"
  · simp only [c1, c2, c3, c4, c5, m0, ne_eq, not_true_eq_false, not_false_eq_true, if_true,
      if_false] at h
    exact hok _ h
  by_cases m1 : trim (cut_line rr.buffer) = utf8 "1"
  · simp only [c1, c2, c3, c4, c5, m0, m1, ne_eq, not_true_eq_false, not_false_eq_true, if_true,
      if_false] at h
    rw [rename_dialog_chatrooms s i _ more s1 a1 h]
    exact hs
  by_cases m2 : trim (cut_line rr.buffer) = utf8 "2"
  · simp only [c1, c2, c3, c4, c5, m0, m1, m2, ne_eq, not_true_eq_false, not_false_eq_true, if_true,
      if_false] at h
    exact join_dialog_within s i _ more hs s1 a1 h
  by_cases m3 : trim (cut_line rr.buffer) = utf8 "3"
  · simp only [c1, c2, c3, c4, c5, m0, m1, m2, m3, ne_eq, not_true_eq_false, not_false_eq_true,
      if_true, if_false] at h
    exact create_dialog_within s i _ spawn more hs s1 a1 h
  by_cases m4 : trim (cut_line rr.buffer) = utf8 "4"
  · simp only [c1, c2, c3, c4, c5, m0, m1, m2, m3, m4, ne_eq, not_true_eq_false, not_false_eq_true,
      if_true, if_false] at h
    exact hrm _ h
  · simp only [c1, c2, c3, c4, c5, m0, m1, m2, m3, m4, ne_eq, not_true_eq_false, not_false_eq_true,
      if_true, if_false] at h
    exact hok _ h

theorem remove_user_count (reg : Registry) (room : ChatRoom) (index : Nat) :
    (remove_user reg room index).2.1.user_count = room.user_count - 1 := by
  unfold remove_user
  simp only []
  split <;> split <;> simp [reset_poll_state]

theorem game_line_count (reg : Registry) (room : ChatRoom) (i : Nat) (buffer : CStr) :
    (game_line reg room i buffer).1.user_count = room.user_count := by
  unfold game_line
  simp only []
  repeat' split
  all_goals rfl

theorem poll_line_count (room : ChatRoom) (i : Nat) (buffer : CStr)
    (r : ChatRoom × List Action) (h : poll_line room i buffer = some r) :
    r.1.user_count = room.user_count := by
  unfold poll_line at h
  simp only [] at h
  repeat' split at h
  all_goals
    first
    | (simp only [Option.some.injEq] at h
       subst h
       rfl)
    | simp at h

theorem chat_line_count (reg : Registry) (room : ChatRoom) (i : Nat) (buffer : CStr) :
    (chat_line reg room i buffer).1.user_count = room.user_count
      ∨ (chat_line reg room i buffer).1.user_count = 0 := by
  unfold chat_line
  simp only []
  repeat' split
  all_goals simp

theorem chatroom_recv_within (reg : Registry) (room : ChatRoom) (i : Nat) (rr : RecvResult)
    (h : room.user_count ≤ MAX_ROOM_USERS) :
    (chatroom_recv reg room i rr).2.1.user_count ≤ MAX_ROOM_USERS := by
  have hrem := remove_user_count reg room i
  have hgame := game_line_count reg room i (cut_line rr.buffer)
  have hchat := chat_line_count reg room i (cut_line rr.buffer)
  unfold chatroom_recv
  simp only []
  repeat' split
  all_goals
    first
    | (simp only [hrem]; omega)
    | (simp only [hgame]; exact h)
    | (rename_i r hr
       have := poll_line_count room i _ r (by
         revert hr
         split
         · exact id
         · intro h0; simp at h0)
       simp only [this]
       exact h)

theorem default_rooms_loop_within (spawn : Nat → Bool) (js : List Nat) :
    ∀ s : Server, (∀ room ∈ s.chatrooms, room.user_count ≤ MAX_ROOM_USERS) →
      ∀ room ∈ (default_rooms_loop spawn js s).chatrooms, room.user_count ≤ MAX_ROOM_USERS := by
  induction js with
  | nil => intro s hs; exact hs
  | cons j rest ih =>
    intro s hs
    unfold default_rooms_loop
    simp only []
    split
    · exact ih _ (set_within hs (by show (0 : Int) ≤ MAX_ROOM_USERS; decide))
    · exact ih _ (set_within hs (by show (0 : Int) ≤ MAX_ROOM_USERS; decide))

theorem default_rooms_within (spawn : Nat → Bool) :
    ∀ room ∈ (default_rooms spawn).chatrooms, room.user_count ≤ MAX_ROOM_USERS := by
  apply default_rooms_loop_within
  intro room hm
  simp only [zero_server] at hm
  rw [List.eq_of_mem_replicate hm]
  decide

theorem step_within (s : Server) (e : Event) (s1 : Server) (acts : List Action)
    (hs : ∀ room ∈ s.chatrooms, room.user_count ≤ MAX_ROOM_USERS)
    (h : step s e = Outcome.ok s1 acts) :
    ∀ room ∈ s1.chatrooms, room.user_count ≤ MAX_ROOM_USERS := by
  have hget : ∀ k : Nat, (s.chatrooms.getD k default).user_count ≤ MAX_ROOM_USERS := by
    intro k
    rw [List.getD_eq_getElem?_getD]
    cases hk : s.chatrooms[k]? with
    | none => decide
    | some room => exact hs room (List.getElem?_mem hk)
  cases e with
  | accept cli_fd rr =>
    simp only [step, Outcome.ok.injEq] at h
    rw [← h.1]
    unfold accept_client
    repeat' split
    all_goals exact hs
  | lobby i rr more spawn => exact lobby_recv_within s i rr more spawn hs s1 acts h
  | refresh k =>
    simp only [step] at h
    split at h
    · simp only [Outcome.ok.injEq] at h
      rw [← h.1]
      exact set_within hs (hget k)
    · simp only [Outcome.ok.injEq] at h
      rw [← h.1]
      exact hs
  | room k i rr =>
    simp only [step] at h
    split at h
    · simp only [Outcome.ok.injEq] at h
      rw [← h.1]
      exact set_within hs (chatroom_recv_within s.reg _ i rr (hget k))
    · simp only [Outcome.ok.injEq] at h
      rw [← h.1]
      exact hs

theorem reachable_within (s : Server) (h : Reachable s) :
    ∀ room ∈ s.chatrooms, room.user_count ≤ MAX_ROOM_USERS := by
  induction h with
  | init spawn => exact default_rooms_within spawn
  | step s e s1 acts _ hstep ih => exact step_within s e s1 acts ih hstep

theorem run_reachable (evs : List Event) :
    ∀ s s1 : Server, Reachable s → run s evs = some s1 → Reachable s1 := by
  induction evs with
  | nil =>
    intro s s1 hs h
    simp only [run, Option.some.injEq] at h
    rw [← h]
    exact hs
  | cons e rest ih =>
    intro s s1 hs h
    unfold run at h
    cases ho : step s e with
    | ok s2 acts =>
      simp only [ho, Outcome.state?] at h
      exact ih s2 s1 (Reachable.step s e s2 acts hs ho) h
    | blocked s2 acts => simp [ho, Outcome.state?] at h
    | runaway s2 j acts => simp [ho, Outcome.state?] at h
    | undefined s2 acts => simp [ho, Outcome.state?] at h

theorem state_after_reachable (evs : List Event)
    (h : (run (default_rooms spawn_ok) evs).isSome = true) : Reachable (state_after evs) := by
  unfold state_after
  cases hr : run (default_rooms spawn_ok) evs with
  | none => simp [hr] at h
  | some s1 => exact run_reachable evs _ s1 (Reachable.init spawn_ok) hr

theorem not_b_of_parse (rnum : CStr) (room_id : Int) (h : parse_valid_int rnum = some room_id) :
    strcasecmp_eq rnum (utf8 "b") = false := by
  by_contra hc
  simp only [strcasecmp_eq, Bool.not_eq_false, decide_eq_true_eq] at hc
  have hb : (utf8 "b").map tolower = [98] := by decide
  have p1 : parse_valid_int [98] = none := by decide
  have p2 : parse_valid_int [66] = none := by decide
  rw [hb] at hc
  have hl : rnum.length = 1 := by
    have := congrArg List.length hc
    simpa using this
  match rnum, hl, hc, h with
  | [c], _, hc, h =>
    simp only [List.map, List.cons.injEq, and_true] at hc
    have hcases : c = 98 ∨ c = 66 := by
      unfold tolower at hc
      split at hc <;> omega
    rcases hcases with rfl | rfl
    · rw [p1] at h
      exact Option.noConfusion h
    · rw [p2] at h
      exact Option.noConfusion h

/-- C10. In every reachable state every room has at most `MAX_ROOM_USERS`
members. When a lobby client picks menu 2 and then names a valid index of a
room that already has `MAX_ROOM_USERS` members, it gets the full-room message
and the dialog goes on from the very same server state (rooms and registry
untouched) by sending the room list again; with no further input the
dispatcher waits in that state. -/
theorem room_capacity :
    (∀ s : Server, Reachable s → ∀ room ∈ s.chatrooms, room.user_count ≤ MAX_ROOM_USERS)
      ∧ (∀ (s : Server) (i : Nat) (rr0 rr : RecvResult) (rest : List RecvResult)
          (spawn : Nat → Bool) (room_id : Int),
          (i : Int) < s.reg.client_count →
          (s.reg.clients.getD i default).state = ClientState.STATE_LOBBY →
          0 < rr0.n → trim (cut_line rr0.buffer) = utf8 "2" →
          0 < rr.n → trim (cut_line rr.buffer) ≠ [] →
          parse_valid_int (trim (cut_line rr.buffer)) = some room_id →
          0 ≤ room_id → room_id < s.room_count →
          (s.chatrooms.getD room_id.toNat default).user_count = MAX_ROOM_USERS →
          lobby_recv s i rr0 (rr :: rest) spawn =
              (join_dialog s i (s.reg.clients.getD i default).fd rest).pre
                (send_room_list s (s.reg.clients.getD i default).fd ++
                  [Action.send (s.reg.clients.getD i default).fd
                    (utf8 "해당 채팅방은 인원이 가득 찼습니다.\n")])
            ∧ lobby_recv s i rr0 [rr] spawn =
                Outcome.blocked s
                  (send_room_list s (s.reg.clients.getD i default).fd ++
                    [Action.send (s.reg.clients.getD i default).fd
                      (utf8 "해당 채팅방은 인원이 가득 찼습니다.\n")] ++
                    send_room_list s (s.reg.clients.getD i default).fd)) := by
  refine ⟨reachable_within, ?_⟩
  intro s i rr0 rr rest spawn room_id hi hstate hn0 hl0 hn hne hparse h0 h1 hfull
  obtain ⟨c3, c4⟩ := n_pos_cases rr0 hn0
  have hnle : ¬ rr.n ≤ 0 := by omega
  have hlen0 : ¬ strlen (utf8 "2") = 0 := by decide
  have m0 : utf8 "2" ≠ utf8 "0" := by decide
  have m1 : utf8 "2" ≠ utf8 "1" := by decide
  have hlen : ¬ strlen (trim (cut_line rr.buffer)) = 0 := by
    intro hc
    exact hne (List.eq_nil_of_length_eq_zero hc)
  have hb := not_b_of_parse _ _ hparse
  have hrange : room_id ≥ 0 ∧ room_id < s.room_count := ⟨h0, h1⟩
  have hnot : ¬ (s.chatrooms.getD room_id.toNat default).user_count < MAX_ROOM_USERS := by
    rw [hfull]
    exact lt_irrefl _
  have hjoin : ∀ more : List RecvResult,
      join_dialog s i (s.reg.clients.getD i default).fd (rr :: more) =
        (join_dialog s i (s.reg.clients.getD i default).fd more).pre
          (send_room_list s (s.reg.clients.getD i default).fd ++
            [Action.send (s.reg.clients.getD i default).fd
              (utf8 "해당 채팅방은 인원이 가득 찼습니다.\n")]) := by
    intro more
    rw [join_dialog]
    simp only [hnle, hlen, hb, hparse, hrange, hnot, if_false, if_true, and_self,
      Bool.false_eq_true]
  have hlobby : ∀ more : List RecvResult,
      lobby_recv s i rr0 more spawn = join_dialog s i (s.reg.clients.getD i default).fd more := by
    intro more
    unfold lobby_recv
    simp only [hi, hstate, c3, c4, hl0, hlen0, m0, m1, ne_eq, not_true_eq_false,
      not_false_eq_true, if_true, if_false]
  rw [hlobby, hlobby, hjoin, hjoin]
  refine ⟨rfl, ?_⟩
  simp only [join_dialog, Outcome.pre, List.append_assoc]

set_option maxRecDepth 100000 in
/-- Instance of C10: ten clients have entered room 0; the room is reachable
and full, and the eleventh client, asking for room 0, leaves the server state
as it is. -/
theorem room_capacity_witness :
    Reachable (state_after full_room_events)
      ∧ ((state_after full_room_events).chatrooms.getD 0 default).user_count = MAX_ROOM_USERS
      ∧ (∀ room ∈ (state_after full_room_events).chatrooms, room.user_count ≤ MAX_ROOM_USERS)
      ∧ lobby_recv (state_after full_room_events) 10 (sent_line "2") [sent_line "0"] spawn_ok =
          Outcome.blocked (state_after full_room_events)
            (send_room_list (state_after full_room_events) 14 ++
              [Action.send 14 (utf8 "해당 채팅방은 인원이 가득 찼습니다.\n")] ++
              send_room_list (state_after full_room_events) 14) := by
  have hr : Reachable (state_after full_room_events) :=
    state_after_reachable full_room_events (by decide)
  refine ⟨hr, by decide, room_capacity.1 _ hr, ?_⟩
  exact (room_capacity.2 (state_after full_room_events) 10 (sent_line "2") (sent_line "0") []
    spawn_ok 0 (by decide) (by decide) (by decide) (by decide) (by decide) (by decide)
    (by decide) (by decide) (by decide) (by decide)).2

/-! ## Votes and membership changes -/

set_option maxRecDepth 100000 in
/-- C6, the code at a failing input. Members 4, 5, 6 of room 0 are at stage
Voting. Member 6 votes 1, member 4 leaves with `quit`, and `remove_user` moves
descriptor 6 into slot 0 without its vote marker; member 6 votes 1 again and
is counted again: two raises of the tally come from connection 6 within one
poll round, and item 1 stands at 2 votes with a single voter. -/
theorem double_vote_after_quit :
    Reachable (state_after voting_events)
      ∧ (state_after voting_events).room0.user_fds.take 3 = [4, 5, 6]
      ∧ (state_after voting_events).room0.poll_votes.take 2 = [0, 0]
      ∧ stages_along 0 (state_after voting_events) double_vote_events
          = [(POLL_MODE, 2), (POLL_MODE, 2), (POLL_MODE, 2), (POLL_MODE, 2), (POLL_MODE, 2)]
      ∧ tally_raises_by 0 6 (state_after voting_events) double_vote_events = 2
      ∧ (state_after (voting_events ++ double_vote_events)).room0.poll_votes.take 2 = [2, 0]
      ∧ (state_after (voting_events ++ double_vote_events)).room0.user_fds.take 2 = [6, 5]
      ∧ (state_after (voting_events ++ double_vote_events)).room0.vote_received.take 2
          = [0, -1] := by
  refine ⟨state_after_reachable voting_events (by decide), ?_⟩
  decide

set_option maxRecDepth 100000 in
/-- C7, the code at a failing input. Members 4, 5, 6 of room 0 are at stage
Voting; 4 and 5 vote and 6, who has not voted, leaves with `quit`. The state
reached has mode Poll and stage Voting although each of the two current
members has a recorded vote: no member is left with the unvoted marker, the
tally is never broadcast, and a further line of a member is dropped without
any reply or change. -/
theorem poll_left_open_after_quit :
    Reachable (state_after (voting_events ++ leave_unvoted_events))
      ∧ (state_after (voting_events ++ leave_unvoted_events)).room0.mode = POLL_MODE
      ∧ (state_after (voting_events ++ leave_unvoted_events)).room0.poll_mode_stage = 2
      ∧ (state_after (voting_events ++ leave_unvoted_events)).room0.user_count = 2
      ∧ (state_after (voting_events ++ leave_unvoted_events)).room0.vote_received.take 2
          = [0, 1]
      ∧ all_voted (state_after (voting_events ++ leave_unvoted_events)).room0 = true
      ∧ chatroom_recv (state_after (voting_events ++ leave_unvoted_events)).reg
          (state_after (voting_events ++ leave_unvoted_events)).room0 0 (sent_line "hello")
        = ((state_after (voting_events ++ leave_unvoted_events)).reg,
           (state_after (voting_events ++ leave_unvoted_events)).room0, []) := by
  refine ⟨state_after_reachable _ (by decide), ?_⟩
  decide

/-! ## Departure of the host -/

/-- C17. Host-departure policy of `remove_user`. Removing the host in Game
mode puts the room in Chat mode with an empty answer (and an unset host
handle); removing the host in Poll mode before stage Voting puts the room in
Chat mode with the poll sub-state reset; removing the host in Poll mode at
stage Voting, or removing a member who is not the host, leaves the mode and
the whole game and poll sub-state as they were. -/
theorem host_departure_policy (reg : Registry) (room : ChatRoom) (index : Nat) :
    (room.mode = GAME_MODE → room.user_fds.getD index 0 = room.game_host_fd →
        sub_state (remove_user reg room index).2.1 =
          (CHAT_MODE, -1, room.game_host_name, [], room.poll_mode_stage, room.poll_count,
           room.poll_index, room.poll_list, room.poll_votes, room.vote_received))
      ∧ (room.mode = POLL_MODE → room.poll_mode_stage ≠ 2 →
          room.user_fds.getD index 0 = room.game_host_fd →
          sub_state (remove_user reg room index).2.1 =
            (CHAT_MODE, -1, [], room.game_answer, 0, 0, 0,
             fill_upto 10 none room.poll_list, fill_upto 10 0 room.poll_votes,
             fill_upto 10 (-1) room.vote_received))
      ∧ (room.mode = POLL_MODE → room.poll_mode_stage = 2 →
          sub_state (remove_user reg room index).2.1 = sub_state room)
      ∧ (room.user_fds.getD index 0 ≠ room.game_host_fd →
          sub_state (remove_user reg room index).2.1 = sub_state room) := by
  have hgc : GAME_MODE ≠ CHAT_MODE := by decide
  have hgp : GAME_MODE ≠ POLL_MODE := by decide
  have hpg : POLL_MODE ≠ GAME_MODE := by decide
  have hcp : CHAT_MODE ≠ POLL_MODE := by decide
  refine ⟨?_, ?_, ?_, ?_⟩
  · intro hm hh
    rw [List.getD_eq_getElem?_getD] at hh
    simp [remove_user, sub_state, hm, hh, hcp]
  · intro hm hs hh
    rw [List.getD_eq_getElem?_getD] at hh
    simp [remove_user, sub_state, hm, hh, hs, hpg, reset_poll_state, MAX_POLL, MAX_ROOM_USERS]
  · intro hm hs
    simp [remove_user, sub_state, hm, hs, hpg]
  · intro hh
    rw [List.getD_eq_getElem?_getD] at hh
    simp [remove_user, sub_state, hh]

/-- Instance of C17: the host 4 of the example game leaves, and the host 4 of
the example poll leaves at stage Voting. -/
theorem host_departure_policy_witness :
    sub_state (remove_user example_registry example_game_room 0).2.1 =
        (CHAT_MODE, -1, utf8 "alice", [], 0, 0, 0, List.replicate 10 none,
         List.replicate 10 0, List.replicate 10 0)
      ∧ sub_state (remove_user example_registry example_voting_room 0).2.1
          = sub_state example_voting_room :=
  ⟨(host_departure_policy example_registry example_game_room 0).1 (by decide) (by decide),
   (host_departure_policy example_registry example_voting_room 0).2.2.1 (by decide) (by decide)⟩

/-! ## Plain chat lines -/

theorem cut_line_length (rr : RecvResult) : (cut_line rr.buffer).length ≤ 127 := by
  have h1 : (cut_line rr.buffer).length ≤ rr.buffer.length := by
    unfold cut_line
    exact (List.takeWhile_sublist _).length_le
  have h2 : rr.buffer.length ≤ 127 := by
    cases rr with
    | error => simp [RecvResult.buffer]
    | data bytes =>
      simp only [RecvResult.buffer, MEDIUM_BUFF_SIZE, List.length_take]
      omega
  omega

/-- C20. A plain chat line in Chat mode (not `quit`, `info`, `game` or `poll`)
leaves the registry and the room unchanged. With exactly one member the only
thing sent is the alone notice to the sender. With `n ≥ 2` members exactly `n`
messages are sent, one per member in member-table order: `[ME] <line>` to the
sender's connection and `[<sender name>] <line>` to every other one. -/
theorem plain_chat_line (reg : Registry) (room : ChatRoom) (i : Nat) (rr : RecvResult)
    (hmode : room.mode = CHAT_MODE) (hi : (i : Int) < room.user_count) (hn : 0 < rr.n)
    (hq : cut_line rr.buffer ≠ utf8 "quit") (hinfo : cut_line rr.buffer ≠ utf8 "info")
    (hgame : cut_line rr.buffer ≠ utf8 "game") (hpoll : cut_line rr.buffer ≠ utf8 "poll")
    (hname : ((room.user_names.getD i NamePtr.null).deref reg).length ≤ SMALL_BUFF_SIZE - 1) :
    (chatroom_recv reg room i rr).1 = reg
      ∧ (chatroom_recv reg room i rr).2.1 = room
      ∧ (room.user_count = 1 →
          (chatroom_recv reg room i rr).2.2 =
            [Action.send (room.user_fds.getD i 0)
              (utf8 "[NOTICE] 현재 채팅방에 혼자 있습니다.\n")])
      ∧ (2 ≤ room.user_count →
          (chatroom_recv reg room i rr).2.2.length = room.user_count.toNat
          ∧ (chatroom_recv reg room i rr).2.2 =
            (List.range room.user_count.toNat).map (fun j =>
              Action.send (room.user_fds.getD j 0)
                (if room.user_fds.getD j 0 = room.user_fds.getD i 0 then
                  utf8 "[ME] " ++ cut_line rr.buffer ++ utf8 "\n"
                else
                  utf8 "[" ++ (room.user_names.getD i NamePtr.null).deref reg ++ utf8 "] "
                    ++ cut_line rr.buffer ++ utf8 "\n"))) := by
  obtain ⟨hn1, hn2⟩ := n_pos_cases rr hn
  have hcg : CHAT_MODE ≠ GAME_MODE := by decide
  have hcp : CHAT_MODE ≠ POLL_MODE := by decide
  have hlen := cut_line_length rr
  have l1 : (utf8 "[ME] ").length = 5 := by decide
  have l2 : (utf8 "\n").length = 1 := by decide
  have l3 : (utf8 "[").length = 1 := by decide
  have l4 : (utf8 "] ").length = 2 := by decide
  simp only [SMALL_BUFF_SIZE] at hname
  have t1 : snprintf LARGE_BUFF_SIZE (utf8 "[ME] " ++ cut_line rr.buffer ++ utf8 "\n")
      = utf8 "[ME] " ++ cut_line rr.buffer ++ utf8 "\n" := by
    apply List.take_of_length_le
    simp only [List.length_append, l1, l2, LARGE_BUFF_SIZE]
    omega
  have t2 : snprintf LARGE_BUFF_SIZE
      (utf8 "[" ++ (room.user_names.getD i NamePtr.null).deref reg ++ utf8 "] "
        ++ cut_line rr.buffer ++ utf8 "\n")
      = utf8 "[" ++ (room.user_names.getD i NamePtr.null).deref reg ++ utf8 "] "
        ++ cut_line rr.buffer ++ utf8 "\n" := by
    apply List.take_of_length_le
    simp only [List.length_append, l2, l3, l4, LARGE_BUFF_SIZE]
    omega
  have e : chatroom_recv reg room i rr =
      (reg, (chat_line reg room i (cut_line rr.buffer)).1,
        (chat_line reg room i (cut_line rr.buffer)).2) := by
    unfold chatroom_recv
    simp only [hi, not_true_eq_false, if_false, hn1, hn2, hq, hinfo, hgame, hpoll, hmode, hcg,
      hcp, false_and, and_false]
  rw [e]
  by_cases h1 : room.user_count = 1
  · have hc : chat_line reg room i (cut_line rr.buffer) =
        (room, [Action.send (room.user_fds.getD i 0)
          (utf8 "[NOTICE] 현재 채팅방에 혼자 있습니다.\n")]) := by
      unfold chat_line
      simp only [h1, if_true]
    rw [hc]
    refine ⟨rfl, rfl, fun _ => rfl, ?_⟩
    intro h2
    omega
  · have hgt : room.user_count > 1 := by omega
    have hc : chat_line reg room i (cut_line rr.buffer) =
        (room, (List.range room.user_count.toNat).map (fun j =>
              Action.send (room.user_fds.getD j 0)
                (if room.user_fds.getD j 0 = room.user_fds.getD i 0 then
                  utf8 "[ME] " ++ cut_line rr.buffer ++ utf8 "\n"
                else
                  utf8 "[" ++ (room.user_names.getD i NamePtr.null).deref reg ++ utf8 "] "
                    ++ cut_line rr.buffer ++ utf8 "\n"))) := by
      unfold chat_line
      simp only [h1, if_false, hgt, if_true, t1, t2]
      congr 1
      apply List.map_congr_left
      intro j _
      split <;> rfl
    rw [hc]
    refine ⟨rfl, rfl, fun h => absurd h h1, fun _ => ⟨by simp, rfl⟩⟩

set_option maxRecDepth 100000 in
/-- Instance of C20: member 5 of the three-member example room says `hello`. -/
theorem plain_chat_line_witness :
    (chatroom_recv example_registry example_room 1 (sent_line "hello")).2.2 =
        [Action.send 4 (utf8 "[bob] hello\n"), Action.send 5 (utf8 "[ME] hello\n"),
         Action.send 6 (utf8 "[bob] hello\n")]
      ∧ (chatroom_recv example_registry example_room 1 (sent_line "hello")).2.1 = example_room := by
  have h := plain_chat_line example_registry example_room 1 (sent_line "hello") (by decide)
    (by decide) (by decide) (by decide) (by decide) (by decide) (by decide) (by decide)
  refine ⟨?_, h.2.1⟩
  rw [(h.2.2.2 (by decide)).2]
  decide

/-! ## Disconnect inside a room -/

theorem find_client_index_lt (reg : Registry) (fd : Int) (idx : Nat)
    (h : find_client_index reg fd = some idx) : idx < reg.client_count.toNat := by
  unfold find_client_index at h
  have := List.mem_of_find?_eq_some h
  exact List.mem_range.1 this

theorem leave_notice_second_byte (reg : Registry) (room : ChatRoom) (i : Nat) :
    (leave_notice reg room i).getD 1 0 = 78 := by
  have hp : utf8 "[NOTICE] 사용자 " =
      91 :: 78 :: (utf8 "[NOTICE] 사용자 ").drop 2 := by decide
  unfold leave_notice snprintf
  rw [hp]
  simp [SMALL_BUFF_SIZE]

theorem filter_notice_broadcast (room : ChatRoom) (msg notice : CStr) (h : msg ≠ notice) :
    (broadcast_to_room room msg (-1)).filter (is_send_of notice) = [] := by
  rw [List.filter_eq_nil_iff]
  intro a ha
  unfold broadcast_to_room at ha
  rw [List.mem_map] at ha
  obtain ⟨j, _, rfl⟩ := ha
  simp [is_send_of, h]

theorem filter_notice_others (room : ChatRoom) (fd : Int) (notice : CStr) :
    (notify_others room fd notice).filter (is_send_of notice) = notify_others room fd notice := by
  rw [List.filter_eq_self]
  intro a ha
  unfold notify_others at ha
  rw [List.mem_map] at ha
  obtain ⟨j, _, rfl⟩ := ha
  simp [is_send_of]

/-- C12. When member `i` of a room disconnects (zero-byte read), the leave
notice is sent exactly once to each member slot whose handle differs from the
departed one, in member order, and never to the departed handle; the
connection is closed; afterwards the registry record found for the departed
handle, if there is one, has state Lobby and room id -1, and the registry is
otherwise as before. -/
theorem disconnect_notice (reg : Registry) (room : ChatRoom) (i : Nat) (rr : RecvResult)
    (hi : (i : Int) < room.user_count) (hn : rr.n = 0)
    (hreg : reg.client_count.toNat ≤ reg.clients.length) :
    (chatroom_recv reg room i rr).2.2.filter (is_send_of (leave_notice reg room i)) =
        ((List.range room.user_count.toNat).filter
            (fun j => decide (room.user_fds.getD j 0 ≠ room.user_fds.getD i 0))).map
          (fun j => Action.send (room.user_fds.getD j 0) (leave_notice reg room i))
      ∧ Action.send (room.user_fds.getD i 0) (leave_notice reg room i)
          ∉ (chatroom_recv reg room i rr).2.2
      ∧ Action.close (room.user_fds.getD i 0) ∈ (chatroom_recv reg room i rr).2.2
      ∧ (∀ idx : Nat, find_client_index reg (room.user_fds.getD i 0) = some idx →
          (chatroom_recv reg room i rr).1.clients.getD idx default =
              { (reg.clients.getD idx default) with
                state := ClientState.STATE_LOBBY, room_id := -1 }
            ∧ (∀ k : Nat, k ≠ idx →
                (chatroom_recv reg room i rr).1.clients.getD k default =
                  reg.clients.getD k default)
            ∧ (chatroom_recv reg room i rr).1.client_count = reg.client_count)
      ∧ (find_client_index reg (room.user_fds.getD i 0) = none →
          (chatroom_recv reg room i rr).1 = reg) := by
  have e : chatroom_recv reg room i rr =
      ((remove_user reg room i).1, (remove_user reg room i).2.1,
        notify_others room (room.user_fds.getD i 0) (leave_notice reg room i)
          ++ [Action.close (room.user_fds.getD i 0)] ++ (remove_user reg room i).2.2) := by
    unfold chatroom_recv leave_notice
    simp only [hi, not_true_eq_false, if_false, hn, lt_self_iff_false, if_true]
  have hgame : utf8 "[GAME] 호스트가 나가 게임이 종료되었습니다.\n" ≠ leave_notice reg room i := by
    intro hc
    have h1 := leave_notice_second_byte reg room i
    rw [← hc] at h1
    revert h1
    decide
  have hacts : (remove_user reg room i).2.2.filter (is_send_of (leave_notice reg room i)) = [] := by
    unfold remove_user
    simp only []
    split
    · exact filter_notice_broadcast _ _ _ hgame
    · rfl
  have hfilter : (chatroom_recv reg room i rr).2.2.filter (is_send_of (leave_notice reg room i))
      = notify_others room (room.user_fds.getD i 0) (leave_notice reg room i) := by
    rw [e]
    simp only [List.filter_append, hacts, filter_notice_others, List.append_nil]
    simp [is_send_of]
  refine ⟨?_, ?_, ?_, ?_, ?_⟩
  · rw [hfilter]
    rfl
  · intro hmem
    have h1 : Action.send (room.user_fds.getD i 0) (leave_notice reg room i)
        ∈ (chatroom_recv reg room i rr).2.2.filter (is_send_of (leave_notice reg room i)) := by
      rw [List.mem_filter]
      exact ⟨hmem, by simp [is_send_of]⟩
    rw [hfilter] at h1
    unfold notify_others at h1
    rw [List.mem_map] at h1
    obtain ⟨j, hj, hjeq⟩ := h1
    rw [List.mem_filter] at hj
    simp only [Action.send.injEq, and_true] at hjeq
    exact of_decide_eq_true hj.2 hjeq
  · rw [e]
    simp
  · intro idx hidx
    have hlt := find_client_index_lt reg _ idx hidx
    have hlen : idx < reg.clients.length := by omega
    have hr : (chatroom_recv reg room i rr).1 =
        { reg with
          clients := reg.clients.set idx
            { (reg.clients.getD idx default) with
              state := ClientState.STATE_LOBBY, room_id := -1 } } := by
      rw [e]
      simp only [remove_user, hidx]
    rw [hr]
    refine ⟨?_, ?_, rfl⟩
    · simp only [List.getD_eq_getElem?_getD, List.getElem?_set_self hlen, Option.getD_some]
    · intro k hk
      simp only [List.getD_eq_getElem?_getD, List.getElem?_set_ne (Ne.symm hk)]
  · intro hnone
    rw [e]
    simp only [remove_user, hnone]

set_option maxRecDepth 100000 in
/-- Instance of C12: member 5 of the three-member example room disconnects. -/
theorem disconnect_notice_witness :
    (chatroom_recv example_registry example_room 1 (RecvResult.data [])).2.2 =
        [Action.send 4 (utf8 "[NOTICE] 사용자 bob님이 채팅방을 나갔습니다.\n"),
         Action.send 6 (utf8 "[NOTICE] 사용자 bob님이 채팅방을 나갔습니다.\n"),
         Action.close 5]
      ∧ (chatroom_recv example_registry example_room 1 (RecvResult.data [])).1.clients.getD 1
          default =
          { fd := 5, user_name := utf8 "bob", state := ClientState.STATE_LOBBY, room_id := -1 } := by
  have h := disconnect_notice example_registry example_room 1 (RecvResult.data []) (by decide)
    (by decide) (by decide)
  refine ⟨by decide, ?_⟩
  rw [(h.2.2.2.1 1 (by decide)).1]
  decide

/-! ## Read errors and closed connections -/

set_option maxRecDepth 100000 in
/-- C15 as stated fails: for member 5 of the example room the state after a
read error is the state before (three members), the state after a zero-byte
read has two members; for the lobby client 4 the registry keeps its record
after a read error and loses it after a zero-byte read. -/
theorem read_error_counterexample :
    chatroom_recv example_registry example_room 1 RecvResult.error
        = (example_registry, example_room, [])
      ∧ (chatroom_recv example_registry example_room 1 (RecvResult.data [])).2.1.user_count = 2
      ∧ (chatroom_recv example_registry example_room 1 RecvResult.error).2.1
          ≠ (chatroom_recv example_registry example_room 1 (RecvResult.data [])).2.1
      ∧ (lobby_recv (state_after [Event.accept 4 (sent_line "alice")]) 0 RecvResult.error []
            spawn_ok).state?.map (fun s => s.reg.client_count) = some 1
      ∧ (lobby_recv (state_after [Event.accept 4 (sent_line "alice")]) 0 (RecvResult.data []) []
            spawn_ok).state?.map (fun s => s.reg.client_count) = some 0 := by
  decide

theorem lobby_recv_error (s : Server) (i : Nat) (more : List RecvResult) (spawn : Nat → Bool) :
    lobby_recv s i RecvResult.error more spawn = Outcome.ok s [] := by
  have hneg : RecvResult.error.n < 0 := by decide
  unfold lobby_recv
  by_cases c1 : (i : Int) < s.reg.client_count
  · by_cases c2 : (s.reg.clients.getD i default).state ≠ ClientState.STATE_LOBBY
    · simp only [c1, c2, ne_eq, not_true_eq_false, not_false_eq_true, if_true, if_false]
    · simp only [c1, c2, hneg, ne_eq, not_true_eq_false, not_false_eq_true, if_true, if_false]
  · simp only [c1, not_false_eq_true, if_true]

theorem remove_client_count (reg : Registry) (index : Nat) :
    (remove_client reg index).1.client_count = reg.client_count - 1 := rfl

/-- C15, amended. A read error is not taken for a close. In the room worker a
negative read result leaves registry and room as they are and sends nothing,
and in the lobby loop (outside a sub-dialog) it leaves the server state as it
is; a zero-byte read removes the member from the room, closing the
connection, respectively removes the lobby client from the registry. -/
theorem read_error_keeps_membership :
    (∀ (reg : Registry) (room : ChatRoom) (i : Nat),
        chatroom_recv reg room i RecvResult.error = (reg, room, []))
      ∧ (∀ (s : Server) (i : Nat) (more : List RecvResult) (spawn : Nat → Bool),
          lobby_recv s i RecvResult.error more spawn = Outcome.ok s [])
      ∧ (∀ (reg : Registry) (room : ChatRoom) (i : Nat) (rr : RecvResult),
          (i : Int) < room.user_count → rr.n = 0 →
          (chatroom_recv reg room i rr).2.1.user_count = room.user_count - 1
            ∧ Action.close (room.user_fds.getD i 0) ∈ (chatroom_recv reg room i rr).2.2)
      ∧ (∀ (s : Server) (i : Nat) (rr : RecvResult) (more : List RecvResult)
          (spawn : Nat → Bool),
          (i : Int) < s.reg.client_count →
          (s.reg.clients.getD i default).state = ClientState.STATE_LOBBY → rr.n = 0 →
          lobby_recv s i rr more spawn =
            Outcome.ok { s with reg := (remove_client s.reg i).1 } (remove_client s.reg i).2
          ∧ (remove_client s.reg i).1.client_count = s.reg.client_count - 1) := by
  refine ⟨?_, lobby_recv_error, ?_, ?_⟩
  · intro reg room i
    have hneg : RecvResult.error.n < 0 := by decide
    unfold chatroom_recv
    by_cases c1 : (i : Int) < room.user_count
    · simp only [c1, hneg, not_true_eq_false, if_true, if_false]
    · simp only [c1, not_false_eq_true, if_true]
  · intro reg room i rr hi hn
    have e : chatroom_recv reg room i rr =
        ((remove_user reg room i).1, (remove_user reg room i).2.1,
          notify_others room (room.user_fds.getD i 0) (leave_notice reg room i)
            ++ [Action.close (room.user_fds.getD i 0)] ++ (remove_user reg room i).2.2) := by
      unfold chatroom_recv leave_notice
      simp only [hi, not_true_eq_false, if_false, hn, lt_self_iff_false, if_true]
    rw [e]
    exact ⟨remove_user_count reg room i, by simp⟩
  · intro s i rr more spawn hi hstate hn
    refine ⟨?_, rfl⟩
    unfold lobby_recv
    simp only [hi, hstate, hn, ne_eq, not_true_eq_false, lt_self_iff_false, if_true, if_false]

/-- Instance of C15, amended: a read error and a zero-byte read on member 5 of
the example room. -/
theorem read_error_keeps_membership_witness :
    chatroom_recv example_registry example_room 1 RecvResult.error
        = (example_registry, example_room, [])
      ∧ (chatroom_recv example_registry example_room 1 (RecvResult.data [])).2.1.user_count
          = example_room.user_count - 1 :=
  ⟨read_error_keeps_membership.1 example_registry example_room 1,
   (read_error_keeps_membership.2.2.1 example_registry example_room 1 (RecvResult.data [])
      (by decide) (by decide)).1⟩

/-! ## Registry records of departed members -/

theorem remove_user_handles (reg : Registry) (room : ChatRoom) (index : Nat) (k : Nat) :
    ((remove_user reg room index).1.clients.getD k default).fd = (reg.clients.getD k default).fd
      ∧ (remove_user reg room index).1.client_count = reg.client_count := by
  unfold remove_user
  simp only []
  cases hf : find_client_index reg (room.user_fds.getD index 0) with
  | none => exact ⟨rfl, rfl⟩
  | some idx =>
    refine ⟨?_, rfl⟩
    simp only [List.getD_eq_getElem?_getD, List.getElem?_set]
    by_cases hk : idx = k
    · subst hk
      by_cases hl : idx < reg.clients.length
      · simp [hl]
      · simp [hl]
        rw [List.getElem?_eq_none (by omega)]
        rfl
    · simp [hk]

set_option maxRecDepth 100000 in
/-- C13, the code at a failing input. Client 4 is the only client and sits in
room 0. A zero-byte read on its connection makes the room worker close
descriptor 4 and drop the member from the room, but the live client count is
still 1 and slot 0 of the registry still holds the record of descriptor 4,
now in state Lobby; the same zero-byte read on a lobby client removes the
record. In general no round of the room worker that ends in `remove_user`
changes the client count or the handle of any registry slot. -/
theorem room_disconnect_keeps_record :
    (state_after enter_room_events).reg.client_count = 1
      ∧ (state_after enter_room_events).room0.user_count = 1
      ∧ (step (state_after enter_room_events) (Event.room 0 0 (RecvResult.data []))).acts
          = [Action.close 4]
      ∧ (state_after (enter_room_events ++ [Event.room 0 0 (RecvResult.data [])])).room0.user_count
          = 0
      ∧ (state_after (enter_room_events ++ [Event.room 0 0 (RecvResult.data [])])).reg.client_count
          = 1
      ∧ (state_after (enter_room_events ++ [Event.room 0 0 (RecvResult.data [])])).reg.clients.getD
            0 default
          = { fd := 4, user_name := utf8 "alice", state := ClientState.STATE_LOBBY, room_id := -1 }
      ∧ (state_after [Event.accept 4 (sent_line "alice"),
            Event.lobby 0 (RecvResult.data []) [] spawn_ok]).reg.client_count = 0
      ∧ (∀ (reg : Registry) (room : ChatRoom) (i : Nat) (rr : RecvResult), rr.n = 0 →
          (chatroom_recv reg room i rr).1.client_count = reg.client_count
            ∧ ∀ k : Nat, ((chatroom_recv reg room i rr).1.clients.getD k default).fd
                = (reg.clients.getD k default).fd) := by
  refine ⟨by decide, by decide, by decide, by decide, by decide, by decide, by decide, ?_⟩
  intro reg room i rr hn
  unfold chatroom_recv
  by_cases c1 : (i : Int) < room.user_count
  · simp only [c1, not_true_eq_false, if_false, hn, lt_self_iff_false, if_true]
    exact ⟨(remove_user_handles reg room i 0).2, fun k => (remove_user_handles reg room i k).1⟩
  · simp only [c1, not_false_eq_true, if_true]
    exact ⟨trivial, fun _ => trivial⟩

set_option maxRecDepth 100000 in
/-- C14, the code at a failing input. Client 4 enters room 0 and disconnects
there: descriptor 4 is closed, its record stays in the registry. The next
`accept` returns the lowest free descriptor, 4 again, which is different from
every open connection; the registry then holds two live records with handle
4. -/
theorem duplicate_handle_after_room_disconnect :
    (run_fresh (default_rooms spawn_ok) []
        (enter_room_events ++ [Event.room 0 0 (RecvResult.data [])])).map
          (fun r => (r.2, live_handles r.1.reg, r.1.reg.client_count))
        = some ([], [4], 1)
      ∧ (run_fresh (default_rooms spawn_ok) []
          (enter_room_events ++
            [Event.room 0 0 (RecvResult.data []), Event.accept 4 (sent_line "bob")])).map
          (fun r => (r.2, live_handles r.1.reg, r.1.reg.client_count))
        = some ([4], [4, 4], 2)
      ∧ Reachable (state_after (enter_room_events ++
          [Event.room 0 0 (RecvResult.data []), Event.accept 4 (sent_line "bob")]))
      ∧ live_handles (state_after (enter_room_events ++
          [Event.room 0 0 (RecvResult.data []), Event.accept 4 (sent_line "bob")])).reg
        = [4, 4] := by
  refine ⟨by decide, by decide, state_after_reachable _ (by decide), by decide⟩

/-! ## Client capacity -/

theorem rename_dialog_count (s : Server) (i : Nat) (fd : Int) (inputs : List RecvResult) :
    ∀ (s1 : Server) (a1 : List Action), rename_dialog s i fd inputs = Outcome.ok s1 a1 →
      s1.reg.client_count = s.reg.client_count := by
  induction inputs with
  | nil => intro s1 a1 h; simp [rename_dialog] at h
  | cons rr rest ih =>
    intro s1 a1 h
    unfold rename_dialog at h
    split at h
    · simp at h
    · split at h
      · rw [pre_ok_iff] at h
        obtain ⟨a0, h0, _⟩ := h
        exact ih s1 a0 h0
      · simp only [Outcome.ok.injEq] at h
        rw [← h.1]

theorem join_dialog_count (s : Server) (i : Nat) (fd : Int) (inputs : List RecvResult) :
    ∀ (s1 : Server) (a1 : List Action), join_dialog s i fd inputs = Outcome.ok s1 a1 →
      s1.reg.client_count = s.reg.client_count := by
  induction inputs with
  | nil => intro s1 a1 h; simp [join_dialog] at h
  | cons rr rest ih =>
    intro s1 a1 h
    unfold join_dialog at h
    simp only [] at h
    repeat' split at h
    all_goals
      first
      | (simp only [pre_ok_iff] at h
         obtain ⟨a0, h0, _⟩ := h
         exact ih s1 a0 h0)
      | (simp only [Outcome.ok.injEq] at h
         rw [← h.1])
      | simp at h

theorem create_room_loop_reg (cname : CStr) (spawn : Nat → Bool) (fd : Int) (js : List Nat) :
    ∀ s : Server, (create_room_loop cname spawn fd js s).1.reg = s.reg := by
  induction js with
  | nil => intro s; rfl
  | cons j rest ih =>
    intro s
    unfold create_room_loop
    simp only []
    split
    · split
      · rfl
      · rw [ih]
    · exact ih s

theorem create_dialog_count (s : Server) (i : Nat) (fd : Int) (spawn : Nat → Bool)
    (inputs : List RecvResult) :
    ∀ (s1 : Server) (a1 : List Action), create_dialog s i fd spawn inputs = Outcome.ok s1 a1 →
      s1.reg.client_count ≤ s.reg.client_count := by
  induction inputs with
  | nil => intro s1 a1 h; simp [create_dialog] at h
  | cons rr rest ih =>
    intro s1 a1 h
    unfold create_dialog at h
    simp only [create_finish] at h
    repeat' split at h
    all_goals
      first
      | (simp only [pre_ok_iff] at h
         obtain ⟨a0, h0, _⟩ := h
         exact ih s1 a0 h0)
      | (simp only [Outcome.ok.injEq] at h
         rw [← h.1]
         first
         | (rw [create_room_loop_reg])
         | (simp only [remove_client_count]
            omega))
      | simp at h

theorem lobby_recv_count (s : Server) (i : Nat) (rr : RecvResult) (more : List RecvResult)
    (spawn : Nat → Bool) (s1 : Server) (a1 : List Action)
    (h : lobby_recv s i rr more spawn = Outcome.ok s1 a1) :
    s1.reg.client_count ≤ s.reg.client_count := by
  have hok : ∀ a : List Action, Outcome.ok s a = Outcome.ok s1 a1 →
      s1.reg.client_count ≤ s.reg.client_count := by
    intro a ha
    simp only [Outcome.ok.injEq] at ha
    rw [← ha.1]
  have hrm : ∀ a : List Action,
      Outcome.ok { s with reg := (remove_client s.reg i).1 } a = Outcome.ok s1 a1 →
      s1.reg.client_count ≤ s.reg.client_count := by
    intro a ha
    simp only [Outcome.ok.injEq] at ha
    rw [← ha.1]
    simp only [remove_client_count]
    omega
  unfold lobby_recv at h
  simp only [] at h
  by_cases c1 : (i : Int) < s.reg.client_count
  swap
  · simp only [c1, not_false_eq_true, if_true] at h
    exact hok _ h
  by_cases c2 : (s.reg.clients.getD i default).state ≠ ClientState.STATE_LOBBY
  · simp only [c1, c2, ne_eq, not_true_eq_false, not_false_eq_true, if_true, if_false] at h
    exact hok _ h
  by_cases c3 : rr.n < 0
  · simp only [c1, c2, c3, ne_eq, not_true_eq_false, not_false_eq_true, if_true, if_false] at h
    exact hok _ h
  by_cases c4 : rr.n = 0
  · simp only [c1, c2, c3, c4, ne_eq, not_true_eq_false, not_false_eq_true, if_true, if_false] at h
    exact hrm _ h
  by_cases c5 : strlen (trim (cut_line rr.buffer)) = 0
  · simp only [c1, c2, c3, c4, c5, ne_eq, not_true_eq_false, not_false_eq_true, if_true,
      if_false] at h
    exact hok _ h
  by_cases m0 : trim (cut_line rr.buffer) = utf8 "0"
  · simp only [c1, c2, c3, c4, c5, m0, ne_eq, not_true_eq_false, not_false_eq_true, if_true,
      if_false] at h
    exact hok _ h
  by_cases m1 : trim (cut_line rr.buffer) = utf8 "1"
  · simp only [c1, c2, c3, c4, c5, m0, m1, ne_eq, not_true_eq_false, not_false_eq_true, if_true,
      if_false] at h
    exact le_of_eq (rename_dialog_count s i _ more s1 a1 h)
  by_cases m2 : trim (cut_line rr.buffer) = utf8 "2"
  · simp only [c1, c2, c3, c4, c5, m0, m1, m2, ne_eq, not_true_eq_false, not_false_eq_true,
      if_true, if_false] at h
    exact le_of_eq (join_dialog_count s i _ more s1 a1 h)
  by_cases m3 : trim (cut_line rr.buffer) = utf8 "3"
  · simp only [c1, c2, c3, c4, c5, m0, m1, m2, m3, ne_eq, not_true_eq_false, not_false_eq_true,
      if_true, if_false] at h
    exact create_dialog_count s i _ spawn more s1 a1 h
  by_cases m4 : trim (cut_line rr.buffer) = utf8 "4"
  · simp only [c1, c2, c3, c4, c5, m0, m1, m2, m3, m4, ne_eq, not_true_eq_false,
      not_false_eq_true, if_true, if_false] at h
    exact hrm _ h
  · simp only [c1, c2, c3, c4, c5, m0, m1, m2, m3, m4, ne_eq, not_true_eq_false,
      not_false_eq_true, if_true, if_false] at h
    exact hok _ h

theorem chatroom_recv_client_count (reg : Registry) (room : ChatRoom) (i : Nat) (rr : RecvResult) :
    (chatroom_recv reg room i rr).1.client_count = reg.client_count := by
  have hrem := (remove_user_handles reg room i 0).2
  unfold chatroom_recv
  simp only []
  repeat' split
  all_goals first | rfl | exact hrem

theorem accept_client_count (s : Server) (cli_fd : Int) (rr : RecvResult)
    (h : s.reg.client_count ≤ MAX_CLIENTS) :
    (accept_client s cli_fd rr).1.reg.client_count ≤ MAX_CLIENTS := by
  unfold accept_client
  simp only []
  repeat' split
  all_goals
    first
    | exact h
    | (simp only []
       omega)

theorem default_rooms_loop_reg (spawn : Nat → Bool) (js : List Nat) :
    ∀ s : Server, (default_rooms_loop spawn js s).reg = s.reg := by
  induction js with
  | nil => intro s; rfl
  | cons j rest ih =>
    intro s
    unfold default_rooms_loop
    simp only []
    split <;> rw [ih]

theorem reachable_client_count (s : Server) (h : Reachable s) :
    s.reg.client_count ≤ MAX_CLIENTS := by
  induction h with
  | init spawn =>
    unfold default_rooms
    rw [default_rooms_loop_reg]
    decide
  | step s e s1 acts _ hstep ih =>
    cases e with
    | accept cli_fd rr =>
      simp only [step, Outcome.ok.injEq] at hstep
      rw [← hstep.1]
      exact accept_client_count s cli_fd rr ih
    | lobby i rr more spawn =>
      have := lobby_recv_count s i rr more spawn s1 acts hstep
      omega
    | refresh k =>
      simp only [step] at hstep
      split at hstep <;>
        (simp only [Outcome.ok.injEq] at hstep
         rw [← hstep.1]
         exact ih)
    | room k i rr =>
      simp only [step] at hstep
      split at hstep
      · simp only [Outcome.ok.injEq] at hstep
        rw [← hstep.1]
        simp only [chatroom_recv_client_count]
        exact ih
      · simp only [Outcome.ok.injEq] at hstep
        rw [← hstep.1]
        exact ih

/-- C11, amended. In every reachable state the live client count is at most
`MAX_CLIENTS`. When the count is `MAX_CLIENTS`, the registration of a new
connection leaves the whole server state, registry included, as it is; a
connection whose name line has been read gets the capacity message and is
closed, and a connection whose first read returns zero bytes is closed with no
message. -/
theorem client_capacity :
    (∀ s : Server, Reachable s → s.reg.client_count ≤ MAX_CLIENTS)
      ∧ (∀ (s : Server) (cli_fd : Int) (rr : RecvResult),
          s.reg.client_count = MAX_CLIENTS → (accept_client s cli_fd rr).1 = s)
      ∧ (∀ (s : Server) (cli_fd : Int) (rr : RecvResult),
          s.reg.client_count = MAX_CLIENTS → 0 ≤ cli_fd → 0 < rr.n →
          (accept_client s cli_fd rr).2 =
            [Action.send cli_fd (utf8 "서버에 인원이 가득 찼습니다.\n"), Action.close cli_fd])
      ∧ (∀ (s : Server) (cli_fd : Int) (rr : RecvResult),
          0 ≤ cli_fd → rr.n = 0 → (accept_client s cli_fd rr).2 = [Action.close cli_fd]) := by
  refine ⟨reachable_client_count, ?_, ?_, ?_⟩
  · intro s cli_fd rr hfull
    have hnot : ¬ s.reg.client_count < MAX_CLIENTS := by
      rw [hfull]
      exact lt_irrefl _
    unfold accept_client
    simp only [hnot, if_false]
    repeat' split
    all_goals rfl
  · intro s cli_fd rr hfull h0 hn
    obtain ⟨hn1, hn2⟩ := n_pos_cases rr hn
    have hnot : ¬ s.reg.client_count < MAX_CLIENTS := by
      rw [hfull]
      exact lt_irrefl _
    have h0' : cli_fd ≥ 0 := h0
    unfold accept_client
    simp only [h0', hn1, hn2, hnot, if_true, if_false]
  · intro s cli_fd rr h0 hn
    have h0' : cli_fd ≥ 0 := h0
    unfold accept_client
    simp only [h0', hn, lt_self_iff_false, if_true, if_false]

set_option maxRecDepth 100000 in
/-- Instance of C11, amended: twenty clients are registered; the state is
reachable, the connection arriving on descriptor 24 with the name `late` is
turned away, and one arriving with a zero-byte read is only closed. -/
theorem client_capacity_witness :
    Reachable (state_after full_registry_events)
      ∧ (state_after full_registry_events).reg.client_count = MAX_CLIENTS
      ∧ accept_client (state_after full_registry_events) 24 (sent_line "late") =
          (state_after full_registry_events,
           [Action.send 24 (utf8 "서버에 인원이 가득 찼습니다.\n"), Action.close 24])
      ∧ (accept_client (state_after full_registry_events) 24 (RecvResult.data [])).2
          = [Action.close 24] := by
  have hr : Reachable (state_after full_registry_events) :=
    state_after_reachable full_registry_events (by decide)
  have hfull : (state_after full_registry_events).reg.client_count = MAX_CLIENTS := by decide
  refine ⟨hr, hfull, ?_, ?_⟩
  · have h1 := client_capacity.2.1 (state_after full_registry_events) 24 (sent_line "late") hfull
    have h2 := client_capacity.2.2.1 (state_after full_registry_events) 24 (sent_line "late")
      hfull (by decide) (by decide)
    exact Prod.ext h1 h2
  · exact client_capacity.2.2.2 (state_after full_registry_events) 24 (RecvResult.data [])
      (by decide) (by decide)

set_option maxRecDepth 100000 in
/-- C11 as stated fails: with twenty clients registered, a connection that
arrives on descriptor 24 and whose first read returns zero bytes is closed
without the capacity message, and one whose first read fails is sent nothing;
the capacity message goes out only after a name line has been read. -/
theorem client_capacity_counterexample :
    Reachable (state_after full_registry_events)
      ∧ (state_after full_registry_events).reg.client_count = MAX_CLIENTS
      ∧ (accept_client (state_after full_registry_events) 24 (RecvResult.data [])).2
          = [Action.close 24]
      ∧ Action.send 24 (utf8 "서버에 인원이 가득 찼습니다.\n")
          ∉ (accept_client (state_after full_registry_events) 24 (RecvResult.data [])).2
      ∧ (accept_client (state_after full_registry_events) 24 RecvResult.error).2 = [] := by
  refine ⟨state_after_reachable full_registry_events (by decide), ?_⟩
  decide

/-! ## Invariants of the rooms -/

theorem set_inv {P : ChatRoom → Prop} {l : List ChatRoom} {k : Nat} {r : ChatRoom}
    (hl : ∀ room ∈ l, P room) (hr : P r) : ∀ room ∈ l.set k r, P room := by
  intro room hm
  rcases List.mem_or_eq_of_mem_set hm with h | h
  · exact hl room h
  · rw [h]; exact hr

theorem getD_inv {P : ChatRoom → Prop} {l : List ChatRoom} (hl : ∀ room ∈ l, P room)
    (hd : P default) (k : Nat) : P (l.getD k default) := by
  rw [List.getD_eq_getElem?_getD]
  cases hk : l[k]? with
  | none => exact hd
  | some room => exact hl room (List.getElem?_mem hk)

theorem join_dialog_inv {P : ChatRoom → Prop} (hP : RoomInvariant P) (s : Server) (i : Nat)
    (fd : Int) (inputs : List RecvResult) (hs : ∀ room ∈ s.chatrooms, P room) :
    ∀ (s1 : Server) (a1 : List Action), join_dialog s i fd inputs = Outcome.ok s1 a1 →
      ∀ room ∈ s1.chatrooms, P room := by
  induction inputs with
  | nil => intro s1 a1 h; simp [join_dialog] at h
  | cons rr rest ih =>
    intro s1 a1 h
    unfold join_dialog at h
    simp only [] at h
    repeat' split at h
    all_goals
      first
      | (simp only [pre_ok_iff] at h
         obtain ⟨a0, h0, _⟩ := h
         exact ih s1 a0 h0)
      | (simp only [Outcome.ok.injEq] at h
         rw [← h.1]
         first
         | exact hs
         | (apply set_inv hs
            apply hP.join _ _ (getD_inv hs hP.zero _)
            assumption))
      | simp at h

theorem create_room_loop_inv {P : ChatRoom → Prop} (hP : RoomInvariant P) (cname : CStr)
    (spawn : Nat → Bool) (fd : Int) (js : List Nat) :
    ∀ s : Server, (∀ room ∈ s.chatrooms, P room) →
      ∀ room ∈ (create_room_loop cname spawn fd js s).1.chatrooms, P room := by
  induction js with
  | nil => intro s hs; exact hs
  | cons j rest ih =>
    intro s hs
    unfold create_room_loop
    simp only []
    split
    · split
      · exact set_inv hs (hP.create _ _ _ (getD_inv hs hP.zero j))
      · exact ih _ (set_inv hs (hP.create _ _ [] (getD_inv hs hP.zero j)))
    · exact ih s hs

theorem create_dialog_inv {P : ChatRoom → Prop} (hP : RoomInvariant P) (s : Server) (i : Nat)
    (fd : Int) (spawn : Nat → Bool) (inputs : List RecvResult)
    (hs : ∀ room ∈ s.chatrooms, P room) :
    ∀ (s1 : Server) (a1 : List Action), create_dialog s i fd spawn inputs = Outcome.ok s1 a1 →
      ∀ room ∈ s1.chatrooms, P room := by
  induction inputs with
  | nil => intro s1 a1 h; simp [create_dialog] at h
  | cons rr rest ih =>
    intro s1 a1 h
    unfold create_dialog at h
    simp only [create_finish] at h
    repeat' split at h
    all_goals
      first
      | (simp only [pre_ok_iff] at h
         obtain ⟨a0, h0, _⟩ := h
         exact ih s1 a0 h0)
      | (simp only [Outcome.ok.injEq] at h
         rw [← h.1]
         first
         | exact hs
         | exact create_room_loop_inv hP _ _ _ _ s hs)
      | simp at h

theorem lobby_recv_inv {P : ChatRoom → Prop} (hP : RoomInvariant P) (s : Server) (i : Nat)
    (rr : RecvResult) (more : List RecvResult) (spawn : Nat → Bool)
    (hs : ∀ room ∈ s.chatrooms, P room) (s1 : Server) (a1 : List Action)
    (h : lobby_recv s i rr more spawn = Outcome.ok s1 a1) : ∀ room ∈ s1.chatrooms, P room := by
  have hok : ∀ a : List Action, Outcome.ok s a = Outcome.ok s1 a1 →
      ∀ room ∈ s1.chatrooms, P room := by
    intro a ha
    simp only [Outcome.ok.injEq] at ha
    rw [← ha.1]
    exact hs
  have hrm : ∀ a : List Action,
      Outcome.ok { s with reg := (remove_client s.reg i).1 } a = Outcome.ok s1 a1 →
      ∀ room ∈ s1.chatrooms, P room := by
    intro a ha
    simp only [Outcome.ok.injEq] at ha
    rw [← ha.1]
    exact hs
  unfold lobby_recv at h
  simp only [] at h
  by_cases c1 : (i : Int) < s.reg.client_count
  swap
  · simp only [c1, not_false_eq_true, if_true] at h
    exact hok _ h
  by_cases c2 : (s.reg.clients.getD i default).state ≠ ClientState.STATE_LOBBY
  · simp only [c1, c2, ne_eq, not_true_eq_false, not_false_eq_true, if_true, if_false] at h
    exact hok _ h
  by_cases c3 : rr.n < 0
  · simp only [c1, c2, c3, ne_eq, not_true_eq_false, not_false_eq_true, if_true, if_false] at h
    exact hok _ h
  by_cases c4 : rr.n = 0
  · simp only [c1, c2, c3, c4, ne_eq, not_true_eq_false, not_false_eq_true, if_true, if_false] at h
    exact hrm _ h
  by_cases c5 : strlen (trim (cut_line rr.buffer)) = 0
  · simp only [c1, c2, c3, c4, c5, ne_eq, not_true_eq_false, not_false_eq_true, if_true,
      if_false] at h
    exact hok _ h
  by_cases m0 : trim (cut_line rr.buffer) = utf8 "0"
  · simp only [c1, c2, c3, c4, c5, m0, ne_eq, not_true_eq_false, not_false_eq_true, if_true,
      if_false] at h
    exact hok _ h
  by_cases m1 : trim (cut_line rr.buffer) = utf8 "1"
  · simp only [c1, c2, c3, c4, c5, m0, m1, ne_eq, not_true_eq_false, not_false_eq_true, if_true,
      if_false] at h
    rw [rename_dialog_chatrooms s i _ more s1 a1 h]
    exact hs
  by_cases m2 : trim (cut_line rr.buffer) = utf8 "2"
  · simp only [c1, c2, c3, c4, c5, m0, m1, m2, ne_eq, not_true_eq_false, not_false_eq_true,
      if_true, if_false] at h
    exact join_dialog_inv hP s i _ more hs s1 a1 h
  by_cases m3 : trim (cut_line rr.buffer) = utf8 "3"
  · simp only [c1, c2, c3, c4, c5, m0, m1, m2, m3, ne_eq, not_true_eq_false, not_false_eq_true,
      if_true, if_false] at h
    exact create_dialog_inv hP s i _ spawn more hs s1 a1 h
  by_cases m4 : trim (cut_line rr.buffer) = utf8 "4"
  · simp only [c1, c2, c3, c4, c5, m0, m1, m2, m3, m4, ne_eq, not_true_eq_false,
      not_false_eq_true, if_true, if_false] at h
    exact hrm _ h
  · simp only [c1, c2, c3, c4, c5, m0, m1, m2, m3, m4, ne_eq, not_true_eq_false,
      not_false_eq_true, if_true, if_false] at h
    exact hok _ h

theorem default_rooms_loop_inv {P : ChatRoom → Prop} (hP : RoomInvariant P) (spawn : Nat → Bool)
    (js : List Nat) :
    ∀ s : Server, (∀ room ∈ s.chatrooms, P room) →
      ∀ room ∈ (default_rooms_loop spawn js s).chatrooms, P room := by
  induction js with
  | nil => intro s hs; exact hs
  | cons j rest ih =>
    intro s hs
    unfold default_rooms_loop
    simp only []
    split
    · exact ih _ (set_inv hs (hP.create _ _ _ (getD_inv hs hP.zero j)))
    · exact ih _ (set_inv hs (hP.create _ _ [] (getD_inv hs hP.zero j)))

theorem step_inv {P : ChatRoom → Prop} (hP : RoomInvariant P) (s : Server) (e : Event)
    (s1 : Server) (acts : List Action) (hs : ∀ room ∈ s.chatrooms, P room)
    (h : step s e = Outcome.ok s1 acts) : ∀ room ∈ s1.chatrooms, P room := by
  cases e with
  | accept cli_fd rr =>
    simp only [step, Outcome.ok.injEq] at h
    rw [← h.1]
    unfold accept_client
    repeat' split
    all_goals exact hs
  | lobby i rr more spawn => exact lobby_recv_inv hP s i rr more spawn hs s1 acts h
  | refresh k =>
    simp only [step] at h
    split at h
    · simp only [Outcome.ok.injEq] at h
      rw [← h.1]
      exact set_inv hs (hP.refresh _ _ (getD_inv hs hP.zero k))
    · simp only [Outcome.ok.injEq] at h
      rw [← h.1]
      exact hs
  | room k i rr =>
    simp only [step] at h
    split at h
    · simp only [Outcome.ok.injEq] at h
      rw [← h.1]
      exact set_inv hs (hP.recv _ _ i rr (getD_inv hs hP.zero k))
    · simp only [Outcome.ok.injEq] at h
      rw [← h.1]
      exact hs

theorem reachable_inv {P : ChatRoom → Prop} (hP : RoomInvariant P) (s : Server)
    (h : Reachable s) : ∀ room ∈ s.chatrooms, P room := by
  induction h with
  | init spawn =>
    apply default_rooms_loop_inv hP
    intro room hm
    simp only [zero_server] at hm
    rw [List.eq_of_mem_replicate hm]
    exact hP.zero
  | step s e s1 acts _ hstep ih => exact step_inv hP s e s1 acts ih hstep

/-! ## The stored answer -/

theorem answerOk_of_nil (room : ChatRoom) (h : room.game_answer = []) : AnswerOk room :=
  Or.inl h

theorem answer_nil_of_not_game (room : ChatRoom) (h : AnswerOk room)
    (hm : room.mode ≠ GAME_MODE) : room.game_answer = [] := by
  rcases h with h | h
  · exact h
  · exact absurd h.2 hm

theorem remove_user_answerOk (reg : Registry) (room : ChatRoom) (index : Nat)
    (h : AnswerOk room) : AnswerOk (remove_user reg room index).2.1 := by
  have hpg : POLL_MODE ≠ GAME_MODE := by decide
  unfold remove_user
  simp only []
  by_cases c1 : room.mode = GAME_MODE ∧ room.user_fds.getD index 0 = room.game_host_fd
  · simp only [c1, and_self, decide_True, if_true]
    split <;> exact Or.inl rfl
  · simp only [c1, decide_False, Bool.false_eq_true, if_false]
    split
    · rename_i c2
      have := answer_nil_of_not_game room h (by rw [c2.1]; exact hpg)
      exact Or.inl this
    · exact h

theorem game_line_answerOk (reg : Registry) (room : ChatRoom) (i : Nat) (buffer : CStr)
    (hm : room.mode = GAME_MODE) (h : AnswerOk room) : AnswerOk (game_line reg room i buffer).1 := by
  unfold game_line
  simp only []
  repeat' split
  all_goals
    first
    | exact h
    | exact Or.inl rfl
    | (rename_i hv
       right
       refine ⟨?_, hm⟩
       have hl := valid_number_length buffer hv
       show is_valid_number (List.take 3 buffer) = true
       rw [List.take_of_length_le (by omega)]
       exact hv)

theorem poll_line_answer (room : ChatRoom) (i : Nat) (buffer : CStr)
    (r : ChatRoom × List Action) (h : poll_line room i buffer = some r) :
    r.1.game_answer = room.game_answer := by
  unfold poll_line at h
  simp only [] at h
  repeat' split at h
  all_goals
    first
    | (simp only [Option.some.injEq] at h
       subst h
       rfl)
    | simp at h

theorem chat_line_answer (reg : Registry) (room : ChatRoom) (i : Nat) (buffer : CStr) :
    (chat_line reg room i buffer).1.game_answer = room.game_answer
      ∧ (chat_line reg room i buffer).1.mode = room.mode := by
  unfold chat_line
  simp only []
  repeat' split
  all_goals exact ⟨rfl, rfl⟩

theorem chatroom_recv_answerOk (reg : Registry) (room : ChatRoom) (i : Nat) (rr : RecvResult)
    (h : AnswerOk room) : AnswerOk (chatroom_recv reg room i rr).2.1 := by
  have hcg : CHAT_MODE ≠ GAME_MODE := by decide
  have hpg : POLL_MODE ≠ GAME_MODE := by decide
  have hrem := remove_user_answerOk reg room i h
  unfold chatroom_recv
  simp only []
  by_cases c0 : (i : Int) < room.user_count
  swap
  · simp only [c0, not_false_eq_true, if_true]
    exact h
  by_cases c1 : rr.n < 0
  · simp only [c0, c1, not_true_eq_false, if_true, if_false]
    exact h
  by_cases c2 : rr.n = 0
  · simp only [c0, c1, c2, not_true_eq_false, if_true, if_false]
    exact hrem
  by_cases c3 : cut_line rr.buffer = utf8 "quit"
  · simp only [c0, c1, c2, c3, not_true_eq_false, if_true, if_false]
    exact hrem
  by_cases c4 : cut_line rr.buffer = utf8 "info"
  · simp only [c0, c1, c2, c3, c4, not_true_eq_false, if_true, if_false]
    exact h
  by_cases c5 : cut_line rr.buffer = utf8 "game" ∧ room.mode = CHAT_MODE
  · simp only [c0, c1, c2, c3, c4, c5, and_self, not_true_eq_false, if_true, if_false]
    exact Or.inl rfl
  by_cases c6 : room.mode = GAME_MODE
  · have hgc : ¬ (GAME_MODE = CHAT_MODE) := by decide
    simp only [c0, c1, c2, c3, c4, c6, hgc, and_false, not_true_eq_false, if_true, if_false]
    exact game_line_answerOk reg room i _ c6 h
  have hnil := answer_nil_of_not_game room h c6
  by_cases c7 : cut_line rr.buffer = utf8 "poll" ∧ room.mode = CHAT_MODE
  · simp only [c0, c1, c2, c3, c4, c5, c6, c7, and_self, not_true_eq_false, if_true, if_false]
    exact Or.inl hnil
  simp only [c0, c1, c2, c3, c4, c5, c6, c7, not_true_eq_false, if_true, if_false]
  split
  · rename_i r hr
    have hpl : poll_line room i (cut_line rr.buffer) = some r := by
      revert hr
      split
      · exact id
      · intro h0; simp at h0
    exact Or.inl (by rw [poll_line_answer room i _ r hpl]; exact hnil)
  · exact Or.inl (by rw [(chat_line_answer reg room i _).1]; exact hnil)

theorem answerOk_invariant : RoomInvariant AnswerOk where
  zero := Or.inl rfl
  join := by
    intro room fd h _
    exact h
  create := by
    intro room j title _
    exact Or.inl rfl
  refresh := by
    intro reg room h
    exact h
  recv := chatroom_recv_answerOk

theorem valid_number_digits (s : CStr) (h : is_valid_number s = true) :
    s.length = 3 ∧ (∀ c ∈ s, 48 ≤ c ∧ c ≤ 57) ∧ s.Nodup := by
  have hl := valid_number_length s h
  obtain ⟨a, b, c, rfl⟩ := length_three s hl
  simp [is_valid_number, strlen, charAt, isdigit] at h
  simp
  omega

/-- C19. In every reachable state the stored answer of every room is empty
or consists of exactly 3 pairwise distinct decimal digits. In Game mode with
an empty answer, a line of a member who is not the host, other than `quit` and
`info`, changes nothing at all: registry and room (answer and mode included)
stay as they are and nothing is sent. -/
theorem answer_invariant :
    (∀ s : Server, Reachable s → ∀ room ∈ s.chatrooms,
        room.game_answer = [] ∨
          (room.game_answer.length = 3 ∧ (∀ c ∈ room.game_answer, 48 ≤ c ∧ c ≤ 57)
            ∧ room.game_answer.Nodup))
      ∧ (∀ (reg : Registry) (room : ChatRoom) (i : Nat) (rr : RecvResult),
          room.mode = GAME_MODE → room.game_answer = [] → (i : Int) < room.user_count →
          room.user_fds.getD i 0 ≠ room.game_host_fd → 0 < rr.n →
          cut_line rr.buffer ≠ utf8 "quit" → cut_line rr.buffer ≠ utf8 "info" →
          chatroom_recv reg room i rr = (reg, room, [])) := by
  constructor
  · intro s hs room hm
    rcases reachable_inv answerOk_invariant s hs room hm with h | h
    · exact Or.inl h
    · exact Or.inr (valid_number_digits _ h.1)
  · intro reg room i rr hmode hans hi hhost hn hq hinfo
    obtain ⟨hn1, hn2⟩ := n_pos_cases rr hn
    have hgc : ¬ (GAME_MODE = CHAT_MODE) := by decide
    have h30 : ¬ ((0 : Nat) = 3) := by decide
    have hg : game_line reg room i (cut_line rr.buffer) = (room, []) := by
      unfold game_line
      simp only [hhost, hans, strlen, List.length_nil, h30, false_and, and_false, if_false]
    unfold chatroom_recv
    simp only [hi, not_true_eq_false, if_false, hn1, hn2, hq, hinfo, hmode, hgc, and_false,
      if_true, hg]

set_option maxRecDepth 100000 in
/-- Instance of C19: after host 4 has submitted 482 the reachable room 0
stores three distinct digits; before that, a line of member 5 is dropped. -/
theorem answer_invariant_witness :
    Reachable (state_after game_events)
      ∧ (state_after game_events).room0.game_answer = utf8 "482"
      ∧ ((state_after game_events).room0.game_answer.length = 3
          ∧ (∀ c ∈ (state_after game_events).room0.game_answer, 48 ≤ c ∧ c ≤ 57)
          ∧ (state_after game_events).room0.game_answer.Nodup)
      ∧ chatroom_recv example_registry example_game_room 1 (sent_line "123")
          = (example_registry, example_game_room, []) := by
  have hr : Reachable (state_after game_events) := state_after_reachable game_events (by decide)
  have hmem : (state_after game_events).room0 ∈ (state_after game_events).chatrooms := by decide
  refine ⟨hr, by decide, ?_, ?_⟩
  · rcases answer_invariant.1 _ hr _ hmem with h | h
    · exact absurd h (by decide)
    · exact h
  · exact answer_invariant.2 example_registry example_game_room 1 (sent_line "123") (by decide)
      (by decide) (by decide) (by decide) (by decide) (by decide) (by decide)

/-! ## Return to Chat mode -/

theorem fill_upto_take {α : Type} (n : Nat) (v : α) (l : List α) :
    ∀ x ∈ (fill_upto n v l).take n, x = v := by
  intro x hx
  obtain ⟨k, hk, rfl⟩ := List.mem_iff_getElem.1 hx
  simp only [List.length_take, fill_upto_length] at hk
  have h1 := fill_upto_getD n v v l k
  rw [if_pos ⟨by omega, by omega⟩] at h1
  rw [List.getElem_take]
  have h2 : k < (fill_upto n v l).length := by
    rw [fill_upto_length]
    omega
  rw [List.getD_eq_getElem?_getD, List.getElem?_eq_getElem h2] at h1
  exact h1

theorem reset_poll_state_cleared (room : ChatRoom) : PollCleared (reset_poll_state room) :=
  ⟨rfl, rfl, rfl, rfl, rfl, fill_upto_take 10 none _, fill_upto_take 10 0 _,
    fill_upto_take 10 (-1) _⟩

theorem remove_user_sub_state (reg : Registry) (room : ChatRoom) (index : Nat) :
    sub_state (remove_user reg room index).2.1 =
      if room.mode = GAME_MODE ∧ room.user_fds.getD index 0 = room.game_host_fd then
        (CHAT_MODE, -1, room.game_host_name, [], room.poll_mode_stage, room.poll_count,
         room.poll_index, room.poll_list, room.poll_votes, room.vote_received)
      else if room.mode = POLL_MODE ∧ room.poll_mode_stage ≠ 2
          ∧ room.user_fds.getD index 0 = room.game_host_fd then
        sub_state (reset_poll_state { room with mode := CHAT_MODE })
      else sub_state room := by
  have hcp : CHAT_MODE ≠ POLL_MODE := by decide
  unfold remove_user
  simp only []
  by_cases c1 : room.mode = GAME_MODE ∧ room.user_fds.getD index 0 = room.game_host_fd
  · simp only [c1, and_self, decide_True, if_true, hcp, false_and, if_false]
    rfl
  · simp only [c1, decide_False, Bool.false_eq_true, if_false]
    split <;> rfl

theorem poll_line_to_chat (room : ChatRoom) (i : Nat) (buffer : CStr)
    (r : ChatRoom × List Action) (h : poll_line room i buffer = some r)
    (hm : room.mode = POLL_MODE) (hc : r.1.mode = CHAT_MODE) :
    PollCleared r.1 ∧ r.1.game_answer = room.game_answer := by
  have hpc : POLL_MODE ≠ CHAT_MODE := by decide
  unfold poll_line at h
  simp only [] at h
  repeat' split at h
  all_goals
    first
    | (simp only [Option.some.injEq] at h
       subst h
       first
       | exact ⟨reset_poll_state_cleared _, rfl⟩
       | (exfalso
          apply hpc
          rw [← hm]
          exact hc))
    | simp at h

/-- C18 as stated fails: when member 5 wins the game of host 4 in the
reachable room 0, the room returns to Chat mode with an empty answer, but the
host handle is still 4, the host name still `alice`, and the vote markers are
the zeros of program start, not the unvoted marker. -/
theorem game_won_counterexample :
    Reachable (state_after game_events)
      ∧ (state_after game_events).room0.mode = GAME_MODE
      ∧ (state_after (game_events ++ [Event.room 0 1 (sent_line "482")])).room0.mode = CHAT_MODE
      ∧ (state_after (game_events ++ [Event.room 0 1 (sent_line "482")])).room0.game_answer = []
      ∧ (state_after (game_events ++ [Event.room 0 1 (sent_line "482")])).room0.game_host_fd = 4
      ∧ (state_after (game_events ++ [Event.room 0 1 (sent_line "482")])).room0.game_host_name
          = utf8 "alice"
      ∧ (state_after (game_events ++ [Event.room 0 1 (sent_line "482")])).room0.vote_received
          = List.replicate 10 0 := by
  refine ⟨state_after_reachable game_events (by decide), ?_⟩
  decide

theorem chatroom_recv_of_game (reg : Registry) (room : ChatRoom) (i : Nat) (rr : RecvResult)
    (hm : room.mode = GAME_MODE) :
    (chatroom_recv reg room i rr).2.1 = room
      ∨ (chatroom_recv reg room i rr).2.1 = (remove_user reg room i).2.1
      ∨ (chatroom_recv reg room i rr).2.1 = (game_line reg room i (cut_line rr.buffer)).1 := by
  have hgc : ¬ (GAME_MODE = CHAT_MODE) := by decide
  unfold chatroom_recv
  simp only []
  by_cases c0 : (i : Int) < room.user_count
  swap
  · simp only [c0, not_false_eq_true, if_true, true_or]
  by_cases c1 : rr.n < 0
  · simp only [c0, c1, not_true_eq_false, if_true, if_false, true_or]
  by_cases c2 : rr.n = 0
  · simp only [c0, c2, lt_self_iff_false, not_true_eq_false, if_true, if_false, true_or, or_true]
  by_cases c3 : cut_line rr.buffer = utf8 "quit"
  · simp only [c0, c1, c2, c3, not_true_eq_false, if_true, if_false, true_or, or_true]
  by_cases c4 : cut_line rr.buffer = utf8 "info"
  · have hiq : ¬ (utf8 "info" = utf8 "quit") := by decide
    simp only [c0, c1, c2, c4, hiq, not_true_eq_false, if_true, if_false, true_or]
  · simp only [c0, c1, c2, c3, c4, hm, hgc, and_false, not_true_eq_false, if_true, if_false,
      or_true]

theorem chatroom_recv_of_poll (reg : Registry) (room : ChatRoom) (i : Nat) (rr : RecvResult)
    (hm : room.mode = POLL_MODE) :
    (chatroom_recv reg room i rr).2.1 = room
      ∨ (chatroom_recv reg room i rr).2.1 = (remove_user reg room i).2.1
      ∨ (∃ r, poll_line room i (cut_line rr.buffer) = some r
          ∧ (chatroom_recv reg room i rr).2.1 = r.1)
      ∨ (chatroom_recv reg room i rr).2.1 = (chat_line reg room i (cut_line rr.buffer)).1 := by
  have hpc : ¬ (POLL_MODE = CHAT_MODE) := by decide
  have hpg : ¬ (POLL_MODE = GAME_MODE) := by decide
  unfold chatroom_recv
  simp only []
  by_cases c0 : (i : Int) < room.user_count
  swap
  · simp only [c0, not_false_eq_true, if_true, true_or]
  by_cases c1 : rr.n < 0
  · simp only [c0, c1, not_true_eq_false, if_true, if_false, true_or]
  by_cases c2 : rr.n = 0
  · simp only [c0, c2, lt_self_iff_false, not_true_eq_false, if_true, if_false, true_or, or_true]
  by_cases c3 : cut_line rr.buffer = utf8 "quit"
  · simp only [c0, c1, c2, c3, not_true_eq_false, if_true, if_false, true_or, or_true]
  by_cases c4 : cut_line rr.buffer = utf8 "info"
  · have hiq : ¬ (utf8 "info" = utf8 "quit") := by decide
    simp only [c0, c1, c2, c4, hiq, not_true_eq_false, if_true, if_false, true_or]
  · simp only [c0, c1, c2, c3, c4, hm, hpc, hpg, and_false, not_true_eq_false, if_true, if_false]
    cases hp : poll_line room i (cut_line rr.buffer) with
    | none => simp only [or_true]
    | some r =>
      right; right; left
      exact ⟨r, rfl, rfl⟩

theorem game_line_to_chat (reg : Registry) (room : ChatRoom) (i : Nat) (buffer : CStr)
    (hm : room.mode = GAME_MODE) (hc : (game_line reg room i buffer).1.mode = CHAT_MODE) :
    sub_state (game_line reg room i buffer).1 =
      (CHAT_MODE, room.game_host_fd, room.game_host_name, [], room.poll_mode_stage,
       room.poll_count, room.poll_index, room.poll_list, room.poll_votes, room.vote_received) := by
  have hgc : GAME_MODE ≠ CHAT_MODE := by decide
  revert hc
  unfold game_line
  simp only []
  repeat' split
  all_goals
    first
    | (intro _
       rfl)
    | (intro hc
       exfalso
       apply hgc
       rw [← hm]
       exact hc)

/-- C18, amended. After every round of the room worker that takes a room of a
reachable state from Game or Poll mode to Chat mode, the answer is empty.
When the mode was Poll (poll completed, or host removed before Voting) the
poll sub-state is cleared: host handle -1, host name empty, stage
CollectingCount, declared count and item index 0, item list empty, tallies 0,
vote markers unvoted. When the mode was Game (game won, or host removed) the
host name and the poll sub-state are left as they were, and the host handle is
-1 or left as it was. -/
theorem back_to_chat (s : Server) (hs : Reachable s) (k i : Nat) (rr : RecvResult)
    (hafter : (chatroom_recv s.reg (s.chatrooms.getD k default) i rr).2.1.mode = CHAT_MODE) :
    ((s.chatrooms.getD k default).mode = POLL_MODE →
        (chatroom_recv s.reg (s.chatrooms.getD k default) i rr).2.1.game_answer = []
          ∧ PollCleared (chatroom_recv s.reg (s.chatrooms.getD k default) i rr).2.1)
      ∧ ((s.chatrooms.getD k default).mode = GAME_MODE →
        ∃ h : Int, (h = -1 ∨ h = (s.chatrooms.getD k default).game_host_fd)
          ∧ sub_state (chatroom_recv s.reg (s.chatrooms.getD k default) i rr).2.1 =
            (CHAT_MODE, h, (s.chatrooms.getD k default).game_host_name, [],
             (s.chatrooms.getD k default).poll_mode_stage,
             (s.chatrooms.getD k default).poll_count, (s.chatrooms.getD k default).poll_index,
             (s.chatrooms.getD k default).poll_list, (s.chatrooms.getD k default).poll_votes,
             (s.chatrooms.getD k default).vote_received)) := by
  have hok : AnswerOk (s.chatrooms.getD k default) :=
    getD_inv (reachable_inv answerOk_invariant s hs) answerOk_invariant.zero k
  generalize s.chatrooms.getD k default = room at hafter hok ⊢
  generalize s.reg = reg at hafter ⊢
  have hpc : POLL_MODE ≠ CHAT_MODE := by decide
  have hgc : GAME_MODE ≠ CHAT_MODE := by decide
  have hpg : POLL_MODE ≠ GAME_MODE := by decide
  have hsub := remove_user_sub_state reg room i
  constructor
  · intro hm
    have hnil := answer_nil_of_not_game room hok (by rw [hm]; exact hpg)
    rcases chatroom_recv_of_poll reg room i rr hm with e | e | ⟨r, hr, e⟩ | e
    · rw [e, hm] at hafter
      exact absurd hafter hpc
    · rw [e] at hafter ⊢
      simp only [hm, hpg, false_and, if_false] at hsub
      split at hsub
      · simp only [sub_state, Prod.mk.injEq] at hsub
        obtain ⟨_, h2, h3, h4, h5, h6, h7, h8, h9, h10⟩ := hsub
        have hc := reset_poll_state_cleared { room with mode := CHAT_MODE }
        refine ⟨by rw [h4]; exact hnil, ?_⟩
        unfold PollCleared
        rw [h2, h3, h5, h6, h7, h8, h9, h10]
        exact hc
      · simp only [sub_state, Prod.mk.injEq] at hsub
        rw [hsub.1, hm] at hafter
        exact absurd hafter hpc
    · rw [e] at hafter ⊢
      have := poll_line_to_chat room i _ r hr hm hafter
      exact ⟨by rw [this.2]; exact hnil, this.1⟩
    · rw [e] at hafter
      rw [(chat_line_answer reg room i _).2, hm] at hafter
      exact absurd hafter hpc
  · intro hm
    rcases chatroom_recv_of_game reg room i rr hm with e | e | e
    · rw [e, hm] at hafter
      exact absurd hafter hgc
    · rw [e] at hafter ⊢
      simp only [hm, true_and] at hsub
      split at hsub
      · exact ⟨-1, Or.inl rfl, hsub⟩
      · simp only [hgc, hpg.symm, false_and, if_false, sub_state, Prod.mk.injEq] at hsub
        rw [hsub.1, hm] at hafter
        exact absurd hafter hgc
    · rw [e] at hafter ⊢
      exact ⟨room.game_host_fd, Or.inr rfl, game_line_to_chat reg room i _ hm hafter⟩

set_option maxRecDepth 100000 in
/-- Instance of C18, amended: member 5 wins the game of the reachable room 0. -/
theorem back_to_chat_witness :
    ∃ h : Int, (h = -1 ∨ h = 4)
      ∧ sub_state (chatroom_recv (state_after game_events).reg
          ((state_after game_events).chatrooms.getD 0 default) 1 (sent_line "482")).2.1
        = (CHAT_MODE, h, utf8 "alice", [], 0, 0, 0, List.replicate 10 none, List.replicate 10 0,
           List.replicate 10 0) :=
  (back_to_chat (state_after game_events) (state_after_reachable game_events (by decide)) 0 1
    (sent_line "482") (by decide)).2 (by decide)

/-! ## Disconnect inside a lobby sub-dialog -/

set_option maxRecDepth 100000 in
/-- C16, the code at a failing input. Clients 4, 5 and 6 are in the lobby;
client 6 picks menu 1 and then closes its connection. The handling of client 6
never completes: after `remove_client(2); i--;` the `continue` re-enters the
`while (!done)` loop of the sub-dialog. Every further `recv` on the closed
descriptor fails, so the next two rounds run `remove_client(1)` and
`remove_client(0)`: the connections 5 and 4 are closed too, the live client
count is 0, and the round after that would run `remove_client(-1)`. For every
state, a read with `n <= 0` in the rename or room-selection sub-dialog, or in
the creation sub-dialog while the room table is not full, never brings
control back to the readiness loop. -/
theorem sub_dialog_disconnect_runs_away :
    (state_after three_lobby_events).reg.client_count = 3
      ∧ live_handles (state_after three_lobby_events).reg = [4, 5, 6]
      ∧ (lobby_recv (state_after three_lobby_events) 2 (sent_line "1") [RecvResult.data []]
            spawn_ok).state? = none
      ∧ (lobby_recv (state_after three_lobby_events) 2 (sent_line "1") [RecvResult.data []]
            spawn_ok).runaway?.map (fun r => (r.1.reg.client_count, r.2)) = some (2, 1)
      ∧ (rename_rounds 6 (state_after three_lobby_events) 2
            [RecvResult.data [], RecvResult.error, RecvResult.error]).runaway?.map
          (fun r => (r.1.reg.client_count, r.2)) = some (0, -1)
      ∧ closes_of (rename_rounds 6 (state_after three_lobby_events) 2
            [RecvResult.data [], RecvResult.error, RecvResult.error]).acts = [6, 5, 4]
      ∧ (∀ (s : Server) (i : Nat) (fd : Int) (spawn : Nat → Bool) (rr : RecvResult)
          (rest : List RecvResult), rr.n ≤ 0 →
          (rename_dialog s i fd (rr :: rest)).state? = none
            ∧ (join_dialog s i fd (rr :: rest)).state? = none
            ∧ (s.room_count < MAX_CHATROOMS →
                (create_dialog s i fd spawn (rr :: rest)).state? = none)) := by
  refine ⟨by decide, by decide, by decide, by decide, by decide, by decide, ?_⟩
  intro s i fd spawn rr rest hn
  refine ⟨?_, ?_, ?_⟩
  · unfold rename_dialog
    simp only [hn, if_true, Outcome.state?]
  · unfold join_dialog
    simp only [hn, if_true, Outcome.state?]
  · intro hroom
    have hnot : ¬ s.room_count ≥ MAX_CHATROOMS := by omega
    unfold create_dialog
    simp only [hn, if_true, hnot, if_false, Outcome.state?]


/-! ## Winning the game -/

set_option maxHeartbeats 1600000 in
/-- C25. For every guess and answer accepted by `is_valid_number`,
`evaluate_guess` yields 3 strikes exactly when the guess equals the answer,
strikes plus balls is the number of digits of the guess that occur in the
answer, this sum is at most 3, and exchanging guess and answer gives the same
result. -/
theorem win_only_by_answer (guess answer : CStr) (hg : is_valid_number guess = true)
    (ha : is_valid_number answer = true) :
    ((evaluate_guess guess answer).1 = 3 ↔ guess = answer)
      ∧ (evaluate_guess guess answer).1 + (evaluate_guess guess answer).2
          = ((guess.filter (fun c => decide (c ∈ answer))).length : Int)
      ∧ (evaluate_guess guess answer).1 + (evaluate_guess guess answer).2 ≤ 3
      ∧ evaluate_guess answer guess = evaluate_guess guess answer := by
  obtain ⟨hgl, hgd, hgn⟩ := valid_number_digits guess hg
  obtain ⟨hal, had, han⟩ := valid_number_digits answer ha
  obtain ⟨a, b, c, rfl⟩ := length_three guess hgl
  obtain ⟨x, y, z, rfl⟩ := length_three answer hal
  simp at hgd hgn had han
  have hr : List.range 3 = [0, 1, 2] := by decide
  have a0 : a ≠ 0 := by omega
  have b0 : b ≠ 0 := by omega
  have c0 : c ≠ 0 := by omega
  have x0 : x ≠ 0 := by omega
  have y0 : y ≠ 0 := by omega
  have z0 : z ≠ 0 := by omega
  simp only [evaluate_guess, hr, List.foldl, evaluate_step, charAt, strchr]
  have key : ∀ d : Nat, d = x ∨ d = y ∨ d = z
      ∨ (d ≠ x ∧ d ≠ y ∧ d ≠ z ∧ x ≠ d ∧ y ≠ d ∧ z ≠ d) := by
    intro d
    omega
  have sg : b ≠ a ∧ c ≠ a ∧ c ≠ b := by omega
  have sa : y ≠ x ∧ z ≠ x ∧ z ≠ y := by omega
  rcases key a with h1 | h1 | h1 | h1 <;>
    rcases key b with h4 | h4 | h4 | h4 <;>
    rcases key c with h7 | h7 | h7 | h7 <;>
    simp_all [List.filter]

/-- Instance of C25 at guess `321` and answer `123`. -/
theorem win_only_by_answer_witness :
    ((evaluate_guess (utf8 "321") (utf8 "123")).1 = 3 ↔ utf8 "321" = utf8 "123")
      ∧ (evaluate_guess (utf8 "321") (utf8 "123")).1 + (evaluate_guess (utf8 "321") (utf8 "123")).2
          = (((utf8 "321").filter (fun c => decide (c ∈ utf8 "123"))).length : Int)
      ∧ (evaluate_guess (utf8 "321") (utf8 "123")).1
          + (evaluate_guess (utf8 "321") (utf8 "123")).2 ≤ 3
      ∧ evaluate_guess (utf8 "123") (utf8 "321") = evaluate_guess (utf8 "321") (utf8 "123") :=
  win_only_by_answer (utf8 "321") (utf8 "123") (by decide) (by decide)


/-! ## Swap compaction -/

theorem set_cons_perm {α : Type} (d y : α) :
    ∀ (l : List α) (i : Nat), i < l.length →
      List.Perm (l.getD i d :: l.set i y) (l ++ [y])
  | [], i, h => by simp at h
  | a :: t, 0, _ => by
    simp only [List.getD_cons_zero, List.set_cons_zero, List.cons_append]
    exact List.Perm.cons a (List.perm_append_singleton y t).symm
  | a :: t, k + 1, h => by
    simp only [List.getD_cons_succ, List.set_cons_succ, List.cons_append]
    have h1 : k < t.length := by simpa using h
    exact (List.Perm.swap a (t.getD k d) (t.set k y)).trans
      (List.Perm.cons a (set_cons_perm d y t k h1))

theorem swap_remove_perm {α : Type} (d : α) (l : List α) (i n : Nat) (hi : i < n)
    (hn : n ≤ l.length) :
    List.Perm (l.getD i d :: (l.set i (l.getD (n - 1) d)).take (n - 1)) (l.take n) := by
  obtain ⟨m, rfl⟩ : ∃ m, n = m + 1 := ⟨n - 1, by omega⟩
  have hm : m < l.length := by omega
  have e1 : l.take (m + 1) = l.take m ++ [l.getD m d] := by
    rw [List.take_succ, List.getD_eq_getElem?_getD, List.getElem?_eq_getElem hm]
    rfl
  simp only [Nat.add_sub_cancel]
  rw [e1, List.set_take]
  by_cases c : i < m
  · have h2 : i < (l.take m).length := by
      rw [List.length_take]
      omega
    have h3 : l.getD i d = (l.take m).getD i d := by
      simp only [List.getD_eq_getElem?_getD, List.getElem?_take, c, if_true]
    rw [h3]
    exact set_cons_perm d (l.getD m d) (l.take m) i h2
  · have e2 : i = m := by omega
    subst e2
    rw [List.set_eq_of_length_le (by rw [List.length_take]; omega)]
    exact (List.perm_append_singleton _ _).symm

theorem perm_erase_of_cons {α : Type} [DecidableEq α] (x : α) (l1 l2 : List α)
    (h : List.Perm (x :: l1) l2) : List.Perm l1 (l2.erase x) := by
  have := (List.Perm.erase x h)
  simpa using this

theorem getD_set_self {α : Type} (d v : α) (l : List α) (i : Nat) (h : i < l.length) :
    (l.set i v).getD i d = v := by
  simp [List.getD_eq_getElem?_getD, List.getElem?_set_self h]

theorem getD_set_other {α : Type} (d v : α) (l : List α) (i k : Nat) (h : k ≠ i) :
    (l.set i v).getD k d = l.getD k d := by
  simp [List.getD_eq_getElem?_getD, List.getElem?_set_ne (Ne.symm h)]

theorem remove_user_table (reg : Registry) (room : ChatRoom) (index : Nat) :
    (remove_user reg room index).2.1.user_fds
        = room.user_fds.set index (room.user_fds.getD (room.user_count - 1).toNat 0)
      ∧ (remove_user reg room index).2.1.user_names
        = room.user_names.set index
            (room.user_names.getD (room.user_count - 1).toNat NamePtr.null) := by
  unfold remove_user
  simp only []
  split <;> split <;> simp [reset_poll_state]

/-- C22. Removing index `i` of `n` entries, by `remove_client` on the registry
and by `remove_user` on the member list of a room, leaves `n - 1` entries: slot
`i` holds the former last entry when `i < n - 1`, every other slot below
`n - 1` is unchanged, and the handles of the table are the old handles with one
occurrence of the removed handle taken out. -/
theorem swap_compaction :
    (∀ (reg : Registry) (i : Nat), (i : Int) < reg.client_count →
        reg.client_count ≤ reg.clients.length →
        (remove_client reg i).1.client_count = reg.client_count - 1
          ∧ ((i : Int) < reg.client_count - 1 →
              (remove_client reg i).1.clients.getD i default
                = reg.clients.getD (reg.client_count - 1).toNat default)
          ∧ (∀ k : Nat, (k : Int) < reg.client_count - 1 → k ≠ i →
              (remove_client reg i).1.clients.getD k default = reg.clients.getD k default)
          ∧ List.Perm (live_handles (remove_client reg i).1)
              ((live_handles reg).erase (reg.clients.getD i default).fd))
      ∧ (∀ (reg : Registry) (room : ChatRoom) (i : Nat), (i : Int) < room.user_count →
          room.user_count ≤ room.user_fds.length →
          room.user_count ≤ room.user_names.length →
          (remove_user reg room i).2.1.user_count = room.user_count - 1
            ∧ ((i : Int) < room.user_count - 1 →
                (remove_user reg room i).2.1.user_fds.getD i 0
                    = room.user_fds.getD (room.user_count - 1).toNat 0
                  ∧ (remove_user reg room i).2.1.user_names.getD i NamePtr.null
                    = room.user_names.getD (room.user_count - 1).toNat NamePtr.null)
            ∧ (∀ k : Nat, (k : Int) < room.user_count - 1 → k ≠ i →
                (remove_user reg room i).2.1.user_fds.getD k 0 = room.user_fds.getD k 0
                  ∧ (remove_user reg room i).2.1.user_names.getD k NamePtr.null
                    = room.user_names.getD k NamePtr.null)
            ∧ List.Perm (member_handles (remove_user reg room i).2.1)
                ((member_handles room).erase (room.user_fds.getD i 0))) := by
  constructor
  · intro reg i hi hn
    refine ⟨rfl, ?_, ?_, ?_⟩
    · intro h
      exact getD_set_self _ _ _ _ (by omega)
    · intro k _ hk
      exact getD_set_other _ _ _ _ _ hk
    · apply perm_erase_of_cons
      have hp := swap_remove_perm default reg.clients i reg.client_count.toNat (by omega)
        (by omega)
      have hm := List.Perm.map (fun c : ClientInfo => c.fd) hp
      have e : (reg.client_count - 1).toNat = reg.client_count.toNat - 1 := by omega
      simp only [live_handles, remove_client, e]
      simpa using hm
  · intro reg room i hi hn hm
    obtain ⟨e1, e2⟩ := remove_user_table reg room i
    have e : (room.user_count - 1).toNat = room.user_count.toNat - 1 := by omega
    refine ⟨remove_user_count reg room i, ?_, ?_, ?_⟩
    · intro h
      rw [e1, e2]
      exact ⟨getD_set_self _ _ _ _ (by omega), getD_set_self _ _ _ _ (by omega)⟩
    · intro k _ hk
      rw [e1, e2]
      exact ⟨getD_set_other _ _ _ _ _ hk, getD_set_other _ _ _ _ _ hk⟩
    · apply perm_erase_of_cons
      have hp := swap_remove_perm (0 : Int) room.user_fds i room.user_count.toNat (by omega)
        (by omega)
      simp only [member_handles, remove_user_count, e1, e]
      exact hp

/-- Instance of C22: the first of the three records of the example registry
and the first of the three members of the example room are removed. -/
theorem swap_compaction_witness :
    List.Perm (live_handles (remove_client example_registry 0).1)
        ((live_handles example_registry).erase (example_registry.clients.getD 0 default).fd)
      ∧ (remove_client example_registry 0).1.clients.getD 0 default
          = example_registry.clients.getD (example_registry.client_count - 1).toNat default
      ∧ List.Perm (member_handles (remove_user example_registry example_room 0).2.1)
          ((member_handles example_room).erase (example_room.user_fds.getD 0 0)) :=
  ⟨(swap_compaction.1 example_registry 0 (by decide) (by decide)).2.2.2,
   (swap_compaction.1 example_registry 0 (by decide) (by decide)).2.1 (by decide),
   (swap_compaction.2 example_registry example_room 0 (by decide) (by decide)
      (by decide)).2.2.2⟩


/-! ## Integer parsing -/

theorem takeWhile_dropWhile_cases {α : Type} (p : α → Bool) (l : List α) :
    (l.dropWhile p = [] ↔ ∀ x ∈ l, p x = true)
      ∧ (l.dropWhile p = [] → l.takeWhile p = l)
      ∧ (l ≠ [] → l.takeWhile p = [] → l.dropWhile p ≠ []) := by
  refine ⟨?_, ?_, ?_⟩
  · simp
  · intro h
    have := List.takeWhile_append_dropWhile p l
    rw [h, List.append_nil] at this
    exact this
  · intro hl ht hd
    have := List.takeWhile_append_dropWhile p l
    rw [ht, hd] at this
    exact hl this.symm

/-- C24, amended. On every non-empty string `parse_valid_int` skips leading
white space and then reads strictly: it succeeds exactly when the rest is an
optional sign followed by one or more decimal digits and nothing else, with a
value in the range of `int`, and then yields that value; trailing characters
and trailing white space are rejected. -/
theorem parse_valid_int_strict (s : CStr) (hs : s ≠ []) :
    parse_valid_int s = strict_int (s.dropWhile isspace) := by
  unfold parse_valid_int strict_int strtol
  simp only []
  generalize hs1 : s.dropWhile isspace = s1
  generalize hs2 : (if s1.head? = some 45 ∨ s1.head? = some 43 then s1.tail else s1) = s2
  obtain ⟨k1, k2, k3⟩ := takeWhile_dropWhile_cases isdigit s2
  by_cases c1 : s2.takeWhile isdigit = []
  · simp only [c1, if_true, ne_eq, hs, not_false_eq_true]
    by_cases c2 : s2 = []
    · simp [c2]
    · have h3 := k3 c2 c1
      have : ¬ s2.all isdigit = true := by
        intro h
        exact h3 (k1.2 (by simpa using h))
      simp [this]
  · simp only [c1, if_false]
    by_cases c2 : s2.dropWhile isdigit = []
    · have c3 := k2 c2
      have c4 := k1.1 c2
      have c5 : s2 ≠ [] := by
        intro h
        rw [h] at c1
        exact c1 rfl
      rw [c3]
      simp only [c2, ne_eq, not_true_eq_false, if_false, c5, not_false_eq_true, true_and]
      have c6 : s2.all isdigit = true := by simpa using c4
      simp only [c6, if_true]
      by_cases c7 : s1.head? = some 45
      · simp only [c7, decide_True, if_true]
        simp only [INT_MIN, INT_MAX, LONG_MIN, LONG_MAX]
        split <;> split <;> first | rfl | omega | (simp only [Option.some.injEq]; omega)
      · simp only [c7, decide_False, Bool.false_eq_true, if_false]
        simp only [INT_MIN, INT_MAX, LONG_MIN, LONG_MAX]
        split <;> split <;> first | rfl | omega | (simp only [Option.some.injEq]; omega)
    · have : ¬ s2.all isdigit = true := by
        intro h
        exact c2 (k1.2 (by simpa using h))
      simp [c2, this]

/-- Instance of C24, amended, at the string `-42`. -/
theorem parse_valid_int_strict_witness :
    utf8 "-42" ≠ []
      ∧ parse_valid_int (utf8 "-42") = strict_int ((utf8 "-42").dropWhile isspace)
      ∧ parse_valid_int (utf8 "-42") = some (-42) :=
  ⟨by decide, parse_valid_int_strict (utf8 "-42") (by decide), by decide⟩

/-- C24 as stated fails: a string with leading white space is accepted, as
` 7` with value 7 and a tab followed by `+12` with value 12, although the
strict reading rejects both; and the empty string is accepted with value 0. -/
theorem parse_valid_int_counterexample :
    parse_valid_int (utf8 " 7") = some 7
      ∧ strict_int (utf8 " 7") = none
      ∧ parse_valid_int (utf8 "\t+12") = some 12
      ∧ strict_int (utf8 "\t+12") = none
      ∧ parse_valid_int (utf8 "") = some 0
      ∧ strict_int (utf8 "") = none
      ∧ parse_valid_int (utf8 "7 ") = none
      ∧ parse_valid_int (utf8 "7x") = none := by
  decide


/-! ## Vote conservation -/

theorem sum_set_succ : ∀ (l : List Int) (i : Nat), i < l.length →
    (l.set i (l.getD i 0 + 1)).sum = l.sum + 1
  | [], i, h => by simp at h
  | a :: t, 0, _ => by
    simp only [List.set_cons_zero, List.getD_cons_zero, List.sum_cons]
    omega
  | a :: t, k + 1, h => by
    have h1 : k < t.length := by simpa using h
    simp only [List.set_cons_succ, List.getD_cons_succ, List.sum_cons, sum_set_succ t k h1]
    omega

theorem countP_set_new (p : Int → Bool) (l : List Int) (i : Nat) (v : Int) (h : i < l.length)
    (hold : p (l.getD i 0) = false) (hnew : p v = true) :
    (l.set i v).countP p = l.countP p + 1 := by
  rw [List.countP_set p l i v h]
  rw [List.getD_eq_getElem?_getD, List.getElem?_eq_getElem h] at hold
  simp only [Option.getD_some] at hold
  simp [hold, hnew]

theorem set_const_self {α : Type} (v : α) : ∀ (l : List α) (i : Nat), (∀ x ∈ l, x = v) →
    l.set i v = l
  | [], _, _ => rfl
  | a :: t, 0, h => by
    simp only [List.set_cons_zero]
    rw [h a (List.mem_cons_self a t)]
  | a :: t, k + 1, h => by
    simp only [List.set_cons_succ]
    rw [set_const_self v t k (fun x hx => h x (List.mem_cons_of_mem a hx))]

theorem fill_upto_const_self {α : Type} (v : α) (l : List α) (h : ∀ x ∈ l, x = v) (n : Nat) :
    fill_upto n v l = l := by
  induction n with
  | zero => rfl
  | succ n ih =>
    simp only [fill_upto, ih]
    exact set_const_self v l n h

theorem fill_upto_all {α : Type} (v : α) (l : List α) (n : Nat) (h : l.length ≤ n) :
    ∀ x ∈ fill_upto n v l, x = v := by
  intro x hx
  have := fill_upto_take n v l x
  rw [List.take_of_length_le (by rw [fill_upto_length]; exact h)] at this
  exact this hx

theorem countP_all_unvoted (l : List Int) (h : ∀ m ∈ l, m = -1) :
    l.countP (fun m => decide (m ≠ -1)) = 0 := by
  rw [List.countP_eq_zero]
  intro m hm
  simp [h m hm]

theorem sum_all_zero (l : List Int) (h : ∀ x ∈ l, x = 0) : l.sum = 0 := by
  induction l with
  | nil => rfl
  | cons a t ih =>
    simp only [List.sum_cons]
    rw [h a (List.mem_cons_self a t), ih (fun x hx => h x (List.mem_cons_of_mem a hx))]
    rfl

theorem votesOk_not_poll (room : ChatRoom) (h1 : room.poll_votes.length = 10)
    (h2 : room.vote_received.length = 10) (h3 : room.user_count ≤ MAX_ROOM_USERS)
    (h4 : room.mode ≠ POLL_MODE) : VotesOk room :=
  ⟨h1, h2, h3, fun h => absurd h h4⟩

theorem votesOk_same (room r : ChatRoom) (h : VotesOk room)
    (e1 : r.poll_votes = room.poll_votes) (e2 : r.vote_received = room.vote_received)
    (e3 : r.user_count ≤ MAX_ROOM_USERS) (e4 : r.mode = room.mode)
    (e5 : r.poll_mode_stage = room.poll_mode_stage) (e6 : r.poll_count = room.poll_count) :
    VotesOk r := by
  unfold VotesOk
  rw [e1, e2, e4, e5, e6]
  exact ⟨h.1, h.2.1, e3, h.2.2.2⟩

theorem votesOk_fresh (room : ChatRoom) (h1 : room.poll_votes.length = 10)
    (h2 : room.vote_received.length = 10) (h3 : room.user_count ≤ MAX_ROOM_USERS)
    (h4 : room.poll_mode_stage = 0) (h5 : ∀ x ∈ room.poll_votes, x = 0)
    (h6 : ∀ m ∈ room.vote_received, m = -1) : VotesOk room := by
  refine ⟨h1, h2, h3, fun _ => ⟨?_, ?_⟩⟩
  · intro h
    rw [h4] at h
    exact absurd h (by decide)
  · intro _
    refine ⟨h5, h6, ?_⟩
    intro h
    rw [h4] at h
    exact absurd h (by decide)

theorem start_poll_votesOk (room : ChatRoom) (fd : Int) (name : CStr) (h : VotesOk room) :
    VotesOk (start_poll room fd name) := by
  obtain ⟨h1, h2, h3, _⟩ := h
  apply votesOk_fresh
  · show (fill_upto _ _ _).length = 10
    rw [fill_upto_length]
    exact h1
  · show (fill_upto _ _ _).length = 10
    rw [fill_upto_length]
    exact h2
  · exact h3
  · rfl
  · exact fill_upto_all 0 room.poll_votes 10 (by omega)
  · exact fill_upto_all (-1) room.vote_received 10 (by omega)

theorem get_user_index_lt (room : ChatRoom) (fd : Int) (u : Nat)
    (h : get_user_index room fd = some u) : u < room.user_count.toNat := by
  unfold get_user_index at h
  have := List.mem_of_find?_eq_some h
  simpa using this

theorem poll_line_votesOk (room : ChatRoom) (i : Nat) (buffer : CStr)
    (r : ChatRoom × List Action) (h : poll_line room i buffer = some r)
    (hm : room.mode = POLL_MODE) (hv : VotesOk room) : VotesOk r.1 := by
  have hcp : CHAT_MODE ≠ POLL_MODE := by decide
  obtain ⟨h1, h2, h3, h4⟩ := hv
  obtain ⟨hs2, hs01⟩ := h4 hm
  unfold poll_line at h
  simp only [] at h
  by_cases c0 : room.user_fds.getD i 0 = room.game_host_fd ∧ room.poll_mode_stage = 0
  · rw [if_pos c0] at h
    have hst : room.poll_mode_stage ≠ 2 := by
      rw [c0.2]
      decide
    obtain ⟨z, u, _⟩ := hs01 hst
    cases hp : parse_valid_int buffer with
    | none =>
      simp only [hp, Option.some.injEq] at h
      subst h
      exact ⟨h1, h2, h3, h4⟩
    | some pc =>
      simp only [hp] at h
      split at h
      · rename_i c
        simp only [Option.some.injEq] at h
        subst h
        exact ⟨h1, h2, h3, fun _ =>
          ⟨fun h => absurd (show (1 : Int) = 2 from h) (by decide),
            fun _ => ⟨z, u, fun _ => ⟨c.1, c.2⟩⟩⟩⟩
      · simp only [Option.some.injEq] at h
        subst h
        exact ⟨h1, h2, h3, h4⟩
  rw [if_neg c0] at h
  by_cases c1 : room.user_fds.getD i 0 = room.game_host_fd ∧ room.poll_mode_stage = 1
  · rw [if_pos c1] at h
    have hst : room.poll_mode_stage ≠ 2 := by
      rw [c1.2]
      decide
    obtain ⟨z, u, hc⟩ := hs01 hst
    have hc := hc c1.2
    have z1 : ∀ x ∈ room.poll_votes.set room.poll_index.toNat 0, x = 0 := by
      intro x hx
      rcases List.mem_or_eq_of_mem_set hx with hx | hx
      · exact z x hx
      · exact hx
    split at h
    · simp only [Option.some.injEq] at h
      subst h
      refine ⟨?_, h2, h3, fun _ => ⟨fun h => absurd (c1.2.symm.trans h) (by decide),
        fun _ => ⟨z1, u, fun _ => hc⟩⟩⟩
      show (room.poll_votes.set _ _).length = 10
      rw [List.length_set]
      exact h1
    · simp only [Option.some.injEq] at h
      subst h
      have u1 : ∀ m ∈ fill_upto room.user_count.toNat (-1) room.vote_received, m = -1 := by
        rw [fill_upto_const_self (-1) room.vote_received u]
        exact u
      refine ⟨?_, ?_, h3, fun _ => ⟨fun _ => ⟨hc.1, hc.2, ?_, ?_⟩,
        fun h => absurd rfl h⟩⟩
      · show (room.poll_votes.set _ _).length = 10
        rw [List.length_set]
        exact h1
      · show (fill_upto _ _ _).length = 10
        rw [fill_upto_length]
        exact h2
      · show (room.poll_votes.set _ _).sum = ((List.countP _ (fill_upto _ _ _) : Nat) : Int)
        rw [sum_all_zero _ z1, countP_all_unvoted _ u1]
        rfl
      · intro m hm
        exact Or.inl (u1 m hm)
  rw [if_neg c1] at h
  by_cases c2 : room.poll_mode_stage = 2
  swap
  · rw [if_neg c2] at h
    simp at h
  rw [if_pos c2] at h
  obtain ⟨p1, p2, p3, p4⟩ := hs2 c2
  cases hg : get_user_index room (room.user_fds.getD i 0) with
  | none =>
    simp only [hg, Option.some.injEq] at h
    subst h
    exact ⟨h1, h2, h3, h4⟩
  | some user_idx =>
    simp only [hg] at h
    have hlt := get_user_index_lt room _ user_idx hg
    have h10 : MAX_ROOM_USERS = 10 := rfl
    have hP : MAX_POLL = 10 := rfl
    split at h
    · simp only [Option.some.injEq] at h
      subst h
      exact ⟨h1, h2, h3, h4⟩
    · rename_i hun
      simp only [ne_eq, not_not] at hun
      split at h
      · simp only [Option.some.injEq] at h
        subst h
        exact ⟨h1, h2, h3, h4⟩
      · rename_i hin
        have hin1 : 0 ≤ wrap32 (atoi buffer - 1) := by omega
        have hin2 : wrap32 (atoi buffer - 1) < room.poll_count := by omega
        split at h
        · simp only [Option.some.injEq] at h
          subst h
          apply votesOk_not_poll
          · show (fill_upto _ _ (room.poll_votes.set _ _)).length = 10
            rw [fill_upto_length, List.length_set]
            exact h1
          · show (fill_upto _ _ (room.vote_received.set _ _)).length = 10
            rw [fill_upto_length, List.length_set]
            exact h2
          · exact h3
          · exact hcp
        · simp only [Option.some.injEq] at h
          subst h
          refine ⟨?_, ?_, h3, fun _ => ⟨fun _ => ⟨p1, p2, ?_, ?_⟩, fun h => absurd c2 h⟩⟩
          · show (room.poll_votes.set _ _).length = 10
            rw [List.length_set]
            exact h1
          · show (room.vote_received.set _ _).length = 10
            rw [List.length_set]
            exact h2
          · show (room.poll_votes.set _ _).sum
              = ((List.countP _ (room.vote_received.set _ _) : Nat) : Int)
            rw [sum_set_succ _ _ (by omega), countP_set_new _ _ _ _ (by omega)
              (by simp only [hun]; decide) (by simp; omega), p3]
            push_cast
            rfl
          · intro m hm
            rcases List.mem_or_eq_of_mem_set hm with hm | hm
            · exact p4 m hm
            · right
              rw [hm]
              exact ⟨hin1, hin2⟩

theorem remove_user_votesOk (reg : Registry) (room : ChatRoom) (index : Nat)
    (h : VotesOk room) : VotesOk (remove_user reg room index).2.1 := by
  have hcp : CHAT_MODE ≠ POLL_MODE := by decide
  obtain ⟨h1, h2, h3, h4⟩ := h
  have h10 : MAX_ROOM_USERS = 10 := rfl
  have hc : room.user_count - 1 ≤ MAX_ROOM_USERS := by omega
  unfold remove_user
  simp only []
  split <;> split
  · apply votesOk_not_poll
    · simp [reset_poll_state, fill_upto_length, h1]
    · simp [reset_poll_state, fill_upto_length, h2]
    · exact hc
    · exact hcp
  · apply votesOk_not_poll
    · exact h1
    · exact h2
    · exact hc
    · exact hcp
  · apply votesOk_not_poll
    · simp [reset_poll_state, fill_upto_length, h1]
    · simp [reset_poll_state, fill_upto_length, h2]
    · exact hc
    · exact hcp
  · exact votesOk_same room _ ⟨h1, h2, h3, h4⟩ rfl rfl hc rfl rfl rfl

theorem game_line_votes (reg : Registry) (room : ChatRoom) (i : Nat) (buffer : CStr) :
    (game_line reg room i buffer).1.poll_votes = room.poll_votes
      ∧ (game_line reg room i buffer).1.vote_received = room.vote_received
      ∧ ((game_line reg room i buffer).1.mode = room.mode
          ∨ (game_line reg room i buffer).1.mode = CHAT_MODE) := by
  unfold game_line
  simp only []
  repeat' split
  all_goals simp

theorem chat_line_votes (reg : Registry) (room : ChatRoom) (i : Nat) (buffer : CStr) :
    (chat_line reg room i buffer).1.poll_votes = room.poll_votes
      ∧ (chat_line reg room i buffer).1.vote_received = room.vote_received
      ∧ (chat_line reg room i buffer).1.mode = room.mode
      ∧ (chat_line reg room i buffer).1.poll_mode_stage = room.poll_mode_stage
      ∧ (chat_line reg room i buffer).1.poll_count = room.poll_count := by
  unfold chat_line
  simp only []
  repeat' split
  all_goals simp

theorem chatroom_recv_of_other (reg : Registry) (room : ChatRoom) (i : Nat) (rr : RecvResult)
    (hm : room.mode ≠ POLL_MODE) :
    (chatroom_recv reg room i rr).2.1 = room
      ∨ (chatroom_recv reg room i rr).2.1 = (remove_user reg room i).2.1
      ∨ ((chatroom_recv reg room i rr).2.1.mode = GAME_MODE
          ∧ (chatroom_recv reg room i rr).2.1.poll_votes = room.poll_votes
          ∧ (chatroom_recv reg room i rr).2.1.vote_received = room.vote_received
          ∧ (chatroom_recv reg room i rr).2.1.user_count = room.user_count)
      ∨ (chatroom_recv reg room i rr).2.1 = (game_line reg room i (cut_line rr.buffer)).1
      ∨ (∃ fd name, (chatroom_recv reg room i rr).2.1 = start_poll room fd name)
      ∨ (chatroom_recv reg room i rr).2.1 = (chat_line reg room i (cut_line rr.buffer)).1 := by
  unfold chatroom_recv
  simp only []
  by_cases c0 : (i : Int) < room.user_count
  swap
  · simp only [c0, not_false_eq_true, if_true, true_or]
  by_cases c1 : rr.n < 0
  · simp only [c0, c1, not_true_eq_false, if_true, if_false, true_or]
  by_cases c2 : rr.n = 0
  · simp only [c0, c2, lt_self_iff_false, not_true_eq_false, if_true, if_false, true_or, or_true]
  by_cases c3 : cut_line rr.buffer = utf8 "quit"
  · simp only [c0, c1, c2, c3, not_true_eq_false, if_true, if_false, true_or, or_true]
  by_cases c4 : cut_line rr.buffer = utf8 "info"
  · have hiq : ¬ (utf8 "info" = utf8 "quit") := by decide
    simp only [c0, c1, c2, c4, hiq, not_true_eq_false, if_true, if_false, true_or]
  by_cases c5 : cut_line rr.buffer = utf8 "game" ∧ room.mode = CHAT_MODE
  · rw [if_neg (not_not.2 c0), if_neg c1, if_neg c2, if_neg c3, if_neg c4, if_pos c5]
    right; right; left
    exact ⟨rfl, rfl, rfl, rfl⟩
  by_cases c6 : room.mode = GAME_MODE
  · rw [if_neg (not_not.2 c0), if_neg c1, if_neg c2, if_neg c3, if_neg c4, if_neg c5, if_pos c6]
    right; right; right; left
    rfl
  by_cases c7 : cut_line rr.buffer = utf8 "poll" ∧ room.mode = CHAT_MODE
  · rw [if_neg (not_not.2 c0), if_neg c1, if_neg c2, if_neg c3, if_neg c4, if_neg c5, if_neg c6,
      if_pos c7]
    right; right; right; right; left
    exact ⟨_, _, rfl⟩
  · rw [if_neg (not_not.2 c0), if_neg c1, if_neg c2, if_neg c3, if_neg c4, if_neg c5, if_neg c6,
      if_neg c7, if_neg hm]
    right; right; right; right; right
    rfl

theorem chatroom_recv_votesOk (reg : Registry) (room : ChatRoom) (i : Nat) (rr : RecvResult)
    (h : VotesOk room) : VotesOk (chatroom_recv reg room i rr).2.1 := by
  have hgp : GAME_MODE ≠ POLL_MODE := by decide
  have hcp : CHAT_MODE ≠ POLL_MODE := by decide
  have hw := chatroom_recv_within reg room i rr h.2.2.1
  have cv := chat_line_votes reg room i (cut_line rr.buffer)
  by_cases hm : room.mode = POLL_MODE
  · rcases chatroom_recv_of_poll reg room i rr hm with e | e | ⟨r, hr, e⟩ | e
    · rw [e]
      exact h
    · rw [e]
      exact remove_user_votesOk reg room i h
    · rw [e]
      exact poll_line_votesOk room i _ r hr hm h
    · rw [e] at hw ⊢
      exact votesOk_same room _ h cv.1 cv.2.1 hw cv.2.2.1 cv.2.2.2.1 cv.2.2.2.2
  · rcases chatroom_recv_of_other reg room i rr hm with e | e | ⟨g1, g2, g3, _⟩ | e | ⟨fd, name, e⟩
      | e
    · rw [e]
      exact h
    · rw [e]
      exact remove_user_votesOk reg room i h
    · apply votesOk_not_poll _ _ _ hw
      · rw [g1]
        exact hgp
      · rw [g2]
        exact h.1
      · rw [g3]
        exact h.2.1
    · have gv := game_line_votes reg room i (cut_line rr.buffer)
      rw [e] at hw ⊢
      apply votesOk_not_poll _ _ _ hw
      · rcases gv.2.2 with g | g
        · rw [g]
          exact hm
        · rw [g]
          exact hcp
      · rw [gv.1]
        exact h.1
      · rw [gv.2.1]
        exact h.2.1
    · rw [e]
      exact start_poll_votesOk room fd name h
    · rw [e] at hw ⊢
      exact votesOk_same room _ h cv.1 cv.2.1 hw cv.2.2.1 cv.2.2.2.1 cv.2.2.2.2

theorem votesOk_invariant : RoomInvariant VotesOk where
  zero := votesOk_not_poll default rfl rfl (by decide) (by decide)
  join := by
    intro room fd h hc
    have h10 : MAX_ROOM_USERS = 10 := rfl
    exact votesOk_same room _ h rfl rfl (by show room.user_count + 1 ≤ MAX_ROOM_USERS; omega)
      rfl rfl rfl
  create := by
    intro room j title h
    exact votesOk_not_poll _ h.1 h.2.1 (show (0 : Int) ≤ MAX_ROOM_USERS from by decide)
      (show CHAT_MODE ≠ POLL_MODE from by decide)
  refresh := by
    intro reg room h
    exact votesOk_same room _ h rfl rfl h.2.2.1 rfl rfl rfl
  recv := chatroom_recv_votesOk

theorem atoi_range (s : CStr) : -2147483648 ≤ atoi s ∧ atoi s ≤ 2147483647 := by
  unfold atoi wrap32
  omega

theorem poll_line_out_of_range (room : ChatRoom) (i : Nat) (buffer : CStr)
    (r : ChatRoom × List Action) (h : poll_line room i buffer = some r)
    (hm : room.mode = POLL_MODE) (hv : VotesOk room)
    (ho : atoi buffer < 1 ∨ atoi buffer > room.poll_count) :
    r.1.poll_votes = room.poll_votes ∧ r.1.vote_received = room.vote_received := by
  obtain ⟨h1, h2, h3, h4⟩ := hv
  obtain ⟨hs2, hs01⟩ := h4 hm
  unfold poll_line at h
  simp only [] at h
  by_cases c0 : room.user_fds.getD i 0 = room.game_host_fd ∧ room.poll_mode_stage = 0
  · rw [if_pos c0] at h
    cases hp : parse_valid_int buffer with
    | none =>
      simp only [hp, Option.some.injEq] at h
      subst h
      exact ⟨rfl, rfl⟩
    | some pc =>
      simp only [hp] at h
      split at h
      · simp only [Option.some.injEq] at h
        subst h
        exact ⟨rfl, rfl⟩
      · simp only [Option.some.injEq] at h
        subst h
        exact ⟨rfl, rfl⟩
  rw [if_neg c0] at h
  by_cases c1 : room.user_fds.getD i 0 = room.game_host_fd ∧ room.poll_mode_stage = 1
  · rw [if_pos c1] at h
    have hst : room.poll_mode_stage ≠ 2 := by
      rw [c1.2]
      decide
    obtain ⟨z, u, _⟩ := hs01 hst
    split at h
    · simp only [Option.some.injEq] at h
      subst h
      exact ⟨set_const_self 0 _ _ z, rfl⟩
    · simp only [Option.some.injEq] at h
      subst h
      exact ⟨set_const_self 0 _ _ z, fill_upto_const_self (-1) _ u _⟩
  rw [if_neg c1] at h
  by_cases c2 : room.poll_mode_stage = 2
  swap
  · rw [if_neg c2] at h
    simp at h
  rw [if_pos c2] at h
  obtain ⟨p1, p2, _, _⟩ := hs2 c2
  have hP : MAX_POLL = 10 := rfl
  have hr := atoi_range buffer
  have hvote : wrap32 (atoi buffer - 1) < 0 ∨ wrap32 (atoi buffer - 1) ≥ room.poll_count := by
    unfold wrap32
    omega
  cases hg : get_user_index room (room.user_fds.getD i 0) with
  | none =>
    simp only [hg, Option.some.injEq] at h
    subst h
    exact ⟨rfl, rfl⟩
  | some user_idx =>
    simp only [hg] at h
    split at h
    · simp only [Option.some.injEq] at h
      subst h
      exact ⟨rfl, rfl⟩
    · simp only [Option.some.injEq] at h
      subst h
      exact ⟨rfl, rfl⟩

theorem remove_user_votes_same (reg : Registry) (room : ChatRoom) (index : Nat)
    (hm : room.mode = POLL_MODE) (hv : VotesOk room) :
    (remove_user reg room index).2.1.poll_votes = room.poll_votes
      ∧ (remove_user reg room index).2.1.vote_received = room.vote_received := by
  have hcp : CHAT_MODE ≠ POLL_MODE := by decide
  obtain ⟨h1, h2, h3, h4⟩ := hv
  obtain ⟨_, hs01⟩ := h4 hm
  unfold remove_user
  simp only []
  split <;> split
  · rename_i c
    exact absurd c.1 hcp
  · exact ⟨rfl, rfl⟩
  · rename_i c
    obtain ⟨z, u, _⟩ := hs01 c.2.1
    exact ⟨fill_upto_const_self 0 _ z _, fill_upto_const_self (-1) _ u _⟩
  · exact ⟨rfl, rfl⟩

/-- C26. In every reachable state, in every room in Poll mode, the per-item
vote counters sum to the number of vote-marker slots, of all MAX_ROOM_USERS,
that hold a recorded vote, and every recorded marker is an index below the
declared count. There, a line whose selection `atoi` reads outside 1 to the
declared count leaves every counter and every marker as it is. -/
theorem vote_conservation :
    (∀ s : Server, Reachable s → ∀ room ∈ s.chatrooms, room.mode = POLL_MODE →
        tally_sum room = ((recorded_votes room : Nat) : Int)
          ∧ ∀ m ∈ room.vote_received.take MAX_ROOM_USERS.toNat,
              m ≠ -1 → 0 ≤ m ∧ m < room.poll_count)
      ∧ (∀ s : Server, Reachable s → ∀ room ∈ s.chatrooms, room.mode = POLL_MODE →
          ∀ (reg : Registry) (i : Nat) (rr : RecvResult),
            atoi (cut_line rr.buffer) < 1 ∨ atoi (cut_line rr.buffer) > room.poll_count →
            (chatroom_recv reg room i rr).2.1.poll_votes = room.poll_votes
              ∧ (chatroom_recv reg room i rr).2.1.vote_received = room.vote_received) := by
  constructor
  · intro s hs room hmem hm
    obtain ⟨h1, h2, _, h4⟩ := reachable_inv votesOk_invariant s hs room hmem
    obtain ⟨hs2, hs01⟩ := h4 hm
    have t1 : room.poll_votes.take MAX_POLL.toNat = room.poll_votes :=
      List.take_of_length_le (by rw [h1]; decide)
    have t2 : room.vote_received.take MAX_ROOM_USERS.toNat = room.vote_received :=
      List.take_of_length_le (by rw [h2]; decide)
    unfold tally_sum recorded_votes
    rw [t1, t2]
    by_cases c2 : room.poll_mode_stage = 2
    · obtain ⟨_, _, p3, p4⟩ := hs2 c2
      refine ⟨p3, ?_⟩
      intro m hmm hne
      rcases p4 m hmm with p | p
      · exact absurd p hne
      · exact p
    · obtain ⟨z, u, _⟩ := hs01 c2
      refine ⟨?_, ?_⟩
      · rw [sum_all_zero _ z, countP_all_unvoted _ u]
        rfl
      · intro m hmm hne
        exact absurd (u m hmm) hne
  · intro s hs room hmem hm reg i rr ho
    have hv := reachable_inv votesOk_invariant s hs room hmem
    have cv := chat_line_votes reg room i (cut_line rr.buffer)
    rcases chatroom_recv_of_poll reg room i rr hm with e | e | ⟨r, hr, e⟩ | e
    · rw [e]
      exact ⟨rfl, rfl⟩
    · rw [e]
      exact remove_user_votes_same reg room i hm hv
    · rw [e]
      exact poll_line_out_of_range room i _ r hr hm hv ho
    · rw [e]
      exact ⟨cv.1, cv.2.1⟩

set_option maxRecDepth 100000 in
/-- Instance of C26: after member 6 has voted 1 in the poll of the reachable
room 0, the counters sum to 1, which is the number of recorded markers, and the
line `7` of member 4 leaves counters and markers as they are. -/
theorem vote_conservation_witness :
    Reachable (state_after (voting_events ++ [Event.room 0 2 (sent_line "1")]))
      ∧ (state_after (voting_events ++ [Event.room 0 2 (sent_line "1")])).room0.mode = POLL_MODE
      ∧ tally_sum (state_after (voting_events ++ [Event.room 0 2 (sent_line "1")])).room0 = 1
      ∧ tally_sum (state_after (voting_events ++ [Event.room 0 2 (sent_line "1")])).room0
          = ((recorded_votes
              (state_after (voting_events ++ [Event.room 0 2 (sent_line "1")])).room0 : Nat) : Int)
      ∧ (chatroom_recv example_registry
            (state_after (voting_events ++ [Event.room 0 2 (sent_line "1")])).room0 0
            (sent_line "7")).2.1.poll_votes
          = (state_after (voting_events ++ [Event.room 0 2 (sent_line "1")])).room0.poll_votes := by
  have hr : Reachable (state_after (voting_events ++ [Event.room 0 2 (sent_line "1")])) :=
    state_after_reachable _ (by decide)
  have hmem : (state_after (voting_events ++ [Event.room 0 2 (sent_line "1")])).room0
      ∈ (state_after (voting_events ++ [Event.room 0 2 (sent_line "1")])).chatrooms := by decide
  have hmode : (state_after (voting_events ++ [Event.room 0 2 (sent_line "1")])).room0.mode
      = POLL_MODE := by decide
  exact ⟨hr, hmode, by decide, (vote_conservation.1 _ hr _ hmem hmode).1,
    (vote_conservation.2 _ hr _ hmem hmode example_registry 0 (sent_line "7") (by decide)).1⟩


/-! ## Room creation -/

theorem map_set_same {α β : Type} [Inhabited α] (f : α → β) (l : List α) (k : Nat) (r : α)
    (h : f r = f (l.getD k default)) : (l.set k r).map f = l.map f := by
  by_cases hk : k < l.length
  · rw [List.map_set]
    apply List.ext_getElem?
    intro n
    rw [List.getElem?_set]
    by_cases hn : k = n
    · subst hn
      simp only [if_true, List.length_map, hk]
      rw [h, List.getD_eq_getElem?_getD, List.getElem?_eq_getElem hk]
      simp [List.getElem?_map, List.getElem?_eq_getElem hk]
    · simp only [hn, if_false]
  · rw [List.set_eq_of_length_le (by omega)]

theorem title_getD (s : Server) (k : Nat) :
    (s.chatrooms.getD k default).title = (titles s).getD k [] := by
  unfold titles
  rw [List.getD_eq_getElem?_getD, List.getD_eq_getElem?_getD, List.getElem?_map]
  cases s.chatrooms[k]? <;> rfl

theorem countP_set_titles (l : List CStr) (k : Nat) (t : CStr) (hk : k < l.length)
    (hold : l.getD k [] = []) :
    (l.set k t).countP (fun t => decide (t ≠ []))
      = l.countP (fun t => decide (t ≠ [])) + (if t ≠ [] then 1 else 0) := by
  rw [List.countP_set _ l k t hk]
  rw [List.getD_eq_getElem?_getD, List.getElem?_eq_getElem hk] at hold
  simp only [Option.getD_some] at hold
  simp [hold]

theorem snprintf_take (cname : CStr) : snprintf MEDIUM_BUFF_SIZE (cname.take 31) = cname.take 31 := by
  unfold snprintf
  rw [List.take_take]
  congr 1

theorem create_room_loop_none (cname : CStr) (spawn : Nat → Bool) (fd : Int) (js : List Nat) :
    ∀ s : Server, (∀ k ∈ js, (s.chatrooms.getD k default).title ≠ []) →
      create_room_loop cname spawn fd js s = (s, []) := by
  induction js with
  | nil => intro s _; rfl
  | cons j rest ih =>
    intro s h
    unfold create_room_loop
    simp only []
    rw [if_neg (h j (List.mem_cons_self j rest))]
    exact ih s (fun k hk => h k (List.mem_cons_of_mem j hk))

theorem create_room_loop_first (cname : CStr) (spawn : Nat → Bool) (fd : Int) (j : Nat)
    (hsp : spawn j = true) :
    ∀ (n a : Nat) (s : Server), a ≤ j → j < a + n →
      (s.chatrooms.getD j default).title = [] →
      (∀ k, a ≤ k → k < j → (s.chatrooms.getD k default).title ≠ []) →
      create_room_loop cname spawn fd (List.range' a n) s =
        ({ s with
           chatrooms := s.chatrooms.set j (created_room (s.chatrooms.getD j default) j cname)
           room_count := s.room_count + 1
           workers := j :: s.workers },
         [Action.send fd
           (snprintf MEDIUM_BUFF_SIZE
             (utf8 "채팅방 " ++ cname.take 31 ++ utf8 "이 개설되었습니다."))]) := by
  intro n
  induction n with
  | zero =>
    intro a s h1 h2
    omega
  | succ n ih =>
    intro a s h1 h2 ht hlow
    rw [List.range'_succ]
    unfold create_room_loop
    simp only []
    by_cases c : a = j
    · subst c
      rw [if_pos ht, if_pos hsp, snprintf_take]
      rfl
    · rw [if_neg (hlow a (le_refl a) (by omega))]
      exact ih (a + 1) s (by omega) (by omega) ht (fun k hk1 hk2 => hlow k (by omega) hk2)

theorem titlesCounted_of_same (s s1 : Server) (h : TitlesCounted s)
    (e1 : titles s1 = titles s) (e2 : s1.room_count = s.room_count) : TitlesCounted s1 := by
  unfold TitlesCounted
  rw [e1, e2]
  exact h

theorem titles_set (s : Server) (k : Nat) (r : ChatRoom) :
    (s.chatrooms.set k r).map (fun room => room.title) = (titles s).set k r.title := by
  unfold titles
  rw [List.map_set]

theorem create_room_loop_counted (cname : CStr) (spawn : Nat → Bool) (fd : Int)
    (hc : cname.take 31 ≠ []) (js : List Nat) :
    ∀ s : Server, (∀ j ∈ js, j < MAX_CHATROOMS.toNat) → TitlesCounted s →
      TitlesCounted (create_room_loop cname spawn fd js s).1 := by
  induction js with
  | nil => intro s _ h; exact h
  | cons j rest ih =>
    intro s hjs h
    unfold create_room_loop
    simp only []
    have hj : j < (titles s).length := by
      rw [h.1]
      exact hjs j (List.mem_cons_self j rest)
    have hrest : ∀ k ∈ rest, k < MAX_CHATROOMS.toNat := fun k hk =>
      hjs k (List.mem_cons_of_mem j hk)
    split
    · rename_i ht
      rw [title_getD] at ht
      split
      · refine ⟨?_, ?_⟩
        · show ((s.chatrooms.set j _).map (fun room => room.title)).length = _
          rw [titles_set, List.length_set]
          exact h.1
        · show ((((s.chatrooms.set j _).map (fun room => room.title)).countP _ : Nat) : Int)
            = s.room_count + 1
          rw [titles_set, countP_set_titles _ _ _ hj ht, ← h.2]
          have : (snprintf MEDIUM_BUFF_SIZE (cname.take 31)) ≠ [] := by
            rw [snprintf_take]
            exact hc
          simp only [this, ne_eq, not_false_eq_true, if_true]
          push_cast
          rfl
      · apply ih _ hrest
        refine ⟨?_, ?_⟩
        · show ((s.chatrooms.set j _).map (fun room => room.title)).length = _
          rw [titles_set, List.length_set]
          exact h.1
        · show ((((s.chatrooms.set j _).map (fun room => room.title)).countP _ : Nat) : Int)
            = s.room_count
          rw [titles_set, countP_set_titles _ _ _ hj ht, ← h.2]
          simp
    · exact ih s hrest h

theorem full_no_empty (s : Server) (h : TitlesCounted s) (hfull : s.room_count ≥ MAX_CHATROOMS) :
    ∀ k, k < MAX_CHATROOMS.toNat → (s.chatrooms.getD k default).title ≠ [] := by
  intro k hk
  obtain ⟨hl, hc⟩ := h
  have h50 : MAX_CHATROOMS = 50 := rfl
  have h50n : MAX_CHATROOMS.toNat = 50 := rfl
  have hle : (titles s).countP (fun t => decide (t ≠ [])) ≤ (titles s).length :=
    List.countP_le_length _
  have hall : (titles s).countP (fun t => decide (t ≠ [])) = (titles s).length := by omega
  rw [List.countP_eq_length] at hall
  rw [title_getD]
  have hk1 : k < (titles s).length := by omega
  rw [List.getD_eq_getElem?_getD, List.getElem?_eq_getElem hk1]
  simpa using hall _ (List.getElem_mem hk1)

theorem exists_first_free (s : Server) (h : TitlesCounted s)
    (hroom : s.room_count < MAX_CHATROOMS) :
    ∃ j, j < MAX_CHATROOMS.toNat ∧ j < s.chatrooms.length
      ∧ (s.chatrooms.getD j default).title = []
      ∧ ∀ k, k < j → (s.chatrooms.getD k default).title ≠ [] := by
  obtain ⟨hl, hc⟩ := h
  have h50 : MAX_CHATROOMS = 50 := rfl
  have h50n : MAX_CHATROOMS.toNat = 50 := rfl
  have hne : (titles s).countP (fun t => decide (t ≠ [])) ≠ (titles s).length := by omega
  rw [Ne, List.countP_eq_length] at hne
  push_neg at hne
  obtain ⟨t, ht, hp⟩ := hne
  obtain ⟨m, hm, rfl⟩ := List.mem_iff_getElem.1 ht
  have hex : ∃ j, j < MAX_CHATROOMS.toNat ∧ (s.chatrooms.getD j default).title = [] := by
    refine ⟨m, by omega, ?_⟩
    rw [title_getD, List.getD_eq_getElem?_getD, List.getElem?_eq_getElem hm]
    simpa using hp
  refine ⟨Nat.find hex, (Nat.find_spec hex).1, ?_, (Nat.find_spec hex).2, ?_⟩
  · have := (Nat.find_spec hex).1
    have hlen : s.chatrooms.length = (titles s).length := by simp [titles]
    omega
  · intro k hk hk0
    exact Nat.find_min hex hk ⟨by have := (Nat.find_spec hex).1; omega, hk0⟩

theorem create_dialog_counted (s : Server) (i : Nat) (fd : Int) (spawn : Nat → Bool)
    (inputs : List RecvResult) (hs : TitlesCounted s) :
    ∀ (s1 : Server) (a1 : List Action), create_dialog s i fd spawn inputs = Outcome.ok s1 a1 →
      TitlesCounted s1 := by
  have hrange : ∀ k ∈ List.range MAX_CHATROOMS.toNat, k < MAX_CHATROOMS.toNat := by
    intro k hk
    exact List.mem_range.1 hk
  induction inputs with
  | nil => intro s1 a1 h; simp [create_dialog] at h
  | cons rr rest ih =>
    intro s1 a1 h
    unfold create_dialog at h
    simp only [] at h
    by_cases c1 : rr.n ≤ 0
    · rw [if_pos c1] at h
      by_cases cf : s.room_count ≥ MAX_CHATROOMS
      · rw [if_pos cf] at h
        split at h
        · simp at h
        · simp only [Outcome.ok.injEq] at h
          rw [← h.1]
          exact titlesCounted_of_same s _ hs rfl rfl
      · rw [if_neg cf] at h
        simp at h
    · rw [if_neg c1] at h
      by_cases c2 : strlen (trim (cut_line rr.buffer)) = 0
      · rw [if_pos c2] at h
        by_cases cf : s.room_count ≥ MAX_CHATROOMS
        · rw [if_pos cf] at h
          unfold create_finish at h
          simp only [Outcome.ok.injEq] at h
          rw [← h.1, create_room_loop_none _ _ _ _ s
            (fun k hk => full_no_empty s hs cf k (hrange k hk))]
          exact hs
        · rw [if_neg cf] at h
          rw [pre_ok_iff] at h
          obtain ⟨a0, h0, _⟩ := h
          exact ih s1 a0 h0
      · rw [if_neg c2] at h
        unfold create_finish at h
        simp only [Outcome.ok.injEq] at h
        rw [← h.1]
        apply create_room_loop_counted _ _ _ _ _ s hrange hs
        intro hc
        apply c2
        cases hcn : trim (cut_line rr.buffer) with
        | nil => rfl
        | cons a t =>
          rw [hcn] at hc
          simp at hc

theorem join_dialog_same (s : Server) (i : Nat) (fd : Int) (inputs : List RecvResult) :
    ∀ (s1 : Server) (a1 : List Action), join_dialog s i fd inputs = Outcome.ok s1 a1 →
      titles s1 = titles s ∧ s1.room_count = s.room_count := by
  induction inputs with
  | nil => intro s1 a1 h; simp [join_dialog] at h
  | cons rr rest ih =>
    intro s1 a1 h
    unfold join_dialog at h
    simp only [] at h
    repeat' split at h
    all_goals
      first
      | (simp only [pre_ok_iff] at h
         obtain ⟨a0, h0, _⟩ := h
         exact ih s1 a0 h0)
      | (simp only [Outcome.ok.injEq] at h
         rw [← h.1]
         first
         | exact ⟨rfl, rfl⟩
         | exact ⟨map_set_same (fun room : ChatRoom => room.title) _ _ _ rfl, rfl⟩)
      | simp at h

theorem rename_dialog_same (s : Server) (i : Nat) (fd : Int) (inputs : List RecvResult) :
    ∀ (s1 : Server) (a1 : List Action), rename_dialog s i fd inputs = Outcome.ok s1 a1 →
      titles s1 = titles s ∧ s1.room_count = s.room_count := by
  induction inputs with
  | nil => intro s1 a1 h; simp [rename_dialog] at h
  | cons rr rest ih =>
    intro s1 a1 h
    unfold rename_dialog at h
    split at h
    · simp at h
    · split at h
      · rw [pre_ok_iff] at h
        obtain ⟨a0, h0, _⟩ := h
        exact ih s1 a0 h0
      · simp only [Outcome.ok.injEq] at h
        rw [← h.1]
        exact ⟨rfl, rfl⟩

theorem lobby_recv_counted (s : Server) (i : Nat) (rr : RecvResult) (more : List RecvResult)
    (spawn : Nat → Bool) (hs : TitlesCounted s) (s1 : Server) (a1 : List Action)
    (h : lobby_recv s i rr more spawn = Outcome.ok s1 a1) : TitlesCounted s1 := by
  have hok : ∀ a : List Action, Outcome.ok s a = Outcome.ok s1 a1 → TitlesCounted s1 := by
    intro a ha
    simp only [Outcome.ok.injEq] at ha
    rw [← ha.1]
    exact hs
  have hrm : ∀ a : List Action,
      Outcome.ok { s with reg := (remove_client s.reg i).1 } a = Outcome.ok s1 a1 →
      TitlesCounted s1 := by
    intro a ha
    simp only [Outcome.ok.injEq] at ha
    rw [← ha.1]
    exact hs
  unfold lobby_recv at h
  simp only [] at h
  by_cases c1 : (i : Int) < s.reg.client_count
  swap
  · simp only [c1, not_false_eq_true, if_true] at h
    exact hok _ h
  by_cases c2 : (s.reg.clients.getD i default).state ≠ ClientState.STATE_LOBBY
  · simp only [c1, c2, ne_eq, not_true_eq_false, not_false_eq_true, if_true, if_false] at h
    exact hok _ h
  by_cases c3 : rr.n < 0
  · simp only [c1, c2, c3, ne_eq, not_true_eq_false, not_false_eq_true, if_true, if_false] at h
    exact hok _ h
  by_cases c4 : rr.n = 0
  · simp only [c1, c2, c3, c4, ne_eq, not_true_eq_false, not_false_eq_true, if_true, if_false] at h
    exact hrm _ h
  by_cases c5 : strlen (trim (cut_line rr.buffer)) = 0
  · simp only [c1, c2, c3, c4, c5, ne_eq, not_true_eq_false, not_false_eq_true, if_true,
      if_false] at h
    exact hok _ h
  by_cases m0 : trim (cut_line rr.buffer) = utf8 "0"
  · simp only [c1, c2, c3, c4, c5, m0, ne_eq, not_true_eq_false, not_false_eq_true, if_true,
      if_false] at h
    exact hok _ h
  by_cases m1 : trim (cut_line rr.buffer) = utf8 "1"
  · simp only [c1, c2, c3, c4, c5, m0, m1, ne_eq, not_true_eq_false, not_false_eq_true, if_true,
      if_false] at h
    obtain ⟨e1, e2⟩ := rename_dialog_same s i _ more s1 a1 h
    exact titlesCounted_of_same s s1 hs e1 e2
  by_cases m2 : trim (cut_line rr.buffer) = utf8 "2"
  · simp only [c1, c2, c3, c4, c5, m0, m1, m2, ne_eq, not_true_eq_false, not_false_eq_true,
      if_true, if_false] at h
    obtain ⟨e1, e2⟩ := join_dialog_same s i _ more s1 a1 h
    exact titlesCounted_of_same s s1 hs e1 e2
  by_cases m3 : trim (cut_line rr.buffer) = utf8 "3"
  · simp only [c1, c2, c3, c4, c5, m0, m1, m2, m3, ne_eq, not_true_eq_false, not_false_eq_true,
      if_true, if_false] at h
    exact create_dialog_counted s i _ spawn more hs s1 a1 h
  by_cases m4 : trim (cut_line rr.buffer) = utf8 "4"
  · simp only [c1, c2, c3, c4, c5, m0, m1, m2, m3, m4, ne_eq, not_true_eq_false,
      not_false_eq_true, if_true, if_false] at h
    exact hrm _ h
  · simp only [c1, c2, c3, c4, c5, m0, m1, m2, m3, m4, ne_eq, not_true_eq_false,
      not_false_eq_true, if_true, if_false] at h
    exact hok _ h

theorem remove_user_title (reg : Registry) (room : ChatRoom) (index : Nat) :
    (remove_user reg room index).2.1.title = room.title := by
  unfold remove_user
  simp only []
  split <;> split <;> rfl

theorem game_line_title (reg : Registry) (room : ChatRoom) (i : Nat) (buffer : CStr) :
    (game_line reg room i buffer).1.title = room.title := by
  unfold game_line
  simp only []
  repeat' split
  all_goals rfl

theorem poll_line_title (room : ChatRoom) (i : Nat) (buffer : CStr)
    (r : ChatRoom × List Action) (h : poll_line room i buffer = some r) :
    r.1.title = room.title := by
  unfold poll_line at h
  simp only [] at h
  repeat' split at h
  all_goals
    first
    | (simp only [Option.some.injEq] at h
       subst h
       rfl)
    | simp at h

theorem chat_line_title (reg : Registry) (room : ChatRoom) (i : Nat) (buffer : CStr) :
    (chat_line reg room i buffer).1.title = room.title := by
  unfold chat_line
  simp only []
  repeat' split
  all_goals rfl

theorem chatroom_recv_title (reg : Registry) (room : ChatRoom) (i : Nat) (rr : RecvResult) :
    (chatroom_recv reg room i rr).2.1.title = room.title := by
  have hrem := remove_user_title reg room i
  have hgame := game_line_title reg room i (cut_line rr.buffer)
  have hchat := chat_line_title reg room i (cut_line rr.buffer)
  unfold chatroom_recv
  simp only []
  repeat' split
  all_goals
    first
    | rfl
    | exact hrem
    | exact hgame
    | exact hchat
    | (rename_i r hr
       exact poll_line_title room i _ r (by
         revert hr
         split
         · exact id
         · intro h0; simp at h0))

theorem step_counted (s : Server) (e : Event) (s1 : Server) (acts : List Action)
    (hs : TitlesCounted s) (h : step s e = Outcome.ok s1 acts) : TitlesCounted s1 := by
  cases e with
  | accept cli_fd rr =>
    simp only [step, Outcome.ok.injEq] at h
    rw [← h.1]
    unfold accept_client
    repeat' split
    all_goals exact hs
  | lobby i rr more spawn => exact lobby_recv_counted s i rr more spawn hs s1 acts h
  | refresh k =>
    simp only [step] at h
    split at h
    · simp only [Outcome.ok.injEq] at h
      rw [← h.1]
      exact titlesCounted_of_same s _ hs
        (map_set_same (fun room : ChatRoom => room.title) _ _ _ rfl) rfl
    · simp only [Outcome.ok.injEq] at h
      rw [← h.1]
      exact hs
  | room k i rr =>
    simp only [step] at h
    split at h
    · simp only [Outcome.ok.injEq] at h
      rw [← h.1]
      exact titlesCounted_of_same s _ hs
        (map_set_same (fun room : ChatRoom => room.title) _ _ _
          (chatroom_recv_title _ _ i rr)) rfl
    · simp only [Outcome.ok.injEq] at h
      rw [← h.1]
      exact hs

set_option maxRecDepth 100000 in
theorem default_rooms_counted (spawn : Nat → Bool) : TitlesCounted (default_rooms spawn) := by
  have hr : List.range 3 = [0, 1, 2] := by decide
  unfold default_rooms
  rw [hr]
  cases h0 : spawn 0 <;> cases h1 : spawn 1 <;> cases h2 : spawn 2 <;>
    simp only [default_rooms_loop, h0, h1, h2, if_true, if_false, Bool.false_eq_true] <;>
    unfold TitlesCounted <;>
    decide

theorem reachable_counted (s : Server) (h : Reachable s) : TitlesCounted s := by
  induction h with
  | init spawn => exact default_rooms_counted spawn
  | step s e s1 acts _ hstep ih => exact step_counted s e s1 acts ih hstep

/-- C21, amended. In every reachable state with fewer than MAX_CHATROOMS active
rooms there is a first slot with an empty title, and when a non-empty title is
read and the worker of that slot starts, that slot receives the first 31 bytes
of the title with member count 0, mode Chat and an empty answer, the
active-room count goes up by exactly one and no other slot changes. In every
reachable state with MAX_CHATROOMS active rooms, menu 3 changes no room slot
and not the active-room count, whatever is read. -/
theorem room_creation :
    (∀ s : Server, Reachable s → s.room_count < MAX_CHATROOMS →
        ∃ j, j < MAX_CHATROOMS.toNat ∧ j < s.chatrooms.length
          ∧ (s.chatrooms.getD j default).title = []
          ∧ (∀ k, k < j → (s.chatrooms.getD k default).title ≠ [])
          ∧ ∀ (i : Nat) (fd : Int) (spawn : Nat → Bool) (rr : RecvResult)
              (rest : List RecvResult),
              0 < rr.n → trim (cut_line rr.buffer) ≠ [] → spawn j = true →
              ∃ acts, create_dialog s i fd spawn (rr :: rest) =
                Outcome.ok
                  { s with
                    chatrooms := s.chatrooms.set j
                      (created_room (s.chatrooms.getD j default) j (trim (cut_line rr.buffer)))
                    room_count := s.room_count + 1
                    workers := j :: s.workers }
                  acts)
      ∧ (∀ s : Server, Reachable s → s.room_count ≥ MAX_CHATROOMS →
          ∀ (i : Nat) (fd : Int) (spawn : Nat → Bool) (inputs : List RecvResult),
            (create_dialog s i fd spawn inputs).server.chatrooms = s.chatrooms
              ∧ (create_dialog s i fd spawn inputs).server.room_count = s.room_count) := by
  have hrange : ∀ k ∈ List.range MAX_CHATROOMS.toNat, k < MAX_CHATROOMS.toNat := by
    intro k hk
    exact List.mem_range.1 hk
  constructor
  · intro s hs hroom
    obtain ⟨j, hj, hjl, ht, hlow⟩ := exists_first_free s (reachable_counted s hs) hroom
    refine ⟨j, hj, hjl, ht, hlow, ?_⟩
    intro i fd spawn rr rest hn hc hsp
    have c1 : ¬ rr.n ≤ 0 := by omega
    have c2 : ¬ strlen (trim (cut_line rr.buffer)) = 0 := by
      intro h
      exact hc (List.length_eq_zero.1 h)
    unfold create_dialog
    simp only []
    rw [if_neg c1, if_neg c2]
    unfold create_finish
    rw [List.range_eq_range', create_room_loop_first _ spawn fd j hsp _ 0 s (Nat.zero_le j)
      (by omega) ht (fun k _ hk => hlow k hk)]
    exact ⟨_, rfl⟩
  · intro s hs hfull i fd spawn inputs
    have hnone := fun cname => create_room_loop_none cname spawn fd _ s
      (fun k hk => full_no_empty s (reachable_counted s hs) hfull k (hrange k hk))
    cases inputs with
    | nil => exact ⟨rfl, rfl⟩
    | cons rr rest =>
      unfold create_dialog
      simp only []
      by_cases c1 : rr.n ≤ 0
      · rw [if_pos c1, if_pos hfull]
        split <;> exact ⟨rfl, rfl⟩
      · rw [if_neg c1]
        by_cases c2 : strlen (trim (cut_line rr.buffer)) = 0
        · rw [if_pos c2, if_pos hfull]
          unfold create_finish
          rw [hnone]
          exact ⟨rfl, rfl⟩
        · rw [if_neg c2]
          unfold create_finish
          rw [hnone]
          exact ⟨rfl, rfl⟩

set_option maxRecDepth 1000000 in
/-- Instance of C21, amended: with the three rooms of program start, the title
`lounge` goes to slot 3; and with all 50 rooms active, menu 3 followed by the
line `lounge` leaves the room table and the count as they are. -/
theorem room_creation_witness :
    Reachable (state_after [Event.accept 4 (sent_line "alice")])
      ∧ (∃ j, j < MAX_CHATROOMS.toNat
          ∧ ((state_after [Event.accept 4 (sent_line "alice")]).chatrooms.getD j default).title = []
          ∧ ∃ acts, create_dialog (state_after [Event.accept 4 (sent_line "alice")]) 0 4 spawn_ok
                [sent_line "lounge"] =
              Outcome.ok
                { state_after [Event.accept 4 (sent_line "alice")] with
                  chatrooms := (state_after [Event.accept 4 (sent_line "alice")]).chatrooms.set j
                    (created_room
                      ((state_after [Event.accept 4 (sent_line "alice")]).chatrooms.getD j default)
                      j (trim (cut_line (sent_line "lounge").buffer)))
                  room_count := (state_after [Event.accept 4 (sent_line "alice")]).room_count + 1
                  workers := j :: (state_after [Event.accept 4 (sent_line "alice")]).workers }
                acts)
      ∧ ((state_after [Event.accept 4 (sent_line "alice"),
            Event.lobby 0 (sent_line "3") [sent_line "lounge"] spawn_ok]).chatrooms.getD 3
            default).title = utf8 "lounge"
      ∧ Reachable (state_after full_table_events)
      ∧ (state_after full_table_events).room_count = 50
      ∧ (create_dialog (state_after full_table_events) 0 4 spawn_ok
            [sent_line "lounge"]).server.chatrooms = (state_after full_table_events).chatrooms := by
  have hr : Reachable (state_after [Event.accept 4 (sent_line "alice")]) :=
    state_after_reachable _ (by decide)
  have hf : Reachable (state_after full_table_events) := state_after_reachable _ (by decide)
  refine ⟨hr, ?_, by decide, hf, by decide, ?_⟩
  · obtain ⟨j, h1, _, h3, _, h5⟩ := room_creation.1 _ hr (by decide)
    exact ⟨j, h1, h3, h5 0 4 spawn_ok (sent_line "lounge") [] (by decide) (by decide) rfl⟩
  · exact (room_creation.2 _ hf (by decide) 0 4 spawn_ok [sent_line "lounge"]).1

set_option maxRecDepth 100000 in
/-- C21 as stated fails: in the reachable state with the three rooms of program
start, the 40-byte title read by menu 3 is not the title slot 3 receives, which
is its first 31 bytes. -/
theorem room_title_counterexample :
    Reachable (state_after [Event.accept 4 (sent_line "alice")])
      ∧ (state_after [Event.accept 4 (sent_line "alice")]).room_count = 3
      ∧ trim (cut_line (sent_line "0123456789012345678901234567890123456789").buffer)
          = utf8 "0123456789012345678901234567890123456789"
      ∧ ((state_after [Event.accept 4 (sent_line "alice")]).chatrooms.getD 3 default).title = []
      ∧ ((state_after [Event.accept 4 (sent_line "alice"),
            Event.lobby 0 (sent_line "3")
              [sent_line "0123456789012345678901234567890123456789"] spawn_ok]).chatrooms.getD 3
            default).title = utf8 "0123456789012345678901234567890"
      ∧ utf8 "0123456789012345678901234567890" ≠ utf8 "0123456789012345678901234567890123456789"
      ∧ (state_after [Event.accept 4 (sent_line "alice"),
            Event.lobby 0 (sent_line "3")
              [sent_line "0123456789012345678901234567890123456789"] spawn_ok]).room_count
          = 4 := by
  refine ⟨state_after_reachable _ (by decide), ?_⟩
  decide

set_option maxRecDepth 1000000 in
/-- With a full room table menu 3 sends the refusal and the menu and then
still sends the title prompt and waits in `recv`; the next line of the client,
here `2`, is read as a title and dropped, and the menu is sent once more. -/
theorem full_table_reads_title :
    (∀ (s : Server) (i : Nat) (fd : Int) (spawn : Nat → Bool), s.room_count ≥ MAX_CHATROOMS →
        create_dialog s i fd spawn [] =
          Outcome.blocked s
            ([Action.send fd (utf8 "더 이상 채팅방을 개설할 수 없습니다.\n")] ++ send_menu fd
              ++ [Action.send fd (utf8 "개설할 채팅방 이름을 입력하세요.\n")]))
      ∧ (lobby_recv (state_after full_table_events) 0 (sent_line "3") [sent_line "2"]
            spawn_ok).state? = some (state_after full_table_events)
      ∧ (lobby_recv (state_after full_table_events) 0 (sent_line "3") [sent_line "2"]
            spawn_ok).acts =
          [Action.send 4 (utf8 "더 이상 채팅방을 개설할 수 없습니다.\n")] ++ send_menu 4
            ++ [Action.send 4 (utf8 "개설할 채팅방 이름을 입력하세요.\n")] ++ send_menu 4 := by
  refine ⟨?_, by decide, by decide⟩
  intro s i fd spawn hfull
  unfold create_dialog create_prompt
  rw [if_pos hfull]


/-! ## Lock order -/

set_option maxRecDepth 100000 in
/-- C23, the code at a failing input. When client 4, in the lobby, chooses menu
2 and room 0, the command loop of `main_loop` locks room 0 while it holds
`client_lock`; when client 4, then a member of room 0, sends `quit`, the worker
of room 0 locks `client_lock` in `remove_user` while it holds the lock of room
0. Both orders occur. -/
theorem lock_order_both_ways :
    Reachable (state_after [Event.accept 4 (sent_line "alice")])
      ∧ join_pass_locks (state_after [Event.accept 4 (sent_line "alice")]) 0 [sent_line "0"]
          = [LockOp.lock Mutex.client_lock, LockOp.lock (Mutex.room_lock 0),
             LockOp.unlock (Mutex.room_lock 0), LockOp.unlock Mutex.client_lock]
      ∧ locks_while_holding Mutex.is_client Mutex.is_room []
          (join_pass_locks (state_after [Event.accept 4 (sent_line "alice")]) 0 [sent_line "0"])
          = true
      ∧ Reachable (state_after [Event.accept 4 (sent_line "alice"),
          Event.lobby 0 (sent_line "2") [sent_line "0"] spawn_ok])
      ∧ chatroom_pass_locks 0
          (state_after [Event.accept 4 (sent_line "alice"),
            Event.lobby 0 (sent_line "2") [sent_line "0"] spawn_ok]).room0 0 (sent_line "quit")
          = [LockOp.lock (Mutex.room_lock 0), LockOp.lock Mutex.client_lock,
             LockOp.unlock Mutex.client_lock, LockOp.unlock (Mutex.room_lock 0)]
      ∧ locks_while_holding Mutex.is_room Mutex.is_client []
          (chatroom_pass_locks 0
            (state_after [Event.accept 4 (sent_line "alice"),
              Event.lobby 0 (sent_line "2") [sent_line "0"] spawn_ok]).room0 0
            (sent_line "quit"))
          = true := by
  refine ⟨state_after_reachable _ (by decide), by decide, by decide,
    state_after_reachable _ (by decide), by decide, by decide⟩

end ChatServer
